import Mathlib

/-!
Verification development for the shp2imdf converter backend.

This file gives a shallow embedding of the backend pipeline modules
(detector, validator, autofix, importer, generator, export router) and
proves properties of the embedded code.

Modelling conventions:
* Python JSON-ish values (dicts/lists as used for GeoJSON features) are the
  mutual inductives `JV`/`JA`/`JO`; dicts are insertion-ordered association
  lists, matching CPython dict semantics.
* Python floats are modelled as exact decimals: integers scaled by 10^12
  (`floatScale`); Python ints keep their own constructor because
  `isinstance(x, int)` distinguishes them.
* Shapely geometry objects are opaque: a `Shapely G` record supplies the
  library operations the backend calls (`shape`, `is_valid`, `centroid`,
  `intersection`, `unary_union`, ...).  Theorems quantify over the model,
  and witnesses instantiate it with small concrete models.
* Randomness (`uuid4`) is modelled by an explicit stream of fresh strings.
-/

/-- Scale factor for the exact-decimal model of Python floats. -/
def floatScale : Int := 1000000000000

mutual
/-- Python/JSON value as handled by the backend: None, bool, int, float
(scaled by `floatScale`), str, list, dict. -/
inductive JV where
  | null
  | bool (b : Bool)
  | int (n : Int)
  | float (z : Int)
  | str (s : String)
  | arr (xs : JA)
  | obj (kvs : JO)
/-- A Python list of `JV` values. -/
inductive JA where
  | nil
  | cons (hd : JV) (tl : JA)
/-- A Python dict with string keys, insertion ordered. -/
inductive JO where
  | nil
  | cons (k : String) (v : JV) (tl : JO)
end

namespace JA

/-- Convert an embedded list to a Lean list. -/
def toList : JA → List JV
  | .nil => []
  | .cons x xs => x :: toList xs

/-- Build an embedded list from a Lean list. -/
def ofList : List JV → JA
  | [] => .nil
  | x :: xs => .cons x (ofList xs)

end JA

namespace JO

/-- `d.get(k)` returning the first (and, for well-formed dicts, only) value. -/
def get? : JO → String → Option JV
  | .nil, _ => none
  | .cons k v tl, key => if k = key then some v else get? tl key

/-- `k in d`. -/
def hasKey (d : JO) (key : String) : Bool :=
  (d.get? key).isSome

/-- `d[k] = v`: replace the value in place if the key exists (CPython keeps
the original insertion position), otherwise append. -/
def setd : JO → String → JV → JO
  | .nil, key, v => .cons key v .nil
  | .cons k w tl, key, v =>
    if k = key then .cons k v tl else .cons k w (setd tl key v)

/-- The key/value pairs as a Lean list. -/
def toList : JO → List (String × JV)
  | .nil => []
  | .cons k v tl => (k, v) :: toList tl

/-- Build a dict from a Lean list of pairs (assumed distinct keys). -/
def ofList : List (String × JV) → JO
  | [] => .nil
  | (k, v) :: tl => .cons k v (ofList tl)

end JO

/-! ### Python string helpers (exact, kernel-computable) -/

/-- Python `str.lower()` (ASCII model). -/
def pyLower (s : String) : String := String.mk (s.data.map Char.toLower)

/-- Python `str.upper()` (ASCII model). -/
def pyUpper (s : String) : String := String.mk (s.data.map Char.toUpper)

/-- Characters Python `str.strip()` removes. -/
def pyIsSpace (c : Char) : Bool :=
  c = ' ' || c = '\t' || c = '\n' || c = '\x0d' || c = '\x0b' || c = '\x0c'

/-- Python `str.strip()` (ASCII whitespace model). -/
def pyStrip (s : String) : String :=
  String.mk (((s.data.dropWhile pyIsSpace).reverse.dropWhile pyIsSpace).reverse)

/-- Python `tok.isdigit()` for ASCII strings: nonempty and all digits. -/
def pyIsDigitStr (s : String) : Bool :=
  !s.data.isEmpty && s.data.all Char.isDigit

/-- Lexicographic `≤` on char lists by code point (Python string order). -/
def lexLeChars : List Char → List Char → Bool
  | [], _ => true
  | _ :: _, [] => false
  | a :: as, b :: bs =>
    if a.val.toNat < b.val.toNat then true
    else if b.val.toNat < a.val.toNat then false
    else lexLeChars as bs

/-- Python `s <= t` on strings. -/
def pyStrLe (s t : String) : Bool := lexLeChars s.data t.data

/-- Python `max(s, t)` on strings (`t` wins ties, as in CPython `max`). -/
def pyStrMax (s t : String) : String := if pyStrLe t s then s else t

/-- Python `min(s, t)` on strings. -/
def pyStrMin (s t : String) : String := if pyStrLe s t then s else t

/-- Substring test: Python `needle in haystack`. -/
def subListOf (needle : List Char) : List Char → Bool
  | [] => needle.isEmpty
  | c :: cs => List.isPrefixOf needle (c :: cs) || subListOf needle cs

/-- Python `needle in haystack` for strings. -/
def pyInStr (needle haystack : String) : Bool :=
  needle.data.isEmpty || subListOf needle.data haystack.data

/-- Python `s.startswith(p)`. -/
def pyStartsWith (p s : String) : Bool := List.isPrefixOf p.data s.data

/-- Stable insertion into a sorted list (used to model Python `sorted`). -/
def stableInsert (le : α → α → Bool) (x : α) : List α → List α
  | [] => [x]
  | y :: ys => if le x y then x :: y :: ys else y :: stableInsert le x ys

/-- Stable sort (insertion sort), the behaviour of Python `sorted`. -/
def stableSort (le : α → α → Bool) : List α → List α
  | [] => []
  | x :: xs => stableInsert le x (stableSort le xs)

/-- Deduplicate keeping the first occurrence of each element. -/
def dedupKeepFirst [DecidableEq α] : List α → List α
  | [] => []
  | x :: xs =>
    let rest := dedupKeepFirst xs
    x :: rest.filter (fun y => y ≠ x)

/-! ### Python `uuid.UUID(str)` acceptance model

CPython's constructor does
`hex.replace('urn:', '').replace('uuid:', '').strip('{}').replace('-', '')`,
requires the remainder to have length 32, and feeds it to `int(_, 16)`
(which tolerates surrounding whitespace, one sign, and single underscores
between hex digits). -/

/-- Remove all (non-overlapping, leftmost-first) occurrences of `pat`;
fuel-driven structural recursion (fuel bounds the list length). -/
def removeAllSubF (pat : List Char) : Nat → List Char → List Char
  | _, [] => []
  | 0, l => l
  | n + 1, c :: cs =>
    if List.isPrefixOf pat (c :: cs) && decide (0 < pat.length) then
      removeAllSubF pat n (List.drop (pat.length - 1) cs)
    else
      c :: removeAllSubF pat n cs

/-- Remove all (non-overlapping, leftmost-first) occurrences of `pat`. -/
def removeAllSub (pat : List Char) (l : List Char) : List Char :=
  removeAllSubF pat l.length l

/-- Python `str.strip('{}')`: drop leading/trailing braces. -/
def stripBraces (l : List Char) : List Char :=
  ((l.dropWhile (fun c => c = '{' || c = '}')).reverse.dropWhile
    (fun c => c = '{' || c = '}')).reverse

/-- Hex digit test for `int(_, 16)`. -/
def isHexDigit (c : Char) : Bool :=
  c.isDigit || ('a' ≤ c && c ≤ 'f') || ('A' ≤ c && c ≤ 'F')

/-- Digits-with-single-underscores body of an `int(_, 16)` literal, after
the first digit has been consumed. -/
def hexTail : List Char → Bool
  | [] => true
  | '_' :: c :: cs => isHexDigit c && hexTail cs
  | '_' :: [] => false
  | c :: cs => isHexDigit c && hexTail cs

/-- Whether `int(String.mk l, 16)` succeeds. -/
def intHex16Ok (l : List Char) : Bool :=
  let l := (l.dropWhile pyIsSpace).reverse.dropWhile pyIsSpace |>.reverse
  let l := match l with
    | '+' :: rest => rest
    | '-' :: rest => rest
    | rest => rest
  match l with
  | [] => false
  | c :: cs => isHexDigit c && hexTail cs

/-- Model of `_looks_like_uuid` (autofix.py / validator.py): whether
`uuid.UUID(value)` succeeds. -/
def looksLikeUuid (value : String) : Bool :=
  let l := removeAllSub "urn:".data value.data
  let l := removeAllSub "uuid:".data l
  let l := stripBraces l
  let l := l.filter (fun c => c ≠ '-')
  l.length = 32 && intHex16Ok l

/-! ### Detector (backend/src/detector.py) -/

/-- Mirror of `schemas.ImportedFile` (pydantic model). -/
structure ImportedFile where
  stem : String
  geometry_type : String := ""
  feature_count : Int := 0
  attribute_columns : List String := []
  detected_type : Option String := none
  detected_level : Option Int := none
  level_name : Option String := none
  short_name : Option String := none
  outdoor : Bool := false
  level_category : String := "unspecified"
  confidence : String := "red"
  crs_detected : Option String := none
  warnings : List String := []
deriving DecidableEq, Repr

/-- Mirror of `schemas.LearningSuggestion`. -/
structure LearningSuggestion where
  source_stem : String
  keyword : String
  feature_type : String
  affected_stems : List String
  message : String
deriving DecidableEq, Repr

/-- `STOPWORD_TOKENS` from detector.py. -/
def STOPWORD_TOKENS : List String := ["jr", "sta", "station", "drawing", "shape", "shp"]

/-- The character class `[A-Z0-9]` used by detector.py patterns (the stem is
uppercased first, so lowercase letters cannot occur). -/
def isAZ09 (c : Char) : Bool := ('A' ≤ c && c ≤ 'Z') || c.isDigit

/-- Boundary `(^|[^A-Z0-9])`: the previous character, if any, is not `[A-Z0-9]`. -/
def boundaryPrev : Option Char → Bool
  | none => true
  | some c => !isAZ09 c

/-- Boundary `([^A-Z0-9]|$)`: the following character, if any, is not `[A-Z0-9]`. -/
def boundaryHead : List Char → Bool
  | [] => true
  | c :: _ => !isAZ09 c

/-- Numeric value of a run of decimal digits. -/
def natOfDigits (l : List Char) : Nat :=
  l.foldl (fun a c => 10 * a + (c.val.toNat - 48)) 0

/-- `re.search(r"(^|[^A-Z0-9])M(\d+)([^A-Z0-9]|$)", s)` for a literal marker
character `M`, returning the digit group of the leftmost match.  (Regex
backtracking collapses to: maximal digit run directly after the marker,
followed by a boundary.) -/
def searchMarkerNum (marker : Char) : Option Char → List Char → Option Nat
  | _, [] => none
  | prev, c :: rest =>
    if c = marker && boundaryPrev prev then
      let ds := rest.takeWhile Char.isDigit
      if !ds.isEmpty && boundaryHead (rest.drop ds.length) then
        some (natOfDigits ds)
      else
        searchMarkerNum marker (some c) rest
    else
      searchMarkerNum marker (some c) rest

/-- `re.search(r"(^|[^A-Z0-9])(GF|GH|G)([^A-Z0-9]|$)", s)` existence. -/
def searchGround : Option Char → List Char → Bool
  | _, [] => false
  | prev, c :: rest =>
    (c = 'G' && boundaryPrev prev &&
      (match rest with
        | 'F' :: rest2 => boundaryHead rest2
        | 'H' :: rest2 => boundaryHead rest2
        | _ => boundaryHead rest))
    || searchGround (some c) rest

/-- `re.search(r"(^|[^A-Z0-9])0([^A-Z0-9]|$)", s)` existence. -/
def searchZero : Option Char → List Char → Bool
  | _, [] => false
  | prev, c :: rest =>
    (c = '0' && boundaryPrev prev && boundaryHead rest) || searchZero (some c) rest

/-- `re.search(r"(^|[^A-Z0-9])(\d+)(F)?([^A-Z0-9]|$)", s)`, returning the
digit group of the leftmost match (maximal digit run, optionally followed by
a single `F`, then a boundary). -/
def searchFloor : Option Char → List Char → Option Nat
  | _, [] => none
  | prev, c :: rest =>
    if c.isDigit && boundaryPrev prev then
      let ds := (c :: rest).takeWhile Char.isDigit
      let after := (c :: rest).drop ds.length
      if boundaryHead after then
        some (natOfDigits ds)
      else
        match after with
        | 'F' :: rest2 =>
          if boundaryHead rest2 then some (natOfDigits ds)
          else searchFloor (some c) rest
        | _ => searchFloor (some c) rest
    else
      searchFloor (some c) rest

/-- Mirror of `detect_level_ordinal` (detector.py): pattern precedence is
basement `B<n>` (yields `-n`), explicit negative (yields the value),
ground marker `GF|GH|G`, bare `0`, then bare floor number `<n>(F)?`
(yields `n - 1`); no match yields `none`. -/
def detect_level_ordinal (stem : String) : Option Int :=
  let normalized := (pyUpper stem).data
  match searchMarkerNum 'B' none normalized with
  | some n => some (-(n : Int))
  | none =>
    match searchMarkerNum '-' none normalized with
    | some n => some (-(n : Int))
    | none =>
      if searchGround none normalized then some 0
      else if searchZero none normalized then some 0
      else
        match searchFloor none normalized with
        | some n => some ((n : Int) - 1)
        | none => none

/-- Maximal `[a-zA-Z0-9]+` runs of a char list (`re.findall` model);
`acc` holds the current run reversed. -/
def alnumRunsAux (acc : List Char) : List Char → List (List Char)
  | [] => if acc.isEmpty then [] else [acc.reverse]
  | c :: cs =>
    if c.isAlphanum then alnumRunsAux (c :: acc) cs
    else if acc.isEmpty then alnumRunsAux [] cs
    else acc.reverse :: alnumRunsAux [] cs

/-- Mirror of `stem_tokens` (detector.py): lowercased `[a-zA-Z0-9]+` runs. -/
def stem_tokens (stem : String) : List String :=
  (alnumRunsAux [] stem.data).map (fun r => pyLower (String.mk r))

/-- Mirror of `_all_keywords` (detector.py): all configured keywords. -/
def all_keywords (keywords : List (String × List String)) : List String :=
  (keywords.map Prod.snd).flatten

/-- Sort key comparison from `infer_learning_suggestion`:
`(-len(affected), len(token), token)` ascending. -/
def candKeyLe (x y : String × List String) : Bool :=
  if x.2.length ≠ y.2.length then y.2.length < x.2.length
  else if x.1.length ≠ y.1.length then x.1.length < y.1.length
  else pyStrLe x.1 y.1

/-- The candidate list built by `infer_learning_suggestion`: qualifying
tokens of the changed stem, with the stems they would affect. -/
def learningCandidates (files : List ImportedFile) (changed_stem new_type : String)
    (keywords : List (String × List String)) : List (String × List String) :=
  (stem_tokens changed_stem).filterMap (fun token =>
    if (all_keywords keywords).contains token then none
    else if STOPWORD_TOKENS.contains token then none
    else if pyIsDigitStr token then none
    else if token.length < 3 then none
    else
      let affected := files.filterMap (fun item =>
        if item.stem ≠ changed_stem && pyInStr token (pyLower item.stem) &&
            (item.detected_type.getD "") ≠ new_type then
          some item.stem
        else none)
      if affected.isEmpty then none else some (token, affected))

/-- Mirror of `infer_learning_suggestion` (detector.py). -/
def infer_learning_suggestion (files : List ImportedFile) (changed_stem new_type : String)
    (keywords : List (String × List String)) : Option LearningSuggestion :=
  match files.find? (fun f => f.stem = changed_stem) with
  | none => none
  | some _ =>
    match stableSort candKeyLe (learningCandidates files changed_stem new_type keywords) with
    | [] => none
    | (token, affected) :: _ =>
      some
        { source_stem := changed_stem
          keyword := token
          feature_type := new_type
          affected_stems := affected
          message := "Apply \x27" ++ token ++ "\x27 as " ++ new_type ++
            " keyword to " ++ toString affected.length ++ " other files?" }

/-! ### Shapely oracle

The backend calls the shapely library for geometric computation.  The
embedding treats geometry objects as an opaque type `G` and takes the
library operations as a `Shapely G` record.  Numeric results (`area`,
`length`, coordinates) follow the same scaled-decimal convention as
`JV.float`. -/

/-- The shapely operations used by the backend. -/
structure Shapely (G : Type) where
  /-- `shapely.geometry.shape(payload)`; `none` models a raised exception. -/
  shape : JO → Option G
  /-- `geom.is_empty`. -/
  isEmpty : G → Bool
  /-- `geom.is_valid`. -/
  isValid : G → Bool
  /-- `geom.centroid`. -/
  centroid : G → G
  /-- x coordinate of a point geometry (scaled by `floatScale`). -/
  px : G → Int
  /-- y coordinate of a point geometry (scaled by `floatScale`). -/
  py : G → Int
  /-- `a.contains(b)`. -/
  contains : G → G → Bool
  /-- `a.touches(b)`. -/
  touches : G → G → Bool
  /-- `a.intersects(b)`. -/
  intersects : G → G → Bool
  /-- `a.intersection(b)`. -/
  intersection : G → G → G
  /-- `geom.area` (scaled by `floatScale`). -/
  area : G → Int
  /-- `geom.length` (scaled by `floatScale`). -/
  glen : G → Int
  /-- `isinstance(geom, LineString)`. -/
  isLineString : G → Bool
  /-- `geom.boundary`. -/
  boundary : G → G
  /-- `geom.buffer(d)` (distance scaled by `floatScale`). -/
  buffer : G → Int → G
  /-- `shapely.ops.unary_union(geoms)`. -/
  unionAll : List G → G
  /-- `geom.wkb_hex`. -/
  wkbHex : G → String
  /-- `geom.__geo_interface__`. -/
  geoInterface : G → JV
  /-- `shapely.make_valid(geom)`. -/
  makeValid : G → G
  /-- `shapely.geometry.mapping(geom)`. -/
  mappingJ : G → JO
  /-- `geom.geom_type`. -/
  geomType : G → String
  /-- `geom.representative_point()`. -/
  representativePoint : G → G

/-! ### Generic Python-dict association-list helpers -/

/-- `d[k] = v` on an association list: overwrite in place, else append. -/
def alistSet [DecidableEq κ] : List (κ × α) → κ → α → List (κ × α)
  | [], k, v => [(k, v)]
  | (k1, v1) :: tl, k, v =>
    if k1 = k then (k1, v) :: tl else (k1, v1) :: alistSet tl k v

/-- `d.get(k)` on an association list. -/
def alistGet? [DecidableEq κ] (l : List (κ × α)) (k : κ) : Option α :=
  (l.find? (fun p => p.1 = k)).map (fun p => p.2)

/-- `defaultdict(list)` append: extend the keyed bucket in place, else
create it at the end. -/
def bucketAppend [DecidableEq κ] : List (κ × List α) → κ → α → List (κ × List α)
  | [], k, v => [(k, [v])]
  | (k1, vs) :: tl, k, v =>
    if k1 = k then (k1, vs ++ [v]) :: tl else (k1, vs) :: bucketAppend tl k v

/-- Counter increment (insertion ordered). -/
def bumpCount : List (String × Nat) → String → List (String × Nat)
  | [], k => [(k, 1)]
  | (k1, n) :: tl, k =>
    if k1 = k then (k1, n + 1) :: tl else (k1, n) :: bumpCount tl k

/-! ### Validator (backend/src/validator.py) -/

/-- Mirror of `schemas.ValidationIssue`. -/
structure ValidationIssue where
  feature_id : Option String
  related_feature_id : Option String
  check : String
  message : String
  severity : String
  auto_fixable : Bool
  fix_description : Option String
  overlap_geometry : Option JV

/-- Mirror of `schemas.ValidationSummary`. -/
structure ValidationSummary where
  total_features : Nat
  by_type : List (String × Nat)
  error_count : Nat
  warning_count : Nat
  auto_fixable_count : Nat
  checks_passed : Nat
  checks_failed : Nat
  unspecified_count : Nat
  overlap_count : Nat
  opening_issues_count : Nat

/-- Mirror of `schemas.ValidationResponse`. -/
structure ValidationResponse where
  errors : List ValidationIssue
  warnings : List ValidationIssue
  passed : List String
  summary : ValidationSummary

/-- Issue constructor (positional form of the `add_issue` keyword calls). -/
def mkIssue (fid rel : Option String) (check message severity : String)
    (fixable : Bool) (fixDesc : Option String) (overlap : Option JV) : ValidationIssue :=
  ⟨fid, rel, check, message, severity, fixable, fixDesc, overlap⟩

/-- `add_issue("error", check, message, feature_id)`. -/
def errI (check msg : String) (fid : Option String) : ValidationIssue :=
  mkIssue fid none check msg "error" false none none

/-- `add_issue("error", ..., auto_fixable=True, fix_description=...)`. -/
def errFixI (check msg : String) (fid : Option String) (fixDesc : String) : ValidationIssue :=
  mkIssue fid none check msg "error" true (some fixDesc) none

/-- `add_issue("warning", check, message, feature_id)`. -/
def warnI (check msg : String) (fid : Option String) : ValidationIssue :=
  mkIssue fid none check msg "warning" false none none

/-- `POLYGON_TYPES` (validator.py). -/
def POLYGON_TYPES : List String := ["venue", "footprint", "level", "unit", "fixture"]

/-- `LINE_TYPES` (validator.py). -/
def LINE_TYPES : List String := ["opening", "detail"]

/-- `NULL_GEOM_TYPES` (validator.py). -/
def NULL_GEOM_TYPES : List String := ["address", "building"]

/-- `LEVEL_LINKED_TYPES` (validator.py). -/
def LEVEL_LINKED_TYPES : List String := ["unit", "opening", "fixture", "detail"]

/-- `_rows`: the `features` member filtered to dicts ([] if not a list). -/
def pyRows (fc : JO) : List JV :=
  match fc.get? "features" with
  | some (.arr xs) => xs.toList.filter (fun r => match r with | .obj _ => true | _ => false)
  | _ => []

/-- Attribute lookup on a feature row (`row.get(k)` when the row is a dict). -/
def rowGet? (row : JV) (k : String) : Option JV :=
  match row with
  | .obj o => o.get? k
  | _ => none

/-- `_feature_id`: the id if it is a nonempty string. -/
def featureId (row : JV) : Option String :=
  match rowGet? row "id" with
  | some (.str s) => if s = "" then none else some s
  | _ => none

/-- `_feature_type`: the feature type if a string, else `""`. -/
def featureType (row : JV) : String :=
  match rowGet? row "feature_type" with
  | some (.str s) => s
  | _ => ""

/-- `_props`: the properties dict, else `{}`. -/
def propsOf (row : JV) : JO :=
  match rowGet? row "properties" with
  | some (.obj o) => o
  | _ => JO.nil

/-- `_geom_payload`: the geometry member if it is a dict. -/
def geomPayload (row : JV) : Option JO :=
  match rowGet? row "geometry" with
  | some (.obj o) => some o
  | _ => none

/-- `_geom`: parse the geometry payload via shapely. -/
def geomOf (S : Shapely G) (row : JV) : Option G :=
  (geomPayload row).bind S.shape

/-- Python numeric test `isinstance(v, (int, float))` (bools included),
with the value in the scaled-decimal convention. -/
def toScaledNum : JV → Option Int
  | .int n => some (n * floatScale)
  | .float z => some z
  | .bool b => some (if b then floatScale else 0)
  | _ => none

mutual
/-- `_flatten_coords`: collect leading coordinate pairs of nested lists. -/
def flattenCoords : JV → List (Int × Int)
  | .arr xs =>
    match xs with
    | .cons a (.cons b _) =>
      match toScaledNum a, toScaledNum b with
      | some x, some y => [(x, y)]
      | _, _ => flattenCoordsArr xs
    | _ => flattenCoordsArr xs
  | _ => []
/-- `_flatten_coords` over the elements of a list. -/
def flattenCoordsArr : JA → List (Int × Int)
  | .nil => []
  | .cons v rest => flattenCoords v ++ flattenCoordsArr rest
end

/-- Coordinate pairs of a geometry payload (`payload.get("coordinates")`). -/
def payloadCoords (payload : JO) : List (Int × Int) :=
  match payload.get? "coordinates" with
  | some v => flattenCoords v
  | none => []

/-- `_coords_out_of_bounds`. -/
def coordsOutOfBounds (payload : JO) : Bool :=
  (payloadCoords payload).any (fun p =>
    p.1 < -180 * floatScale || p.1 > 180 * floatScale ||
    p.2 < -90 * floatScale || p.2 > 90 * floatScale)

/-- Decimal places of one scaled value, as counted by
`f"{value:.12f}".rstrip("0")`. -/
def decimalsOf (z : Int) : Nat :=
  ((List.range 13).find? (fun d => z % (10 : Int) ^ (12 - d) = 0)).getD 12

/-- `_max_decimals`. -/
def maxDecimals (payload : JO) : Nat :=
  (payloadCoords payload).foldl
    (fun acc p => max acc (max (decimalsOf p.1) (decimalsOf p.2))) 0

/-- One `[_-][A-Za-z0-9]{2,8}` group sequence of `LABEL_RE` (the alnum run
after each separator must have length 2..8); fuel bounds the length. -/
def labelRestOkF : Nat → List Char → Bool
  | _, [] => true
  | 0, _ => false
  | n + 1, c :: rest =>
    if c = '_' || c = '-' then
      let g := rest.takeWhile Char.isAlphanum
      decide (2 ≤ g.length) && decide (g.length ≤ 8) && labelRestOkF n (rest.drop g.length)
    else false

/-- One `[_-][A-Za-z0-9]{2,8}` group sequence of `LABEL_RE`. -/
def labelRestOk (l : List Char) : Bool :=
  labelRestOkF l.length l

/-- Full match of `LABEL_RE = ^[A-Za-z]{2,3}([_-][A-Za-z0-9]{2,8})*$`. -/
def labelTagOk (l : List Char) : Bool :=
  let r := l.takeWhile Char.isAlpha
  decide (2 ≤ r.length) && decide (r.length ≤ 3) && labelRestOk (l.drop r.length)

/-- `_labels_ok`. -/
def labelsOk : JV → Bool
  | .obj o =>
    let kvs := o.toList
    !kvs.isEmpty &&
    kvs.any (fun p => labelTagOk ((p.1.data.map (fun c => if c = '_' then '-' else c)))) &&
    kvs.any (fun p => match p.2 with | .str s => pyStrip s ≠ "" | _ => false)
  | _ => false

/-- `v is None` (Python). -/
def isNullJV : JV → Bool
  | .null => true
  | _ => false

/-- `_point_in_geometry`. -/
def pointInGeometry (S : Shapely G) (dp : JV) (geom : Option G) : Bool :=
  match geom with
  | none => false
  | some g =>
    if S.isEmpty g then false
    else
      match dp with
      | .obj o =>
        match o.get? "type" with
        | some (.str t) =>
          if t = "Point" then
            match S.shape o with
            | some p => S.contains g p || S.touches g p
            | none => false
          else false
        | _ => false
      | _ => false

/-- The `by_type` counter of `validate_feature_collection`. -/
def byTypeCounter (rows : List JV) : List (String × Nat) :=
  rows.foldl (fun acc r => bumpCount acc (featureType r)) []

/-- `by_type.get(t, 0)`. -/
def counterGet (l : List (String × Nat)) (k : String) : Nat :=
  (alistGet? l k).getD 0

/-- `by_id = {fid: row for row in rows if (fid := _feature_id(row))}`. -/
def byIdOf (rows : List JV) : List (String × JV) :=
  rows.foldl
    (fun acc r =>
      match featureId r with
      | some fid => alistSet acc fid r
      | none => acc) []

/-- Required-feature pass (`missing_venue` / `missing_building`). -/
def requiredIssues (rows : List JV) : List ValidationIssue :=
  ["venue", "building"].flatMap (fun required =>
    if counterGet (byTypeCounter rows) required = 0 then
      [errI ("missing_" ++ required)
        ("Missing required \x27" ++ required ++ "\x27 feature.") none]
    else [])

/-- Identifier pass (`missing_id` / `id_not_uuid` / `duplicate_uuids`). -/
def idIssues (rows : List JV) : List ValidationIssue :=
  let ids := rows.filterMap featureId
  rows.flatMap (fun row =>
    match featureId row with
    | none => [errI "missing_id" "Feature is missing id." none]
    | some fid =>
      (if !looksLikeUuid fid then
        [errFixI "id_not_uuid" "Feature id is not a UUID string." (some fid)
          "Regenerate UUID for this feature."]
      else []) ++
      (if 1 < ids.count fid then
        [errFixI "duplicate_uuids" "Duplicate UUID detected." (some fid)
          "Regenerate duplicate UUIDs."]
      else []))

/-- First capital (`str.title()` restricted to the one-word feature kinds it
is applied to). -/
def capFirst (s : String) : String :=
  match s.data with
  | [] => ""
  | c :: cs => String.mk (c.toUpper :: cs)

/-- Whether `payload.get("type")` equals the given string. -/
def geomTypeIs (pl : JO) (t : String) : Bool :=
  match pl.get? "type" with
  | some (.str s) => s = t
  | _ => false

/-- Geometry pass for one row (validator.py lines 185-241). -/
def geomRowIssues (S : Shapely G) (row : JV) : List ValidationIssue :=
  let fid := featureId row
  let ftype := featureType row
  let payload := geomPayload row
  if NULL_GEOM_TYPES.contains ftype then
    if payload.isSome then
      [errI (ftype ++ "_must_be_null") (capFirst ftype ++ " geometry must be null.") fid]
    else []
  else
    match payload with
    | none => [errI "empty_geometry" "Geometry is missing." fid]
    | some pl =>
      (if POLYGON_TYPES.contains ftype &&
          !(geomTypeIs pl "Polygon" || geomTypeIs pl "MultiPolygon") then
        [errI (ftype ++ "_must_be_polygon") (capFirst ftype ++ " geometry must be Polygon.") fid]
      else []) ++
      (if LINE_TYPES.contains ftype && !(geomTypeIs pl "LineString") then
        [errI (ftype ++ "_must_be_linestring") (capFirst ftype ++ " geometry must be LineString.") fid]
      else []) ++
      (match S.shape pl with
      | none =>
        [errFixI "invalid_geometry" "Geometry could not be parsed." fid
          "Run make_valid() to repair geometry."]
      | some g =>
        if S.isEmpty g then [errI "empty_geometry" "Geometry is empty." fid]
        else
          (if !S.isValid g then
            [errFixI "invalid_geometry" "Geometry is invalid." fid
              "Run make_valid() to repair geometry."]
          else []) ++
          (if coordsOutOfBounds pl then
            [errI "coordinates_out_of_bounds" "Coordinates are out of bounds." fid]
          else []) ++
          (if (S.px (S.centroid g)).natAbs < floatScale.natAbs &&
              (S.py (S.centroid g)).natAbs < floatScale.natAbs then
            [errI "null_island_detection" "Feature appears near Null Island." fid]
          else []) ++
          (if 7 < maxDecimals pl then
            [mkIssue fid none "excessive_precision"
              "Geometry precision is above 7 decimal places." "warning" true
              (some "Round coordinates to 7 decimal places.") none]
          else []))

/-- `geoms_by_id`: successfully parsed, non-empty geometries of rows with a
usable id (the insert at validator.py line 242-243). -/
def geomsById (S : Shapely G) (rows : List JV) : List (String × G) :=
  rows.foldl
    (fun acc row =>
      if NULL_GEOM_TYPES.contains (featureType row) then acc
      else
        match geomPayload row with
        | none => acc
        | some pl =>
          match S.shape pl with
          | none => acc
          | some g =>
            if S.isEmpty g then acc
            else
              match featureId row with
              | some fid => alistSet acc fid g
              | none => acc) []

/-- `units_by_level` (validator.py line 274-275); entries of `geoms` are
never empty, so the `if fid and geom` truthiness test reduces to presence. -/
def unitsByLevel (rows : List JV) (geoms : List (String × G)) :
    List (String × List (String × G)) :=
  rows.foldl
    (fun acc row =>
      if featureType row = "unit" then
        match featureId row with
        | some fid =>
          match alistGet? geoms fid with
          | some g =>
            match (propsOf row).get? "level_id" with
            | some (.str lid) => bucketAppend acc lid (fid, g)
            | _ => acc
          | none => acc
        | none => acc
      else acc) []

/-- Per-row pass of validator.py lines 248-320 (labels, display point,
references, per-kind domain checks). -/
def mainRowIssues (S : Shapely G) (geoms : List (String × G))
    (levelIds buildingIds addressIds : List String) (row : JV) : List ValidationIssue :=
  let fid := featureId row
  let ftype := featureType row
  let props := propsOf row
  let geom : Option G := match fid with
    | some f => alistGet? geoms f
    | none => none
  (["name", "short_name", "alt_name"].flatMap (fun key =>
    match props.get? key with
    | some v =>
      if !isNullJV v && !labelsOk v then
        [errI "labels_format_valid" ("\x27" ++ key ++ "\x27 must be LABELS object.") fid]
      else []
    | none => [])) ++
  (match geom, props.get? "display_point" with
  | some g, some dp =>
    if !isNullJV dp && !pointInGeometry S dp (some g) then
      [errI "display_point_within_geometry" "display_point is outside geometry." fid]
    else []
  | _, _ => []) ++
  (if LEVEL_LINKED_TYPES.contains ftype then
    match props.get? "level_id" with
    | some (.str s) =>
      if s = "" then
        [errI (ftype ++ "_missing_level_id_error") (capFirst ftype ++ " is missing level_id.") fid]
      else if !levelIds.contains s then
        [errI "orphaned_reference_error" "Feature has invalid level_id." fid]
      else []
    | _ => [errI (ftype ++ "_missing_level_id_error") (capFirst ftype ++ " is missing level_id.") fid]
  else []) ++
  (if ftype = "unit" then
    (match props.get? "category" with
    | some (.str c) =>
      if pyStrip c = "" then [errI "unit_missing_category_error" "Unit has no category." fid]
      else if pyLower (pyStrip c) = "unspecified" then
        [warnI "unspecified_category" "Unit category is unspecified." fid]
      else []
    | _ => [errI "unit_missing_category_error" "Unit has no category." fid]) ++
    (match geom with
    | some g =>
      if S.area g < 100 then
        [warnI "sliver_polygon_warning" "Unit appears to be a sliver polygon." fid]
      else []
    | none => [])
  else []) ++
  (if ftype = "opening" then
    match props.get? "category" with
    | some (.str c) => if c = "" then [errI "opening_missing_category_error" "Opening has no category." fid] else []
    | _ => [errI "opening_missing_category_error" "Opening has no category." fid]
  else []) ++
  (if ftype = "fixture" then
    match props.get? "category" with
    | some (.str c) => if c = "" then [errI "fixture_missing_category_error" "Fixture has no category." fid] else []
    | _ => [errI "fixture_missing_category_error" "Fixture has no category." fid]
  else []) ++
  (if ftype = "detail" then
    match geom with
    | some g =>
      if S.glen g = 0 then [warnI "detail_degenerate_line" "Detail line has zero length." fid]
      else []
    | none => []
  else []) ++
  (if ftype = "level" then
    (match props.get? "ordinal" with
    | some (.int _) => []
    | some (.bool _) => []
    | _ => [errI "level_missing_ordinal_error" "Level is missing ordinal." fid]) ++
    (if !labelsOk ((props.get? "short_name").getD .null) then
      [errI "level_missing_short_name_error" "Level is missing short_name." fid]
    else []) ++
    (match props.get? "outdoor" with
    | some (.bool _) => []
    | _ => [errI "level_missing_outdoor_error" "Level is missing outdoor boolean." fid]) ++
    (match props.get? "building_ids" with
    | some (.arr xs) =>
      if xs.toList.isEmpty then
        [errI "level_missing_building_ids_error" "Level is missing building_ids." fid]
      else if xs.toList.any (fun b =>
          match b with
          | .str s => !buildingIds.contains s
          | _ => true) then
        [errI "orphaned_reference_error" "Level building_ids include missing building." fid]
      else []
    | _ => [errI "level_missing_building_ids_error" "Level is missing building_ids." fid])
  else []) ++
  (if ftype = "footprint" then
    (match props.get? "category" with
    | some (.str c) => if c = "" then [errI "footprint_missing_category_error" "Footprint is missing category." fid] else []
    | _ => [errI "footprint_missing_category_error" "Footprint is missing category." fid]) ++
    (match props.get? "building_ids" with
    | some (.arr xs) =>
      if xs.toList.isEmpty then
        [errI "footprint_missing_building_ids_error" "Footprint is missing building_ids." fid]
      else if xs.toList.any (fun b =>
          match b with
          | .str s => !buildingIds.contains s
          | _ => true) then
        [errI "orphaned_reference_error" "Footprint building_ids include missing building." fid]
      else []
    | _ => [errI "footprint_missing_building_ids_error" "Footprint is missing building_ids." fid])
  else []) ++
  (if ftype = "venue" then
    (match props.get? "address_id" with
    | some (.str s) =>
      if s = "" then [errI "venue_missing_address_error" "Venue is missing address_id." fid]
      else if !addressIds.contains s then
        [errI "venue_missing_address_id" "Venue address_id does not match an address feature." fid]
      else []
    | _ => [errI "venue_missing_address_error" "Venue is missing address_id." fid]) ++
    (if isNullJV ((props.get? "display_point").getD .null) then
      [errI "venue_missing_display_point_error" "Venue is missing display_point." fid]
    else [])
  else []) ++
  (if ftype = "building" then
    match props.get? "address_id" with
    | some v =>
      if isNullJV v then []
      else
        match v with
        | .str s =>
          if !addressIds.contains s then
            [errI "building_address_id_valid" "Building address_id does not match an address feature." fid]
          else []
        | _ => [errI "building_address_id_valid" "Building address_id does not match an address feature." fid]
    | none => []
  else [])

/-- `itertools.combinations(pairs, 2)` in order. -/
def pairsOf : List α → List (α × α)
  | [] => []
  | x :: xs => xs.map (fun y => (x, y)) ++ pairsOf xs

/-- Spatial unit pass (validator.py lines 322-332): unit-outside-level
warnings, then symmetric overlap warnings, per level bucket. -/
def spatialUnitIssues (S : Shapely G) (unitsBL : List (String × List (String × G)))
    (levelGeoms : List (String × G)) : List ValidationIssue :=
  unitsBL.flatMap (fun bucket =>
    let lg := alistGet? levelGeoms bucket.1
    (bucket.2.flatMap (fun u =>
      match lg with
      | some g =>
        if !(S.contains g (S.centroid u.2) || S.touches g (S.centroid u.2)) then
          [warnI "unit_outside_level_warning" "Unit centroid is outside assigned level." (some u.1)]
        else []
      | none => [])) ++
    ((pairsOf bucket.2).flatMap (fun p =>
      let overlap := S.intersection p.1.2 p.2.2
      if !S.isEmpty overlap && 0 < S.area overlap then
        [mkIssue (some p.1.1) (some p.2.1) "overlapping_units"
          ("Overlaps with unit " ++ p.2.1.take 8 ++ ".") "warning" false none
          (some (S.geoInterface overlap)),
         mkIssue (some p.2.1) (some p.1.1) "overlapping_units"
          ("Overlaps with unit " ++ p.1.1.take 8 ++ ".") "warning" false none
          (some (S.geoInterface overlap))]
      else [])))

/-- The `(feature_type, level_id, wkb_hex)` bucket key and id under which a
row participates in the duplicate-geometry pass (`none` when the row is
skipped: no usable id, unparsed/empty geometry, or a non level-linked
kind). -/
def dupKeyOf (S : Shapely G) (geoms : List (String × G)) (row : JV) :
    Option ((String × Option String × String) × String) :=
  match featureId row with
  | none => none
  | some fid =>
    match alistGet? geoms fid with
    | none => none
    | some g =>
      let ftype := featureType row
      if LEVEL_LINKED_TYPES.contains ftype then
        let lidOpt : Option String :=
          match (propsOf row).get? "level_id" with
          | some (.str s) => some s
          | _ => none
        some ((ftype, lidOpt, S.wkbHex g), fid)
      else none

/-- The duplicate-geometry warning emitted on a later holder of a bucket
key, referencing the first holder. -/
def dupIssue (fid existing : String) : ValidationIssue :=
  mkIssue (some fid) (some existing) "duplicate_geometry_warning"
    "Feature geometry duplicates another feature." "warning" false
    (some "Delete one duplicate feature.") none

/-- The loop of the duplicate-geometry pass, with the `geometry_hashes`
dict as explicit state. -/
def dupEmit (S : Shapely G) (geoms : List (String × G))
    (hashes : List ((String × Option String × String) × String)) :
    List JV → List ValidationIssue
  | [] => []
  | row :: rest =>
    match dupKeyOf S geoms row with
    | none => dupEmit S geoms hashes rest
    | some (key, fid) =>
      match alistGet? hashes key with
      | some existing => dupIssue fid existing :: dupEmit S geoms hashes rest
      | none => dupEmit S geoms (alistSet hashes key fid) rest

/-- The duplicate-geometry pass (validator.py lines 334-349): bucket key is
`(feature_type, level_id, wkb_hex)`; the first holder of a key is recorded,
every later holder gets one warning referencing the first. -/
def dupGeometryIssues (S : Shapely G) (rows : List JV) (geoms : List (String × G)) :
    List ValidationIssue :=
  dupEmit S geoms [] rows

/-- Venue/footprint containment pass (validator.py lines 351-365). -/
def venueFootprintIssues (S : Shapely G) (byId : List (String × JV))
    (geoms : List (String × G)) : List ValidationIssue :=
  let venueGeom : Option G :=
    (byId.find? (fun p => featureType p.2 = "venue" && (alistGet? geoms p.1).isSome)).bind
      (fun p => alistGet? geoms p.1)
  let footprints : List G :=
    byId.filterMap (fun p => if featureType p.2 = "footprint" then alistGet? geoms p.1 else none)
  (match venueGeom with
  | some vg =>
    if S.isEmpty vg then []
    else
      byId.flatMap (fun p =>
        if featureType p.2 = "footprint" then
          match alistGet? geoms p.1 with
          | some g =>
            let c := S.centroid g
            if !(S.contains vg c || S.touches vg c) then
              [warnI "footprint_outside_venue_warning" "Footprint centroid is outside venue." (some p.1)]
            else []
          | none => []
        else [])
  | none => []) ++
  (if footprints.isEmpty then []
  else
    let fu := S.unionAll footprints
    byId.flatMap (fun p =>
      if featureType p.2 = "level" then
        match alistGet? geoms p.1 with
        | some g =>
          let c := S.centroid g
          if !(S.contains fu c || S.touches fu c) then
            [warnI "level_outside_footprint_warning" "Level centroid is outside footprint." (some p.1)]
          else []
        | none => []
      else []))

/-- Opening/detail pass (validator.py lines 367-391). -/
def openingDetailIssues (S : Shapely G) (rows : List JV) (geoms : List (String × G))
    (unitsBL : List (String × List (String × G))) (levelGeoms : List (String × G)) :
    List ValidationIssue :=
  rows.flatMap (fun row =>
    match featureId row with
    | none => []
    | some fid =>
      match alistGet? geoms fid with
      | none => []
      | some g =>
        let ftype := featureType row
        let props := propsOf row
        if ftype = "opening" then
          (if S.isLineString g then
            (let lidOpt : Option String :=
              match props.get? "level_id" with
              | some (.str s) => some s
              | _ => none
            let boundaries : Option G :=
              match lidOpt with
              | some lid =>
                match alistGet? unitsBL lid with
                | some pairs =>
                  if pairs.isEmpty then none
                  else some (S.buffer (S.unionAll (pairs.map (fun u => S.boundary u.2))) 5000000)
                | none => none
              | none => none
            (match boundaries with
            | some b =>
              if !S.intersects g b then
                [warnI "opening_not_touching_boundary" "Opening does not touch any unit boundary." (some fid)]
              else []
            | none => []) ++
            (let meters := S.glen g * 111320
            (if meters < 300000000000 then
              [warnI "opening_too_short" "Opening length is unusually short." (some fid)]
            else []) ++
            (if meters > 10 * floatScale then
              [warnI "opening_too_long" "Opening length is unusually long." (some fid)]
            else [])))
          else []) ++
          (match props.get? "category" with
          | some (.str c) =>
            if pyStartsWith "pedestrian" c &&
                !(match props.get? "door" with | some (.obj _) => true | _ => false) then
              [warnI "opening_missing_door_warning" "Pedestrian opening is missing door metadata." (some fid)]
            else []
          | _ => [])
        else if ftype = "detail" then
          match props.get? "level_id" with
          | some (.str lid) =>
            match alistGet? levelGeoms lid with
            | some lg =>
              if !S.intersects lg g then
                [warnI "detail_outside_level" "Detail geometry is outside assigned level." (some fid)]
              else []
            | none => []
          | _ => []
        else [])

/-- `range(a + 1, b)` over integers. -/
def intRangeExcl (a b : Int) : List Int :=
  (List.range (b - a - 1).toNat).map (fun i => a + 1 + (i : Int))

/-- Level ordinals present (validator.py line 394): `sorted({...})` of
integer `ordinal` properties of level rows (Python bools count as ints). -/
def levelOrdinals (rows : List JV) : List Int :=
  stableSort (fun a b => decide (a ≤ b))
    (dedupKeepFirst
      (rows.filterMap (fun row =>
        if featureType row = "level" then
          match (propsOf row).get? "ordinal" with
          | some (.int n) => some n
          | some (.bool b) => some (if b then 1 else 0)
          | _ => none
        else none)))

/-- Cross-level pass (validator.py lines 393-404): ordinal gaps and levels
without units.  (CPython iterates `level_ids` in set order; the embedding
uses first-insertion order, which only permutes same-check warnings.) -/
def crossLevelIssues (rows : List JV) (unitsBL : List (String × List (String × G)))
    (levelIds : List String) : List ValidationIssue :=
  let ordinals := levelOrdinals rows
  (if 2 ≤ ordinals.length then
    let missing := (ordinals.zip ordinals.tail).flatMap (fun p =>
      if 1 < p.2 - p.1 then intRangeExcl p.1 p.2 else [])
    if !missing.isEmpty then
      [warnI "level_ordinal_gap"
        ("Level ordinals have gap(s): " ++
          String.intercalate ", " (missing.map toString) ++ ".") none]
    else []
  else []) ++
  levelIds.flatMap (fun lid =>
    if ((alistGet? unitsBL lid).getD []).length = 0 then
      [warnI "level_no_units" "Level has no units assigned." (some lid)]
    else [])

/-- All issues of `validate_feature_collection`, in emission order (errors
and warnings interleaved; the response splits them by severity, which
preserves the relative order within each list). -/
def allValidationIssues (S : Shapely G) (fc : JO) : List ValidationIssue :=
  let rows := pyRows fc
  let byId := byIdOf rows
  let levelIds := byId.filterMap (fun p => if featureType p.2 = "level" then some p.1 else none)
  let buildingIds := byId.filterMap (fun p => if featureType p.2 = "building" then some p.1 else none)
  let addressIds := byId.filterMap (fun p => if featureType p.2 = "address" then some p.1 else none)
  let geoms := geomsById S rows
  let levelGeoms := levelIds.filterMap (fun lid => (alistGet? geoms lid).map (fun g => (lid, g)))
  let unitsBL := unitsByLevel rows geoms
  requiredIssues rows ++
  idIssues rows ++
  rows.flatMap (geomRowIssues S) ++
  rows.flatMap (mainRowIssues S geoms levelIds buildingIds addressIds) ++
  spatialUnitIssues S unitsBL levelGeoms ++
  dupGeometryIssues S rows geoms ++
  venueFootprintIssues S byId geoms ++
  openingDetailIssues S rows geoms unitsBL levelGeoms ++
  crossLevelIssues rows unitsBL levelIds

/-- The fixed candidate check list `{"unique_uuids", ...}` of
validator.py line 407, pre-sorted as `sorted` would output it. -/
def PASSED_CANDIDATES : List String :=
  ["building_exists", "display_points_valid", "labels_format_valid",
   "unique_uuids", "valid_geometry", "venue_exists"]

/-- Mirror of `validate_feature_collection` (validator.py). -/
def validate_feature_collection (S : Shapely G) (fc : JO) : ValidationResponse :=
  let rows := pyRows fc
  let issues := allValidationIssues S fc
  let errors := issues.filter (fun i => i.severity = "error")
  let warnings := issues.filter (fun i => i.severity ≠ "error")
  let failedChecks := dedupKeepFirst ((errors ++ warnings).map (fun i => i.check))
  let passed := PASSED_CANDIDATES.filter (fun c => !failedChecks.contains c)
  { errors := errors
    warnings := warnings
    passed := passed
    summary :=
      { total_features := rows.length
        by_type := byTypeCounter rows
        error_count := errors.length
        warning_count := warnings.length
        auto_fixable_count := ((errors ++ warnings).filter (fun i => i.auto_fixable)).length
        checks_passed := passed.length
        checks_failed := failedChecks.length
        unspecified_count := (warnings.filter (fun i => i.check = "unspecified_category")).length
        overlap_count := (warnings.filter (fun i => i.check = "overlapping_units")).length
        opening_issues_count := (warnings.filter (fun i => pyStartsWith "opening_" i.check)).length } }

/-- `issue.model_dump(exclude_none=True)` as a JSON-ish dict. -/
def issueToJV (i : ValidationIssue) : JV :=
  .obj (JO.ofList (
    (match i.feature_id with | some s => [("feature_id", JV.str s)] | none => []) ++
    (match i.related_feature_id with | some s => [("related_feature_id", JV.str s)] | none => []) ++
    [("check", JV.str i.check), ("message", JV.str i.message), ("severity", JV.str i.severity),
     ("auto_fixable", JV.bool i.auto_fixable)] ++
    (match i.fix_description with | some s => [("fix_description", JV.str s)] | none => []) ++
    (match i.overlap_geometry with | some v => [("overlap_geometry", v)] | none => [])))

/-- Status stamped on a feature by the annotation step. -/
def annotationStatus (props : JO) (issues : List ValidationIssue) : String :=
  if issues.any (fun i => i.severity = "error") then "error"
  else if issues.any (fun i => i.severity = "warning") then "warning"
  else
    match props.get? "category" with
    | some (.str c) => if pyLower (pyStrip c) = "unspecified" then "unspecified" else "mapped"
    | _ => "mapped"

/-- Mirror of `annotate_feature_collection_with_validation` (validator.py):
copies the collection and stamps `properties.status` / `properties.issues`. -/
def annotate_feature_collection_with_validation (fc : JO) (validation : ValidationResponse) : JO :=
  match fc.get? "features" with
  | some (.arr xs) =>
    let issuesFor : String → List ValidationIssue := fun fid =>
      (validation.errors ++ validation.warnings).filter
        (fun i => match i.feature_id with | some f => f ≠ "" && f = fid | none => false)
    let rows := xs.toList.map (fun row =>
      match row with
      | .obj o =>
        let props := propsOf row
        let issues := match featureId row with
          | some fid => issuesFor fid
          | none => []
        let props := props.setd "status" (.str (annotationStatus props issues))
        let props := props.setd "issues" (.arr (JA.ofList (issues.map issueToJV)))
        JV.obj (o.setd "properties" (.obj props))
      | other => other)
    fc.setd "features" (.arr (JA.ofList rows))
  | _ => fc

/-! ### Export endpoint (backend/routers/export_router.py) -/

/-- Mirror of `export_imdf`'s pipeline behaviour for an existing session:
validate, annotate and store, then either raise a blocking error (no
archive) or build and return the archive.  The packaging collaborator
`build_export_archive` is an oracle; the saved session state is returned as
the annotated collection plus the validation. -/
def export_imdf {G α : Type} (S : Shapely G) (buildExportArchive : JO → α × String)
    (fc : JO) : Except String (α × String) × JO × ValidationResponse :=
  let validation := validate_feature_collection S fc
  let annotated := annotate_feature_collection_with_validation fc validation
  if 0 < validation.summary.error_count then
    (.error "Export blocked: unresolved validation errors remain.", annotated, validation)
  else
    (.ok (buildExportArchive annotated), annotated, validation)

/-! ### Autofix (backend/src/autofix.py) -/

/-- Mirror of `schemas.AutofixApplied`. -/
structure AutofixApplied where
  feature_id : String
  check : String
  action : String
  description : String
deriving DecidableEq, Repr

/-- Mirror of `schemas.AutofixPrompt`. -/
structure AutofixPrompt where
  feature_id : String
  related_feature_id : Option String
  check : String
  action : String
  description : String
deriving DecidableEq, Repr

/-- `PROMPTED_CHECKS` (autofix.py). -/
def PROMPTED_CHECKS : List String := ["duplicate_geometry_warning", "empty_geometry"]

/-- One `uuid4()` draw, re-drawn while the result is in `seen`
(the `while new_id in seen_ids` loop); `none` when the modelled stream of
fresh ids is exhausted. -/
def drawFresh (seen : List String) : List String → Option (String × List String)
  | [] => none
  | x :: xs => if seen.contains x then drawFresh seen xs else some (x, xs)

/-- The safe identifier pass of `apply_autofix` (autofix.py lines 60-82):
keep the first well-formed unseen id, regenerate every other string id. -/
def uuidPass (fresh seen : List String) :
    List JV → Option (List JV × List AutofixApplied × List String × List String)
  | [] => some ([], [], seen, fresh)
  | row :: rest =>
    match row with
    | .obj o =>
      match o.get? "id" with
      | some (.str fid) =>
        if looksLikeUuid fid && !seen.contains fid then
          match uuidPass fresh (fid :: seen) rest with
          | some (rows, fixes, seen2, fresh2) => some (row :: rows, fixes, seen2, fresh2)
          | none => none
        else
          match drawFresh seen fresh with
          | none => none
          | some (nid, fresh1) =>
            match uuidPass fresh1 (nid :: seen) rest with
            | some (rows, fixes, seen2, fresh2) =>
              some (JV.obj (o.setd "id" (.str nid)) :: rows,
                { feature_id := nid, check := "duplicate_uuids", action := "regenerate_uuid",
                  description := "Regenerated duplicate/invalid UUID." } :: fixes,
                seen2, fresh2)
            | none => none
      | _ =>
        match uuidPass fresh seen rest with
        | some (rows, fixes, seen2, fresh2) => some (row :: rows, fixes, seen2, fresh2)
        | none => none
    | _ =>
      match uuidPass fresh seen rest with
      | some (rows, fixes, seen2, fresh2) => some (row :: rows, fixes, seen2, fresh2)
      | none => none

/-- Round a scaled decimal to 7 decimal places, ties to even
(Python `round(x, 7)` in the exact-decimal float model). -/
def roundHalfEvenScaled (z : Int) : Int :=
  let u : Int := 100000
  let q := z.fdiv u
  let r := z - q * u
  if 2 * r < u then q * u
  else if u < 2 * r then (q + 1) * u
  else if q % 2 = 0 then q * u else (q + 1) * u

mutual
/-- `_round_value(value, 7)` (autofix.py): round every float to 7 decimals. -/
def roundValue7 : JV → JV
  | .float z => .float (roundHalfEvenScaled z)
  | .arr xs => .arr (roundValue7Arr xs)
  | .obj kvs => .obj (roundValue7Obj kvs)
  | other => other
/-- `_round_value` over list elements. -/
def roundValue7Arr : JA → JA
  | .nil => .nil
  | .cons v rest => .cons (roundValue7 v) (roundValue7Arr rest)
/-- `_round_value` over dict values. -/
def roundValue7Obj : JO → JO
  | .nil => .nil
  | .cons k v rest => .cons k (roundValue7 v) (roundValue7Obj rest)
end

/-- The Python dict `{str(id): row}` built by `apply_autofix` (string ids,
last row wins for duplicates). -/
def autofixById (rows : List JV) : List (String × JV) :=
  rows.foldl
    (fun acc row =>
      match row with
      | .obj o =>
        match o.get? "id" with
        | some (.str s) => alistSet acc s row
        | _ => acc
      | _ => acc) []

/-- Replace (in place) the row that `by_id` maps `fid` to, i.e. the last
dict row whose id is `fid`. -/
def updateLastById (rows : List JV) (fid : String) (f : JO → JO) : List JV :=
  let n := (rows.reverse.findIdx? (fun row =>
    match row with
    | .obj o =>
      match o.get? "id" with
      | some (.str s) => s = fid
      | _ => false
    | _ => false))
  match n with
  | none => rows
  | some k =>
    let idx := rows.length - 1 - k
    rows.mapIdx (fun i row =>
      if i = idx then
        match row with
        | .obj o => JV.obj (f o)
        | other => other
      else row)

/-- The row `by_id` maps `fid` to: the last dict row with that string id. -/
def findLastById (rows : List JV) (fid : String) : Option JO :=
  rows.foldl
    (fun acc row =>
      match row with
      | .obj o =>
        match o.get? "id" with
        | some (.str s) => if s = fid then some o else acc
        | _ => acc
      | _ => acc) none

/-- Strict `<` on Python strings. -/
def pyStrLt (s t : String) : Bool := pyStrLe s t && s ≠ t

/-- Lexicographic `≤` on string pairs (Python tuple comparison). -/
def pairLe (a b : String × String) : Bool :=
  if a.1 = b.1 then pyStrLe a.2 b.2 else pyStrLe a.1 b.1

/-- One issue-driven safe fix step of `apply_autofix` (lines 92-125):
repair invalid geometry via `make_valid`, or round over-precise
coordinates; the row is looked up through `by_id` (last row with the id)
and mutated in place. -/
def safeFixStep (S : Shapely G) (st : List JV × List AutofixApplied)
    (issue : ValidationIssue) : List JV × List AutofixApplied :=
  match issue.feature_id with
  | none => st
  | some fid =>
    if fid = "" then st
    else
      match findLastById st.1 fid with
      | none => st
      | some o =>
        let geometry := o.get? "geometry"
        if issue.check = "invalid_geometry" then
          match geometry with
          | some (.obj gpl) =>
            match S.shape gpl with
            | some g =>
              (updateLastById st.1 fid (fun o2 => o2.setd "geometry" (.obj (S.mappingJ (S.makeValid g)))),
                st.2 ++ [{ feature_id := fid, check := issue.check, action := "make_valid",
                           description := "Repaired invalid geometry using make_valid()." }])
            | none => st
          | _ => st
        else if issue.check = "excessive_precision" then
          match geometry with
          | some (.obj gpl) =>
            (updateLastById st.1 fid (fun o2 => o2.setd "geometry" (roundValue7 (.obj gpl))),
              st.2 ++ [{ feature_id := fid, check := issue.check, action := "round_coordinates",
                         description := "Rounded geometry coordinates to 7 decimals." }])
          | _ => st
        else st

/-- The duplicate-geometry pairs collected by `apply_autofix`
(`tuple(sorted([feature_id, related_feature_id]))`, set semantics). -/
def dupPairsOf (issues : List ValidationIssue) : List (String × String) :=
  dedupKeepFirst (issues.filterMap (fun i =>
    if i.check = "duplicate_geometry_warning" then
      match i.feature_id, i.related_feature_id with
      | some f, some r =>
        if f ≠ "" && r ≠ "" then some (pyStrMin f r, pyStrMax f r) else none
      | _, _ => none
    else none))

/-- The empty-geometry feature ids collected by `apply_autofix`. -/
def emptyIdsOf (issues : List ValidationIssue) : List String :=
  dedupKeepFirst (issues.filterMap (fun i =>
    if i.check = "empty_geometry" then
      match i.feature_id with
      | some f => if f ≠ "" then some f else none
      | none => none
    else none))

/-- One step of the prompted-deletion loop of `apply_autofix` (autofix.py
lines 160-182): skip non-dict rows, delete rows whose string id is in
`toDelete` (tallying the fix), keep the rest. -/
def promptDeleteStep (toDelete : List String) (st : List JV × List AutofixApplied)
    (row : JV) : List JV × List AutofixApplied :=
  match row with
  | .obj o =>
    match o.get? "id" with
    | some (.str s) =>
      if toDelete.contains s then
        (st.1,
          st.2 ++ [{ feature_id := s, check := "prompted_delete",
                     action := "delete_feature",
                     description := "Deleted feature after user confirmation." }])
      else (st.1 ++ [row], st.2)
    | _ => (st.1 ++ [row], st.2)
  | _ => st

/-- Mirror of `apply_autofix` (autofix.py).  `fresh` models the `uuid4()`
stream; the result is `none` only if that finite stream runs out. -/
def apply_autofix (S : Shapely G) (fresh : List String) (fc : JO)
    (validation : ValidationResponse) (apply_prompted : Bool) :
    Option (JO × List AutofixApplied × List AutofixPrompt) :=
  let featuresVal := fc.get? "features"
  let rowsOk : Option (List JV) :=
    match featuresVal with
    | some (.arr xs) => some xs.toList
    | none => some []
    | some _ => none
  match rowsOk with
  | none => some (fc, [], [])
  | some rows0 =>
    match uuidPass fresh [] rows0 with
    | none => none
    | some (rows1, uuidFixes, _, _) =>
      let issues := validation.errors ++ validation.warnings
      let afterSafe := issues.foldl (safeFixStep S) (rows1, uuidFixes)
      let rows2 := afterSafe.1
      let dupPairs := dupPairsOf issues
      let emptyIds := emptyIdsOf issues
      let prompts :=
        (stableSort pairLe dupPairs).map (fun p =>
          { feature_id := p.1, related_feature_id := some p.2,
            check := "duplicate_geometry_warning", action := "delete_duplicate",
            description := "Delete one duplicate geometry (" ++ p.2.take 8 ++ ")." }) ++
        (stableSort pyStrLe emptyIds).map (fun fid =>
          { feature_id := fid, related_feature_id := none,
            check := "empty_geometry", action := "delete_empty",
            description := "Delete feature with empty geometry." })
      let toDelete := dupPairs.map (fun p => pyStrMax p.1 p.2) ++ emptyIds
      if apply_prompted && !toDelete.isEmpty then
        let kept := rows2.foldl (promptDeleteStep toDelete) ([], afterSafe.2)
        some (fc.setd "features" (.arr (JA.ofList kept.1)), kept.2, prompts)
      else
        let updated :=
          match featuresVal with
          | some (.arr _) => fc.setd "features" (.arr (JA.ofList rows2))
          | _ => fc
        some (updated, afterSafe.2, prompts)

/-! ### Importer geometry cleaning (backend/src/importer.py)

Ring/orientation repair is implemented by the backend itself on raw
coordinates, so here geometries are concrete: polygons are rings of scaled
decimal coordinates.  Only `make_valid` remains an oracle. -/

/-- Mirror of `schemas.CleanupSummary`. -/
structure CleanupSummary where
  multipolygons_exploded : Nat := 0
  rings_closed : Nat := 0
  features_reoriented : Nat := 0
  empty_features_dropped : Nat := 0
  coordinates_rounded : Nat := 0
deriving DecidableEq, Repr

/-- A shapely polygon: exterior ring plus interior rings, coordinates in
the scaled-decimal model. -/
structure PolyG where
  exterior : List (Int × Int)
  interiors : List (List (Int × Int))
deriving DecidableEq, Repr

/-- Concrete geometry universe for the import pipeline. -/
inductive IGeom where
  | poly (p : PolyG)
  | multi (ps : List PolyG)
  | line (coords : List (Int × Int))
deriving DecidableEq, Repr

/-- Twice the shoelace signed area of a closed ring
(`shapely.algorithms.cga.signed_area`; only the sign is consulted). -/
def signedArea2 : List (Int × Int) → Int
  | [] => 0
  | [_] => 0
  | p :: q :: rest => (p.1 * q.2 - q.1 * p.2) + signedArea2 (q :: rest)

/-- `_close_ring` (importer.py): repeat the first point at the end when the
ring is not closed, counting the repair. -/
def close_ring (coords : List (Int × Int)) (summary : CleanupSummary) :
    List (Int × Int) × CleanupSummary :=
  match coords with
  | [] => ([], summary)
  | c :: _ =>
    if coords.getLast? ≠ some c then
      (coords ++ [c], { summary with rings_closed := summary.rings_closed + 1 })
    else (coords, summary)

/-- `shapely.geometry.polygon.orient(p, sign=1.0)`: exterior counter-
clockwise, interiors clockwise (rings reversed when the signed area has the
wrong sign). -/
def orientPoly (p : PolyG) : PolyG :=
  { exterior := if 0 ≤ signedArea2 p.exterior then p.exterior else p.exterior.reverse
    interiors := p.interiors.map (fun r => if signedArea2 r ≤ 0 then r else r.reverse) }

/-- `_normalize_polygon` (importer.py): close all rings, then orient,
counting a reorientation when the result differs. -/
def normalize_polygon (p : PolyG) (summary : CleanupSummary) : PolyG × CleanupSummary :=
  let e := close_ring p.exterior summary
  let f := p.interiors.foldl
    (fun (st : List (List (Int × Int)) × CleanupSummary) r =>
      (st.1 ++ [(close_ring r st.2).1], (close_ring r st.2).2))
    ([], e.2)
  let rebuilt : PolyG := { exterior := e.1, interiors := f.1 }
  let oriented := orientPoly rebuilt
  if rebuilt ≠ oriented then
    (oriented, { f.2 with features_reoriented := f.2.features_reoriented + 1 })
  else (oriented, f.2)

/-- `_normalize_geometry` (importer.py). -/
def normalize_geometry (g : IGeom) (summary : CleanupSummary) : IGeom × CleanupSummary :=
  match g with
  | .poly p =>
    (.poly (normalize_polygon p summary).1, (normalize_polygon p summary).2)
  | .multi ps =>
    let f := ps.foldl
      (fun (st : List PolyG × CleanupSummary) p =>
        (st.1 ++ [(normalize_polygon p st.2).1], (normalize_polygon p st.2).2)) ([], summary)
    (.multi f.1, f.2)
  | other => (other, summary)

/-- `geom.is_empty` in the concrete import model. -/
def igeomIsEmpty : IGeom → Bool
  | .poly p => p.exterior.isEmpty
  | .multi ps => ps.isEmpty
  | .line coords => coords.isEmpty

/-- Round one coordinate pair, counting each changed value
(`_round_json_value`). -/
def roundCoordPair (st : List (Int × Int) × CleanupSummary) (c : Int × Int) :
    List (Int × Int) × CleanupSummary :=
  let x := roundHalfEvenScaled c.1
  let y := roundHalfEvenScaled c.2
  let bumps := (if x ≠ c.1 then 1 else 0) + (if y ≠ c.2 then 1 else 0)
  (st.1 ++ [(x, y)],
    { st.2 with coordinates_rounded := st.2.coordinates_rounded + bumps })

/-- Round a ring (`_round_json_value` over a coordinate list). -/
def roundRing (r : List (Int × Int)) (summary : CleanupSummary) :
    List (Int × Int) × CleanupSummary :=
  r.foldl roundCoordPair ([], summary)

/-- Round all rings of one polygon, threading the tally. -/
def roundPolyS (p : PolyG) (summary : CleanupSummary) : PolyG × CleanupSummary :=
  let e := roundRing p.exterior summary
  let f := p.interiors.foldl
    (fun (st : List (List (Int × Int)) × CleanupSummary) r =>
      (st.1 ++ [(roundRing r st.2).1], (roundRing r st.2).2)) ([], e.2)
  ({ exterior := e.1, interiors := f.1 }, f.2)

/-- `_round_geometry` (importer.py) at precision 7 in the concrete model. -/
def round_geometry (g : IGeom) (summary : CleanupSummary) : IGeom × CleanupSummary :=
  match g with
  | .poly p =>
    (.poly (roundPolyS p summary).1, (roundPolyS p summary).2)
  | .multi ps =>
    let f := ps.foldl
      (fun (st : List PolyG × CleanupSummary) p =>
        (st.1 ++ [(roundPolyS p st.2).1], (roundPolyS p st.2).2)) ([], summary)
    (.multi f.1, f.2)
  | .line coords =>
    (.line (roundRing coords summary).1, (roundRing coords summary).2)

/-- Mirror of `_clean_geometry` (importer.py): repair, normalize, explode
multi-part polygons, round, and drop empties, tallying each action.
`makeValid` is the shapely `make_valid` oracle. -/
def clean_geometry (makeValid : IGeom → IGeom) (geom : Option IGeom)
    (summary : CleanupSummary) : List IGeom × CleanupSummary :=
  match geom with
  | none =>
    ([], { summary with empty_features_dropped := summary.empty_features_dropped + 1 })
  | some g =>
    let fixed := makeValid g
    let n := normalize_geometry fixed summary
    let cs :=
      match n.1 with
      | .multi ps =>
        (ps.map IGeom.poly,
          { n.2 with multipolygons_exploded :=
              n.2.multipolygons_exploded + (ps.length - 1) })
      | other => ([other], n.2)
    cs.1.foldl
      (fun (st : List IGeom × CleanupSummary) candidate =>
        if igeomIsEmpty candidate then
          (st.1, { st.2 with empty_features_dropped := st.2.empty_features_dropped + 1 })
        else
          let q := round_geometry candidate st.2
          if igeomIsEmpty q.1 then
            (st.1, { q.2 with empty_features_dropped := q.2.empty_features_dropped + 1 })
          else (st.1 ++ [q.1], q.2))
      ([], cs.2)

/-! ### Wizard state mirrors (backend/src/schemas.py) and wizard helpers -/

/-- Mirror of `schemas.AddressInput`. -/
structure AddressInput where
  address : Option String := none
  unit : Option String := none
  locality : String
  province : Option String := none
  country : String
  postal_code : Option String := none
  postal_code_ext : Option String := none
  postal_code_vanity : Option String := none
deriving DecidableEq, Repr

/-- Mirror of `schemas.ProjectWizardState`. -/
structure ProjectWizardState where
  project_name : Option String := none
  venue_name : String
  venue_category : String
  language : String := "en"
  venue_restriction : Option String := none
  venue_hours : Option String := none
  venue_phone : Option String := none
  venue_website : Option String := none
  address : AddressInput
deriving DecidableEq, Repr

/-- Mirror of `schemas.LevelWizardItem`. -/
structure LevelWizardItem where
  stem : String
  detected_type : Option String := none
  ordinal : Option Int := none
  name : Option String := none
  short_name : Option String := none
  outdoor : Bool := false
  category : String := "unspecified"
deriving DecidableEq, Repr

/-- Mirror of `schemas.LevelsWizardState`. -/
structure LevelsWizardState where
  items : List LevelWizardItem := []
deriving DecidableEq, Repr

/-- Mirror of `schemas.BuildingWizardState`. -/
structure BuildingWizardState where
  id : String
  name : Option String := none
  category : String := "unspecified"
  restriction : Option String := none
  file_stems : List String := []
  address_mode : String := "same_as_venue"
  address : Option AddressInput := none
  address_feature_id : Option String := none
deriving DecidableEq, Repr

/-- Mirror of `schemas.UnitMappingState` (preview omitted: unused by the
generator). -/
structure UnitMappingState where
  code_column : Option String := none
  name_column : Option String := none
  alt_name_column : Option String := none
  restriction_column : Option String := none
  accessibility_column : Option String := none
deriving DecidableEq, Repr

/-- Mirror of `schemas.OpeningMappingState`. -/
structure OpeningMappingState where
  category_column : Option String := none
  accessibility_column : Option String := none
  access_control_column : Option String := none
  door_automatic_column : Option String := none
  door_material_column : Option String := none
  door_type_column : Option String := none
  name_column : Option String := none
deriving DecidableEq, Repr

/-- Mirror of `schemas.FixtureMappingState`. -/
structure FixtureMappingState where
  name_column : Option String := none
  alt_name_column : Option String := none
  category_column : Option String := none
deriving DecidableEq, Repr

/-- Mirror of `schemas.WizardMappingsState`. -/
structure WizardMappingsState where
  unit : UnitMappingState := {}
  opening : OpeningMappingState := {}
  fixture : FixtureMappingState := {}
  detail_confirmed : Bool := false
deriving DecidableEq, Repr

/-- Mirror of `schemas.FootprintWizardState` (buffers are scaled floats). -/
structure FootprintWizardState where
  method : String := "union_buffer"
  footprint_buffer_m : Int := 500000000000
  venue_buffer_m : Int := 5000000000000
deriving DecidableEq, Repr

/-- Mirror of `schemas.WizardState`. -/
structure WizardState where
  project : Option ProjectWizardState := none
  levels : LevelsWizardState := {}
  buildings : List BuildingWizardState := []
  mappings : WizardMappingsState := {}
  footprint : FootprintWizardState := {}
  company_mappings : List (String × String) := []
  company_default_category : String := "unspecified"
  venue_address_feature : Option JV := none
  building_address_features : List JV := []
  warnings : List String := []
  generation_status : String := "not_started"

/-- Mirror of `schemas.SessionRecord` (timestamps omitted: unused by the
embedded pipeline functions). -/
structure SessionRecord where
  session_id : String
  files : List ImportedFile := []
  cleanup_summary : CleanupSummary := {}
  feature_collection : JO := JO.nil
  source_feature_collection : Option JO := none
  warnings : List String := []
  learned_keywords : List (String × String) := []
  wizard : WizardState := {}

/-- Python truthiness of an optional string (`None` and `""` are falsy). -/
def optStrTruthy : Option String → Bool
  | some s => s ≠ ""
  | none => false

/-- Python `a or b` on optional strings. -/
def pyOrOptStr (a b : Option String) : Option String :=
  if optStrTruthy a then a else b

/-- Python `str(v)`.  Floats render as exact decimals (CPython prints the
shortest roundtripping decimal; exact inputs agree), containers as a
placeholder (never produced for the label/text fields this feeds). -/
def pyStr : JV → String
  | .str s => s
  | .null => "None"
  | .bool b => if b then "True" else "False"
  | .int n => toString n
  | .float z =>
    let neg := decide (z < 0)
    let a := z.natAbs
    let ip := a / 1000000000000
    let fp := a % 1000000000000
    let fracStr :=
      if fp = 0 then "0"
      else
        let s := toString fp
        let padded := String.mk (List.replicate (12 - s.length) '0' ++ s.data)
        String.mk (padded.data.reverse.dropWhile (fun c => c = '0')).reverse
    (if neg then "-" else "") ++ toString ip ++ "." ++ fracStr
  | .arr _ => "<list>"
  | .obj _ => "<dict>"

/-- `LEVEL_FILE_TYPES` (wizard.py). -/
def LEVEL_FILE_TYPES : List String := ["unit", "opening", "fixture", "detail"]

namespace Wizard

/-- `_default_short_name` (wizard.py): `GF` at ground. -/
def default_short_name : Option Int → Option String
  | none => none
  | some ordinal =>
    if ordinal = 0 then some "GF"
    else if 0 < ordinal then some (toString ordinal ++ "F")
    else some ("B" ++ toString ordinal.natAbs)

/-- Mirror of `seed_wizard_state` (wizard.py): fill default building and
level-item wizard state from the imported files. -/
def seed_wizard_state (session : SessionRecord) : SessionRecord :=
  let wizard := session.wizard
  let wizard :=
    if wizard.buildings.isEmpty then
      { wizard with buildings :=
          [{ id := "building-1", file_stems := session.files.map (fun f => f.stem) }] }
    else wizard
  let wizard :=
    if wizard.levels.items.isEmpty then
      { wizard with levels :=
          { items := session.files.filterMap (fun file =>
              if LEVEL_FILE_TYPES.contains (pyLower ((file.detected_type).getD "")) then
                some
                  { stem := file.stem
                    detected_type := file.detected_type
                    ordinal := file.detected_level
                    name := file.level_name
                    short_name := pyOrOptStr file.short_name (default_short_name file.detected_level)
                    outdoor := file.outdoor
                    category := file.level_category }
              else none) } }
    else wizard
  { session with wizard := wizard }

/-- Mirror of `build_address_feature` (wizard.py); `newId` is the `uuid4()`
draw. -/
def build_address_feature (address : AddressInput) (fallback_name : Option String)
    (newId : String) : JV :=
  let line := pyStrip ((address.address).getD "")
  let line := if line = "" then pyStrip ((fallback_name).getD "") else line
  .obj (JO.ofList
    [("type", .str "Feature"),
     ("id", .str newId),
     ("feature_type", .str "address"),
     ("geometry", .null),
     ("properties", .obj (JO.ofList
       [("address", .str line),
        ("unit", match address.unit with | some s => .str s | none => .null),
        ("locality", .str address.locality),
        ("province", match address.province with | some s => .str s | none => .null),
        ("country", .str address.country),
        ("postal_code", match address.postal_code with | some s => .str s | none => .null),
        ("postal_code_ext", match address.postal_code_ext with | some s => .str s | none => .null),
        ("postal_code_vanity", match address.postal_code_vanity with | some s => .str s | none => .null),
        ("status", .str "mapped"),
        ("issues", .arr .nil),
        ("_phase3_generated", .bool true)]))])

end Wizard

/-! ### Mapper helpers (backend/src/mapper.py) -/

/-- Mirror of `wrap_labels` (mapper.py). -/
def wrap_labels (value : JV) (language : String) : Option JO :=
  match value with
  | .null => none
  | .obj o =>
    let normalized := o.toList.filterMap (fun p =>
      if pyStrip (pyStr p.2) ≠ "" then some (p.1, JV.str (pyStr p.2)) else none)
    if normalized.isEmpty then none else some (JO.ofList normalized)
  | v =>
    let text := pyStrip (pyStr v)
    if text = "" then none
    else
      let tag := if pyStrip language = "" then "en" else pyStrip language
      some (JO.ofList [(tag, .str text)])

/-- Mirror of `resolve_unit_category` (mapper.py): company-code mapping,
then direct category-name match, else the default with an unresolved flag. -/
def resolve_unit_category (raw_code : Option JV) (company_mappings : List (String × String))
    (valid_categories : List String) (default_category : String) : String × Bool :=
  match raw_code with
  | none => (default_category, true)
  | some .null => (default_category, true)
  | some v =>
    let code_text := pyStrip (pyStr v)
    if code_text = "" then (default_category, true)
    else
      match alistGet? company_mappings (pyUpper code_text) with
      | some mapped =>
        if mapped ≠ "" then (mapped, false)
        else if valid_categories.contains (pyLower code_text) then (pyLower code_text, false)
        else (default_category, true)
      | none =>
        if valid_categories.contains (pyLower code_text) then (pyLower code_text, false)
        else (default_category, true)

/-! ### Generator (backend/src/generator.py) -/

namespace Generator

/-- `OPENING_CATEGORIES` (generator.py). -/
def OPENING_CATEGORIES : List String :=
  ["automobile", "bicycle", "pedestrian", "emergencyexit",
   "pedestrian.principal", "pedestrian.transit", "service"]

/-- `_default_short_name` (generator.py): note `GH` at ground, unlike the
wizard seeding default. -/
def default_short_name (ordinal : Int) : String :=
  if ordinal = 0 then "GH"
  else if 0 < ordinal then toString ordinal ++ "F"
  else "B" ++ toString ordinal.natAbs

/-- `_display_point` (generator.py). -/
def display_point (S : Shapely G) (geom : Option G) : JV :=
  match geom with
  | none => .null
  | some g =>
    if S.isEmpty g then .null
    else
      let p := S.representativePoint g
      .obj (JO.ofList
        [("type", .str "Point"),
         ("coordinates", .arr (JA.ofList [.float (S.px p), .float (S.py p)]))])

/-- Split a char list at `;`/`,`/`|` (the `re.split(r"[;,|]", text)` of
`_parse_list`); `acc` holds the current segment reversed. -/
def splitSepAux (acc : List Char) : List Char → List (List Char)
  | [] => [acc.reverse]
  | c :: cs =>
    if c = ';' || c = ',' || c = '|' then acc.reverse :: splitSepAux [] cs
    else splitSepAux (c :: acc) cs

/-- Mirror of `_parse_list` (generator.py). -/
def parse_list (value : Option JV) : Option (List String)  :=
  match value with
  | none => none
  | some .null => none
  | some (.arr xs) =>
    let normalized := xs.toList.filterMap (fun item =>
      let t := pyStrip (pyStr item)
      if t ≠ "" then some t else none)
    if normalized.isEmpty then none else some normalized
  | some v =>
    let text := pyStrip (pyStr v)
    if text = "" then none
    else
      let parts := (splitSepAux [] text.data).filterMap (fun seg =>
        let t := pyStrip (String.mk seg)
        if t ≠ "" then some t else none)
      if parts.isEmpty then some [text] else some parts

/-- Mirror of `_parse_bool` (generator.py). -/
def parse_bool (value : Option JV) : Option Bool :=
  match value with
  | none => none
  | some .null => none
  | some (.bool b) => some b
  | some v =>
    let text := pyLower (pyStrip (pyStr v))
    if text = "" then none
    else if ["1", "true", "yes", "y", "on"].contains text then some true
    else if ["0", "false", "no", "n", "off"].contains text then some false
    else none

/-- Mirror of `_normalize_text` (generator.py). -/
def normalize_text (value : Option JV) : Option String :=
  match value with
  | none => none
  | some .null => none
  | some v =>
    let text := pyStrip (pyStr v)
    if text = "" then none else some text

/-- Mirror of `_clean_feature` (generator.py): drop underscore-prefixed
property keys. -/
def clean_feature (feature : JV) : JV :=
  match feature with
  | .obj o =>
    match o.get? "properties" with
    | some (.obj props) =>
      .obj (o.setd "properties"
        (.obj (JO.ofList (props.toList.filter (fun p => !pyStartsWith "_" p.1)))))
    | _ => .obj o
  | other => other

/-- Mirror of `_source_feature_rows` (generator.py): the source collection
(falling back to the working collection when absent or empty). -/
def source_feature_rows (session : SessionRecord) : List JV :=
  let collection :=
    match session.source_feature_collection with
    | some o => match o with | .nil => session.feature_collection | _ => o
    | none => session.feature_collection
  match collection.get? "features" with
  | some (.arr xs) => xs.toList
  | _ => []

/-- Mirror of `_level_items_from_files` (generator.py). -/
def level_items_from_files (session : SessionRecord) : List LevelWizardItem :=
  session.files.filterMap (fun file =>
    if LEVEL_FILE_TYPES.contains (pyLower ((file.detected_type).getD "")) then
      some
        { stem := file.stem
          detected_type := file.detected_type
          ordinal := file.detected_level
          name := file.level_name
          short_name := file.short_name
          outdoor := file.outdoor
          category := file.level_category }
    else none)

/-- One ordinal group accumulated by `_collect_level_groups`. -/
structure LevelGroup where
  ordinal : Int
  name : Option String := none
  short_name : Option String := none
  category : String := "unspecified"
  outdoor : Bool := false
  stems : List String := []
deriving DecidableEq, Repr

/-- Add a stem to the group's stem set (first-insertion order). -/
def addStem (stems : List String) (stem : String) : List String :=
  if stems.contains stem then stems else stems ++ [stem]

/-- Fold one wizard level item into the ordinal-keyed group map. -/
def collectGroupStep (grouped : List (Int × LevelGroup)) (item : LevelWizardItem) :
    List (Int × LevelGroup) :=
  match item.ordinal with
  | none => grouped
  | some ordinal =>
    let group := (alistGet? grouped ordinal).getD { ordinal := ordinal }
    let group := if optStrTruthy item.name && !optStrTruthy group.name then
        { group with name := item.name } else group
    let group := if optStrTruthy item.short_name && !optStrTruthy group.short_name then
        { group with short_name := item.short_name } else group
    let group := if item.category ≠ "" && item.category ≠ "unspecified" then
        { group with category := item.category } else group
    let group := if item.outdoor then { group with outdoor := true } else group
    let group := { group with stems := addStem group.stems item.stem }
    alistSet grouped ordinal group

/-- Mirror of `_collect_level_groups` (generator.py). -/
def collect_level_groups (session : SessionRecord) : List (Int × LevelGroup) :=
  let level_items :=
    if session.wizard.levels.items.isEmpty then level_items_from_files session
    else session.wizard.levels.items
  level_items.foldl collectGroupStep []

/-- Mirror of `_unit_geometries_by_stem` (generator.py).  (`shape` failures
would raise in CPython; rows whose geometry cannot be parsed are skipped in
the model.) -/
def unit_geometries_by_stem (S : Shapely G) (source_rows : List JV)
    (file_map : List (String × ImportedFile)) : List (String × List G) :=
  source_rows.foldl
    (fun acc row =>
      match rowGet? row "properties" with
      | some (.obj props) =>
        match props.get? "source_file" with
        | some (.str stem) =>
          if stem = "" then acc
          else
            match alistGet? file_map stem with
            | none => acc
            | some info =>
              if pyLower ((info.detected_type).getD "") ≠ "unit" then acc
              else
                match rowGet? row "geometry" with
                | some (.obj gpl) =>
                  match S.shape gpl with
                  | some g => if S.isEmpty g then acc else bucketAppend acc stem g
                  | none => acc
                | _ => acc
        | _ => acc
      | _ => acc) []

end Generator

/-- Python truthiness of a JSON value. -/
def jvTruthy : JV → Bool
  | .null => false
  | .bool b => b
  | .int n => n ≠ 0
  | .float z => z ≠ 0
  | .str s => s ≠ ""
  | .arr xs => match xs with | .nil => false | _ => true
  | .obj o => match o with | .nil => false | _ => true

namespace Generator

/-- `str(feature.get("id")) if feature.get("id") else None`. -/
def featureIdStr (feature : JV) : Option String :=
  match rowGet? feature "id" with
  | some idv => if jvTruthy idv then some (pyStr idv) else none
  | none => none

/-- Mirror of `_collect_address_features` (generator.py); threads the
`uuid4()` stream counter used by `build_address_feature`. -/
def collect_address_features (session : SessionRecord) (uuidStream : Nat → String)
    (ctr : Nat) : List JV × Option String × Nat :=
  let project := session.wizard.project
  let (vaf, ctr) :=
    match project, session.wizard.venue_address_feature with
    | some p, none =>
      (some (Wizard.build_address_feature p.address (some p.venue_name) (uuidStream ctr)),
        ctr + 1)
    | _, existing => (existing, ctr)
  let (addresses, venue_address_id) :=
    match vaf with
    | some (.obj o) =>
      let cleaned := clean_feature (.obj o)
      ([cleaned], featureIdStr cleaned)
    | _ => ([], none)
  let known := addresses.filterMap featureIdStr
  let (addresses, _) := session.wizard.building_address_features.foldl
    (fun (st : List JV × List String) feature =>
      match feature with
      | .obj o =>
        let cleaned := clean_feature (.obj o)
        match featureIdStr cleaned with
        | some aid =>
          if st.2.contains aid then st
          else (st.1 ++ [cleaned], st.2 ++ [aid])
        | none => (st.1 ++ [cleaned], st.2)
      | _ => st) (addresses, known)
  (addresses, venue_address_id, ctr)

/-- One generated level: its ordinal group, union geometry, and linked
building ids; the stable id and the emitted feature are derived by
`levelIdOf` and `levelFeatureOf`. -/
structure LevelBuild (G : Type) where
  ordinal : Int
  group : LevelGroup
  geom : G
  building_ids : List String

/-- `level_id_by_ordinal[ordinal]`: the deterministic level identifier
`_stable_id(session, f"level:{ordinal}")`. -/
def levelIdOf (stableId : String → String → String) (session_id : String)
    (lb : LevelBuild G) : String :=
  stableId session_id ("level:" ++ toString lb.ordinal)

/-- The level feature emitted for one ordinal group (generator.py lines
263-284). -/
def levelFeatureOf (S : Shapely G) (stableId : String → String → String)
    (session_id language : String) (lb : LevelBuild G) : JV :=
  let ordinal := lb.ordinal
  let group := lb.group
  let level_id := levelIdOf stableId session_id lb
  let level_name := (pyOrOptStr group.name (some ("Level " ++ toString ordinal))).getD ""
  let level_short_name :=
    (pyOrOptStr group.short_name (some (default_short_name ordinal))).getD ""
  let nameJO := (wrap_labels (.str level_name) language).getD
    (JO.ofList [(language, .str level_name)])
  let shortJO := (wrap_labels (.str level_short_name) language).getD
    (JO.ofList [(language, .str level_short_name)])
  .obj (JO.ofList
    [("type", .str "Feature"),
     ("id", .str level_id),
     ("feature_type", .str "level"),
     ("geometry", .obj (S.mappingJ lb.geom)),
     ("properties", .obj (JO.ofList
       [("category", .str (if group.category ≠ "" then group.category else "unspecified")),
        ("restriction", .null),
        ("outdoor", .bool group.outdoor),
        ("ordinal", .int ordinal),
        ("name", .obj nameJO),
        ("short_name", .obj shortJO),
        ("display_point", display_point S (some lb.geom)),
        ("address_id", .null),
        ("building_ids", .arr (JA.ofList (lb.building_ids.map JV.str))),
        ("status", .str "mapped"),
        ("issues", .arr .nil),
        ("source_files", .arr (JA.ofList ((stableSort pyStrLe group.stems).map JV.str)))]))])

/-- The stable id of a configured building
(`building_uuid_by_id[building.id]`). -/
def buildingUuid (stableId : String → String → String) (session_id : String)
    (b : BuildingWizardState) : String :=
  stableId session_id ("building:" ++ b.id)

/-- Build the level features (generator.py lines 217-284), in ascending
ordinal order. -/
def buildLevels (S : Shapely G) (stableId : String → String → String)
    (session_id : String) (level_groups : List (Int × LevelGroup))
    (unit_geoms : List (String × List G)) (source_rows : List JV)
    (building_rows : List BuildingWizardState) : List (LevelBuild G) :=
  (stableSort (fun a b => decide (a.1 ≤ b.1)) level_groups).filterMap (fun og =>
    let ordinal := og.1
    let group := og.2
    let stems := group.stems
    let polygon_geoms := stems.foldl (fun acc stem => acc ++ (alistGet? unit_geoms stem).getD []) []
    let polygon_geoms :=
      if polygon_geoms.isEmpty then
        source_rows.foldl (fun acc row =>
          let inStems :=
            match rowGet? row "properties" with
            | some (.obj props) =>
              match props.get? "source_file" with
              | some (.str s) => stems.contains s
              | _ => false
            | _ => false
          if !inStems then acc
          else
            match rowGet? row "geometry" with
            | some (.obj gpl) =>
              match S.shape gpl with
              | some g =>
                if S.isEmpty g then acc
                else if S.geomType g = "Polygon" || S.geomType g = "MultiPolygon" then
                  acc ++ [g]
                else acc
              | none => acc
            | _ => acc) []
      else polygon_geoms
    if polygon_geoms.isEmpty then none
    else
      let merged := S.unionAll polygon_geoms
      if S.isEmpty merged then none
      else
        let linked := building_rows.filterMap (fun b =>
          if stems.any (fun s => b.file_stems.contains s) then
            some (buildingUuid stableId session_id b)
          else none)
        let linked := stableSort pyStrLe (dedupKeepFirst linked)
        let linked :=
          if linked.isEmpty && !building_rows.isEmpty then
            match building_rows with
            | b :: _ => [buildingUuid stableId session_id b]
            | [] => []
          else linked
        some { ordinal := ordinal, group := group, geom := merged, building_ids := linked })

/-- Build the footprint features (generator.py lines 286-331), returning
them with the per-building ground and first anchor geometries. -/
def buildFootprints (S : Shapely G) (stableId : String → String → String)
    (session_id : String) (building_rows : List BuildingWizardState)
    (file_map : List (String × ImportedFile)) (unit_geoms : List (String × List G))
    (levelBuilds : List (LevelBuild G)) :
    List JV × List (String × G) × List (String × G) :=
  building_rows.foldl
    (fun (st : List JV × List (String × G) × List (String × G)) building =>
      let building_uuid := buildingUuid stableId session_id building
      let building_stems := dedupKeepFirst building.file_stems
      levelBuilds.foldl
        (fun (st2 : List JV × List (String × G) × List (String × G)) lb =>
          let ordinal := lb.ordinal
          let geometries := building_stems.foldl (fun acc stem =>
            match alistGet? file_map stem with
            | none => acc
            | some info =>
              if pyLower ((info.detected_type).getD "") ≠ "unit" then acc
              else if info.detected_level ≠ some ordinal then acc
              else acc ++ (alistGet? unit_geoms stem).getD []) []
          let geometries :=
            if geometries.isEmpty && lb.building_ids.contains building_uuid then [lb.geom]
            else geometries
          if geometries.isEmpty then st2
          else
            let merged := S.unionAll geometries
            if S.isEmpty merged then st2
            else
              let category :=
                if ordinal = 0 then "ground" else if 0 < ordinal then "aerial" else "subterranean"
              let footprint_id :=
                stableId session_id ("footprint:" ++ building.id ++ ":" ++ toString ordinal)
              let feature := JV.obj (JO.ofList
                [("type", .str "Feature"),
                 ("id", .str footprint_id),
                 ("feature_type", .str "footprint"),
                 ("geometry", .obj (S.mappingJ merged)),
                 ("properties", .obj (JO.ofList
                   [("category", .str category),
                    ("name", .null),
                    ("building_ids", .arr (JA.ofList [JV.str building_uuid])),
                    ("status", .str "mapped"),
                    ("issues", .arr .nil),
                    ("ordinal", .int ordinal)]))])
              let firstMap :=
                if (alistGet? st2.2.2 building.id).isSome then st2.2.2
                else alistSet st2.2.2 building.id merged
              let groundMap :=
                if ordinal = 0 then alistSet st2.2.1 building.id merged else st2.2.1
              (st2.1 ++ [feature], groundMap, firstMap))
        st)
    ([], [], [])

/-- Build the building features (generator.py lines 333-356). -/
def buildBuildings (S : Shapely G) (stableId : String → String → String)
    (session_id language : String) (project : Option ProjectWizardState)
    (building_rows : List BuildingWizardState)
    (groundMap firstMap : List (String × G)) : List JV :=
  building_rows.map (fun building =>
    let building_uuid := buildingUuid stableId session_id building
    let anchor : Option G :=
      match alistGet? groundMap building.id with
      | some g => if S.isEmpty g then alistGet? firstMap building.id else some g
      | none => alistGet? firstMap building.id
    let fallback_name := (project.map (fun p => p.venue_name))
    let resolved_name := pyOrOptStr building.name fallback_name
    JV.obj (JO.ofList
      [("type", .str "Feature"),
       ("id", .str building_uuid),
       ("feature_type", .str "building"),
       ("geometry", .null),
       ("properties", .obj (JO.ofList
         [("name",
           match wrap_labels (match resolved_name with | some s => .str s | none => .null) language with
           | some jo => .obj jo
           | none => .null),
          ("alt_name", .null),
          ("category", .str (if building.category ≠ "" then building.category else "unspecified")),
          ("restriction", match building.restriction with | some s => .str s | none => .null),
          ("display_point", match anchor with | some _ => display_point S anchor | none => .null),
          ("address_id", match building.address_feature_id with | some s => .str s | none => .null),
          ("status", .str "mapped"),
          ("issues", .arr .nil)]))]))

/-- Build the venue feature (generator.py lines 358-397). -/
def buildVenue (S : Shapely G) (stableId : String → String → String)
    (session : SessionRecord) (p : ProjectWizardState) (language : String)
    (footprint_features : List JV) (levelBuilds : List (LevelBuild G))
    (unit_geoms : List (String × List G)) (venue_address_id : Option String) : Option JV :=
  let venue_geometries := footprint_features.filterMap (fun fp =>
    match rowGet? fp "geometry" with
    | some (.obj gpl) => S.shape gpl
    | _ => none)
  let venue_geometries :=
    if venue_geometries.isEmpty then
      (levelBuilds.map (fun lb => lb.geom)).filter (fun g => !S.isEmpty g)
    else venue_geometries
  let venue_geometries :=
    if venue_geometries.isEmpty then
      (unit_geoms.map Prod.snd).flatten.filter (fun g => !S.isEmpty g)
    else venue_geometries
  if venue_geometries.isEmpty then none
  else
    let merged := S.unionAll venue_geometries
    let venue_buffer := (max session.wizard.footprint.venue_buffer_m 0).fdiv 111320
    let merged := if 0 < venue_buffer then S.buffer merged venue_buffer else merged
    some (.obj (JO.ofList
      [("type", .str "Feature"),
       ("id", .str (stableId session.session_id "venue")),
       ("feature_type", .str "venue"),
       ("geometry", .obj (S.mappingJ merged)),
       ("properties", .obj (JO.ofList
         [("category", .str p.venue_category),
          ("restriction", match p.venue_restriction with | some s => .str s | none => .null),
          ("name", match wrap_labels (.str p.venue_name) language with
            | some jo => .obj jo
            | none => .null),
          ("alt_name", .null),
          ("hours", match p.venue_hours with | some s => .str s | none => .null),
          ("phone", match p.venue_phone with | some s => .str s | none => .null),
          ("website", match p.venue_website with | some s => .str s | none => .null),
          ("display_point", display_point S (some merged)),
          ("address_id", match venue_address_id with | some s => .str s | none => .null),
          ("status", .str "mapped"),
          ("issues", .arr .nil)]))]))

end Generator

namespace Generator

/-- JSON encoding of an optional text property. -/
def jOptStr : Option String → JV
  | some s => .str s
  | none => .null

/-- JSON encoding of an optional string-list property. -/
def jOptList : Option (List String) → JV
  | some xs => .arr (JA.ofList (xs.map JV.str))
  | none => .null

/-- JSON encoding of an optional labels dict. -/
def jOptLabels : Option JO → JV
  | some jo => .obj jo
  | none => .null

/-- `metadata.get(col) if col else None` (column names are falsy when
`None` or empty). -/
def metaGet (metadata : JO) (col : Option String) : Option JV :=
  if optStrTruthy col then metadata.get? ((col).getD "") else none

/-- `wrap_labels(metadata.get(col), language) if col else None`. -/
def wrapCol (metadata : JO) (col : Option String) (language : String) : Option JO :=
  if optStrTruthy col then
    wrap_labels ((metadata.get? ((col).getD "")).getD .null) language
  else none

/-- One row of the mapped unit/opening/fixture/detail pass (generator.py
lines 405-535): emit the feature when the row has a usable source file,
geometry and resolved level, threading the `uuid4()` counter. -/
def mappedStep (S : Shapely G) (stableId : String → String → String)
    (session_id : String) (uuidStream : Nat → String)
    (file_map : List (String × ImportedFile))
    (levelBuilds : List (LevelBuild G)) (company_mappings : List (String × String))
    (valid_unit_categories : List String) (default_unit_category : String)
    (mapping_config : WizardMappingsState) (language : String)
    (st : List JV × Nat) (row : JV) : List JV × Nat :=
      let row_properties := propsOf row
      match row_properties.get? "source_file" with
      | some (.str stem) =>
        if stem = "" then st
        else
          match alistGet? file_map stem with
          | none => st
          | some file_info =>
            let feature_type := pyLower ((file_info.detected_type).getD "")
            if !(["unit", "opening", "fixture", "detail"].contains feature_type) then st
            else
              match rowGet? row "geometry" with
              | some (.obj gpl) =>
                match S.shape gpl with
                | none => st
                | some geom =>
                  if S.isEmpty geom then st
                  else
                    match file_info.detected_level with
                    | none => st
                    | some ordinal =>
                      match (levelBuilds.find? (fun lb => lb.ordinal = ordinal)).map
                          (levelIdOf stableId session_id) with
                      | none => st
                      | some level_id =>
                        let metadata :=
                          match row_properties.get? "metadata" with
                          | some (.obj m) => m
                          | _ => JO.nil
                        let common : List (String × JV) :=
                          [("source_file", .str stem),
                           ("status", .str "mapped"),
                           ("issues", .arr .nil),
                           ("metadata", .obj metadata)]
                        let new_properties : List (String × JV) :=
                          if feature_type = "unit" then
                            let raw_code := metaGet metadata mapping_config.unit.code_column
                            let category := (resolve_unit_category raw_code company_mappings
                              valid_unit_categories default_unit_category).1
                            [("category", .str category),
                             ("restriction", jOptStr (if optStrTruthy mapping_config.unit.restriction_column then
                               normalize_text (metaGet metadata mapping_config.unit.restriction_column) else none)),
                             ("accessibility", jOptList (if optStrTruthy mapping_config.unit.accessibility_column then
                               parse_list (metaGet metadata mapping_config.unit.accessibility_column) else none)),
                             ("name", jOptLabels (wrapCol metadata mapping_config.unit.name_column language)),
                             ("alt_name", jOptLabels (wrapCol metadata mapping_config.unit.alt_name_column language)),
                             ("level_id", .str level_id),
                             ("display_point", display_point S (some geom))] ++ common
                          else if feature_type = "opening" then
                            let category :=
                              if optStrTruthy mapping_config.opening.category_column then
                                match normalize_text (metaGet metadata mapping_config.opening.category_column) with
                                | some rv =>
                                  if OPENING_CATEGORIES.contains (pyLower rv) then pyLower rv
                                  else "pedestrian"
                                | none => "pedestrian"
                              else "pedestrian"
                            let door_automatic :=
                              if optStrTruthy mapping_config.opening.door_automatic_column then
                                parse_bool (metaGet metadata mapping_config.opening.door_automatic_column)
                              else none
                            let door_material :=
                              if optStrTruthy mapping_config.opening.door_material_column then
                                normalize_text (metaGet metadata mapping_config.opening.door_material_column)
                              else none
                            let door_type :=
                              if optStrTruthy mapping_config.opening.door_type_column then
                                normalize_text (metaGet metadata mapping_config.opening.door_type_column)
                              else none
                            let door : JV :=
                              if door_automatic.isNone && door_material.isNone && door_type.isNone then .null
                              else .obj (JO.ofList
                                [("automatic", match door_automatic with
                                  | some b => .bool b
                                  | none => .null),
                                 ("material", jOptStr door_material),
                                 ("type", jOptStr door_type)])
                            [("category", .str category),
                             ("accessibility", jOptList (if optStrTruthy mapping_config.opening.accessibility_column then
                               parse_list (metaGet metadata mapping_config.opening.accessibility_column) else none)),
                             ("access_control", jOptList (if optStrTruthy mapping_config.opening.access_control_column then
                               parse_list (metaGet metadata mapping_config.opening.access_control_column) else none)),
                             ("door", door),
                             ("name", jOptLabels (wrapCol metadata mapping_config.opening.name_column language)),
                             ("alt_name", .null),
                             ("display_point", display_point S (some geom)),
                             ("level_id", .str level_id)] ++ common
                          else if feature_type = "fixture" then
                            let fixture_category :=
                              if optStrTruthy mapping_config.fixture.category_column then
                                (normalize_text (metaGet metadata mapping_config.fixture.category_column)).getD "unspecified"
                              else "unspecified"
                            [("category", .str (pyLower fixture_category)),
                             ("name", jOptLabels (wrapCol metadata mapping_config.fixture.name_column language)),
                             ("alt_name", jOptLabels (wrapCol metadata mapping_config.fixture.alt_name_column language)),
                             ("anchor_id", .null),
                             ("level_id", .str level_id),
                             ("display_point", display_point S (some geom))] ++ common
                          else
                            [("level_id", .str level_id)] ++ common
                        let idDraw : String × Nat :=
                          match rowGet? row "id" with
                          | some idv =>
                            if jvTruthy idv then (pyStr idv, st.2)
                            else (uuidStream st.2, st.2 + 1)
                          | none => (uuidStream st.2, st.2 + 1)
                        (st.1 ++ [JV.obj (JO.ofList
                          [("type", .str "Feature"),
                           ("id", .str idDraw.1),
                           ("feature_type", .str feature_type),
                           ("geometry", .obj gpl),
                           ("properties", .obj (JO.ofList new_properties))])], idDraw.2)
              | _ => st
      | _ => st

/-- Build the mapped unit/opening/fixture/detail features (generator.py
lines 405-535), threading the `uuid4()` counter for rows without an id. -/
def buildMapped (S : Shapely G) (stableId : String → String → String)
    (session_id : String) (uuidStream : Nat → String) (ctr : Nat)
    (source_rows : List JV) (file_map : List (String × ImportedFile))
    (levelBuilds : List (LevelBuild G)) (company_mappings : List (String × String))
    (valid_unit_categories : List String) (default_unit_category : String)
    (mapping_config : WizardMappingsState) (language : String) : List JV × Nat :=
  source_rows.foldl
    (mappedStep S stableId session_id uuidStream file_map levelBuilds company_mappings
      valid_unit_categories default_unit_category mapping_config language)
    ([], ctr)

/-- Mirror of `generate_feature_collection` (generator.py).  `stableId`
models `_stable_id` (a `uuid5` hash), `uuidStream` the `uuid4()` stream,
and `valid_unit_categories`/`fallback_unit_category` the two components
returned by `load_unit_categories`. -/
def generate_feature_collection (S : Shapely G) (stableId : String → String → String)
    (uuidStream : Nat → String) (session : SessionRecord)
    (valid_unit_categories : List String) (fallback_unit_category : String) : JO :=
  let session := Wizard.seed_wizard_state session
  let source_rows := source_feature_rows session
  let file_map := session.files.foldl (fun acc f => alistSet acc f.stem f) []
  let project := session.wizard.project
  let language :=
    match project with
    | some p => if pyStrip p.language ≠ "" then pyStrip p.language else "en"
    | none => "en"
  let building_rows :=
    if session.wizard.buildings.isEmpty then
      [{ id := "building-1", file_stems := session.files.map (fun f => f.stem) }]
    else session.wizard.buildings
  let level_groups := collect_level_groups session
  let unit_geoms := unit_geometries_by_stem S source_rows file_map
  let addrOut := collect_address_features session uuidStream 0
  let addresses := addrOut.1
  let venue_address_id := addrOut.2.1
  let ctr := addrOut.2.2
  let levelBuilds := buildLevels S stableId session.session_id level_groups
    unit_geoms source_rows building_rows
  let fpOut := buildFootprints S stableId session.session_id building_rows file_map
    unit_geoms levelBuilds
  let footprint_features := fpOut.1
  let building_features := buildBuildings S stableId session.session_id language project
    building_rows fpOut.2.1 fpOut.2.2
  let venue_feature :=
    match project with
    | some p => buildVenue S stableId session p language footprint_features levelBuilds
        unit_geoms venue_address_id
    | none => none
  let default_unit_category :=
    let d := if session.wizard.company_default_category ≠ "" then
      session.wizard.company_default_category else fallback_unit_category
    if valid_unit_categories.contains d then d else fallback_unit_category
  let mappedOut := buildMapped S stableId session.session_id uuidStream ctr
    source_rows file_map levelBuilds
    session.wizard.company_mappings valid_unit_categories default_unit_category
    session.wizard.mappings language
  let final_features :=
    addresses ++
    venue_feature.toList ++
    building_features ++
    footprint_features ++
    (levelBuilds.map (levelFeatureOf S stableId session.session_id language)) ++
    mappedOut.1
  JO.ofList [("type", .str "FeatureCollection"), ("features", .arr (JA.ofList final_features))]

end Generator

/-! ### Concrete instances used by witnesses and counterexamples -/

/-- A one-point shapely model over the unit type: every payload parses to
the same non-empty, valid polygon.  Used to instantiate theorems on
concrete collections whose geometric content is irrelevant. -/
def unitShapely : Shapely Unit :=
  { shape := fun _ => some ()
    isEmpty := fun _ => false
    isValid := fun _ => true
    centroid := fun _ => ()
    px := fun _ => 2 * floatScale
    py := fun _ => 2 * floatScale
    contains := fun _ _ => true
    touches := fun _ _ => false
    intersects := fun _ _ => true
    intersection := fun _ _ => ()
    area := fun _ => floatScale
    glen := fun _ => floatScale
    isLineString := fun _ => false
    boundary := fun _ => ()
    buffer := fun g _ => g
    unionAll := fun _ => ()
    wkbHex := fun _ => "W"
    geoInterface := fun _ => .null
    makeValid := fun g => g
    mappingJ := fun _ => JO.nil
    geomType := fun _ => "Polygon"
    representativePoint := fun _ => () }

/-- The id of a feature row in autofix semantics (`isinstance(id, str)`,
empty string included). -/
def rowIdOf : JV → Option String
  | .obj o =>
    match o.get? "id" with
    | some (.str s) => some s
    | _ => none
  | _ => none

/-- The string ids of the features member, in order. -/
def featureIdsOf (fc : JO) : List String :=
  match fc.get? "features" with
  | some (.arr xs) => xs.toList.filterMap rowIdOf
  | _ => []

/-- The text stored under one language tag of a labels object. -/
def labelTextOf (v : JV) (tag : String) : String :=
  match v with
  | .obj o =>
    match o.get? tag with
    | some (.str s) => s
    | _ => ""
  | _ => ""

/-- The `short_name` text of the first level feature of a collection. -/
def shortNameTextOfLevel (fc : JO) : Option String :=
  ((pyRows fc).find? (fun r => featureType r == "level")).map
    (fun r => labelTextOf (((propsOf r).get? "short_name").getD .null) "en")

/-- A unit feature row on level `L` with the given id (concrete test data). -/
def unitRow (fid : String) : JV :=
  .obj (JO.ofList
    [("id", .str fid),
     ("feature_type", .str "unit"),
     ("geometry", .obj (JO.ofList [("type", .str "Polygon")])),
     ("properties", .obj (JO.ofList [("level_id", .str "L")]))])

/-- Two units on the same level with identical geometry. -/
def fcTwoDupUnits : JO :=
  JO.ofList [("features", .arr (JA.ofList [unitRow "aaa", unitRow "bbb"]))]

/-- A collection with no features at all (in particular no venue). -/
def fcEmptyFeatures : JO :=
  JO.ofList [("features", .arr .nil)]

/-- A one-file session whose user-supplied wizard level item has ordinal 0
and no short name. -/
def c4Session : SessionRecord :=
  { session_id := "s"
    files := [{ stem := "A", geometry_type := "Polygon", feature_count := 1,
                attribute_columns := [], detected_type := some "unit",
                detected_level := some 0 }]
    feature_collection := JO.nil
    source_feature_collection := some (JO.ofList
      [("type", .str "FeatureCollection"),
       ("features", .arr (JA.ofList
         [.obj (JO.ofList
           [("id", .str "r1"),
            ("feature_type", .str "source"),
            ("geometry", .obj (JO.ofList [("type", .str "Polygon")])),
            ("properties", .obj (JO.ofList [("source_file", .str "A")]))])]))])
    wizard := { levels := { items := [{ stem := "A", ordinal := some 0 }] } } }

/-- The collection generated for `c4Session` under the one-point shapely
model and a readable stable-id scheme. -/
def c4Collection : JO :=
  Generator.generate_feature_collection unitShapely
    (fun sid key => "uuid5:" ++ sid ++ ":" ++ key)
    (fun n => "uuid4:" ++ toString n)
    c4Session ["unspecified"] "unspecified"

/-- A minimal collection that validates with zero errors: an address, a
venue referencing it, and a building. -/
def fcValidMinimal : JO :=
  JO.ofList
    [("features", .arr (JA.ofList
      [.obj (JO.ofList
        [("id", .str "00000000-0000-0000-0000-000000000001"),
         ("feature_type", .str "address"),
         ("properties", .obj JO.nil)]),
       .obj (JO.ofList
        [("id", .str "00000000-0000-0000-0000-000000000002"),
         ("feature_type", .str "venue"),
         ("geometry", .obj (JO.ofList [("type", .str "Polygon")])),
         ("properties", .obj (JO.ofList
           [("address_id", .str "00000000-0000-0000-0000-000000000001"),
            ("display_point", .obj (JO.ofList [("type", .str "Point")]))]))]),
       .obj (JO.ofList
        [("id", .str "00000000-0000-0000-0000-000000000003"),
         ("feature_type", .str "building"),
         ("properties", .obj JO.nil)])]))]

/-- State-passing form of a validation call: the source function only reads
its input (it builds fresh issue lists and local maps, and never assigns
into the collection), so the caller's collection after the call is the one
passed in. -/
def validateCall (S : Shapely G) (fc : JO) : ValidationResponse × JO :=
  (validate_feature_collection S fc, fc)

/-- Summary-independent result of `_close_ring`. -/
def close_ring_pure (coords : List (Int × Int)) : List (Int × Int) :=
  match coords with
  | [] => []
  | c :: _ => if coords.getLast? ≠ some c then coords ++ [c] else coords

/-- Summary-independent result of `_normalize_polygon`. -/
def normalize_polygon_pure (p : PolyG) : PolyG :=
  orientPoly
    { exterior := close_ring_pure p.exterior
      interiors := p.interiors.map close_ring_pure }

/-- Summary-independent coordinate rounding of a ring. -/
def roundRing_pure (r : List (Int × Int)) : List (Int × Int) :=
  r.map (fun c => (roundHalfEvenScaled c.1, roundHalfEvenScaled c.2))

/-- Summary-independent result of rounding one polygon. -/
def round_poly_pure (p : PolyG) : PolyG :=
  { exterior := roundRing_pure p.exterior
    interiors := p.interiors.map roundRing_pure }

/-- Summary-independent result of `_round_geometry`. -/
def roundIGeomPure : IGeom → IGeom
  | .poly p => .poly (round_poly_pure p)
  | .multi ps => .multi (ps.map round_poly_pure)
  | .line coords => .line (roundRing_pure coords)

def cleanKeptPure : List IGeom → List IGeom
  | [] => []
  | c :: t =>
    if igeomIsEmpty c then cleanKeptPure t
    else if igeomIsEmpty (roundIGeomPure c) then cleanKeptPure t
    else roundIGeomPure c :: cleanKeptPure t

def explodeCandidates (ps : List PolyG) : List IGeom :=
  ps.map (fun p => IGeom.poly (normalize_polygon_pure p))

def droppedCount (l : List IGeom) : Nat :=
  (l.filter (fun c => igeomIsEmpty c || igeomIsEmpty (roundIGeomPure c))).length

def c8PartA : PolyG :=
  { exterior := [(0, 0), (floatScale, 0), (floatScale, floatScale), (0, 0)]
    interiors := [] }

def c8PartEmpty : PolyG := { exterior := [], interiors := [] }

def c8Parts : List PolyG := [c8PartA, c8PartEmpty]

def c8Geom : IGeom := .multi c8Parts

def cleanupZero : CleanupSummary := {}

def c9Files : List ImportedFile :=
  [{ stem := "mall_entrance_north", detected_type := some "fixture" },
   { stem := "mall_entrance_south", detected_type := some "fixture" },
   { stem := "mall_kiosk", detected_type := some "unit" }]

def c9Keywords : List (String × List String) := [("fixture", ["kiosk"])]

def promptKeep (toDelete : List String) : List JV → List JV
  | [] => []
  | row :: rest =>
    match row with
    | .obj o =>
      match o.get? "id" with
      | some (.str s) =>
        if toDelete.contains s then promptKeep toDelete rest
        else row :: promptKeep toDelete rest
      | _ => row :: promptKeep toDelete rest
    | _ => promptKeep toDelete rest

def toDeleteOf (issues : List ValidationIssue) : List String :=
  (dupPairsOf issues).map (fun p => pyStrMax p.1 p.2) ++ emptyIdsOf issues

def zeroVSummary : ValidationSummary :=
  { total_features := 0, by_type := [], error_count := 0, warning_count := 0,
    auto_fixable_count := 0, checks_passed := 0, checks_failed := 0,
    unspecified_count := 0, overlap_count := 0, opening_issues_count := 0 }

def c10U0 : String := "123e4567-e89b-12d3-a456-426614174000"

def c10Fresh : List String := [c10U0]

def c10Row : JO := JO.ofList [("id", .str "zzz")]

def c10Fc : JO := JO.ofList
  [("type", .str "FeatureCollection"), ("features", .arr (JA.ofList [.obj c10Row]))]

def c10Val : ValidationResponse :=
  { errors := [], warnings := [], passed := [], summary := zeroVSummary }

def c10Out : JO :=
  c10Fc.setd "features" (.arr (JA.ofList [.obj (c10Row.setd "id" (.str c10U0))]))

def c10Fixes : List AutofixApplied :=
  [{ feature_id := c10U0, check := "duplicate_uuids", action := "regenerate_uuid",
     description := "Regenerated duplicate/invalid UUID." }]

def c3U1 : String := "123e4567-e89b-12d3-a456-426614174000"

def c3U2 : String := "223e4567-e89b-12d3-a456-426614174000"

def c3Row1 : JO := JO.ofList [("id", .str c3U1)]

def c3Row2 : JO := JO.ofList [("id", .str c3U2)]

def c3Fc : JO := JO.ofList
  [("type", .str "FeatureCollection"),
   ("features", .arr (JA.ofList [.obj c3Row1, .obj c3Row2]))]

def c3Val : ValidationResponse :=
  { errors := [],
    warnings := [mkIssue (some c3U2) (some c3U1) "duplicate_geometry_warning"
      "Identical geometry" "warning" false none none],
    passed := [], summary := zeroVSummary }

def c3Out : JO := c3Fc.setd "features" (.arr (JA.ofList [.obj c3Row1]))

def c3Fixes : List AutofixApplied :=
  [{ feature_id := c3U2, check := "prompted_delete", action := "delete_feature",
     description := "Deleted feature after user confirmation." }]

def c3Prompts : List AutofixPrompt :=
  [{ feature_id := c3U1, related_feature_id := some c3U2,
     check := "duplicate_geometry_warning", action := "delete_duplicate",
     description := "Delete one duplicate geometry (" ++ c3U2.take 8 ++ ")." }]

/-! ## Theorems -/

/-- Claim C7: `detect_level_ordinal` applies the fixed pattern precedence:
basement marker `B<n>` gives `-n`; otherwise an explicit negative number
gives that value; otherwise a ground-floor marker or a bare `0` gives `0`;
otherwise a bare floor number `<n>` (optionally suffixed `F`) gives
`n - 1`; no match gives `none`; in particular the four example stems
evaluate as the spec states. -/
theorem C7_detect_level_ordinal_precedence :
    (∀ stem n, searchMarkerNum 'B' none (pyUpper stem).data = some n →
      detect_level_ordinal stem = some (-(n : Int))) ∧
    (∀ stem n, searchMarkerNum 'B' none (pyUpper stem).data = none →
      searchMarkerNum '-' none (pyUpper stem).data = some n →
      detect_level_ordinal stem = some (-(n : Int))) ∧
    (∀ stem, searchMarkerNum 'B' none (pyUpper stem).data = none →
      searchMarkerNum '-' none (pyUpper stem).data = none →
      searchGround none (pyUpper stem).data = true →
      detect_level_ordinal stem = some 0) ∧
    (∀ stem, searchMarkerNum 'B' none (pyUpper stem).data = none →
      searchMarkerNum '-' none (pyUpper stem).data = none →
      searchGround none (pyUpper stem).data = false →
      searchZero none (pyUpper stem).data = true →
      detect_level_ordinal stem = some 0) ∧
    (∀ stem n, searchMarkerNum 'B' none (pyUpper stem).data = none →
      searchMarkerNum '-' none (pyUpper stem).data = none →
      searchGround none (pyUpper stem).data = false →
      searchZero none (pyUpper stem).data = false →
      searchFloor none (pyUpper stem).data = some n →
      detect_level_ordinal stem = some ((n : Int) - 1)) ∧
    (∀ stem, searchMarkerNum 'B' none (pyUpper stem).data = none →
      searchMarkerNum '-' none (pyUpper stem).data = none →
      searchGround none (pyUpper stem).data = false →
      searchZero none (pyUpper stem).data = false →
      searchFloor none (pyUpper stem).data = none →
      detect_level_ordinal stem = none) ∧
    detect_level_ordinal "Station_B1_Space" = some (-1) ∧
    detect_level_ordinal "Station_-2_Opening" = some (-2) ∧
    detect_level_ordinal "Station_GF_Space" = some 0 ∧
    detect_level_ordinal "Station_2F_Space" = some 1 := by
  refine ⟨?_, ?_, ?_, ?_, ?_, ?_, by decide, by decide, by decide, by decide⟩
  · intro stem n h
    simp [detect_level_ordinal, h]
  · intro stem n h1 h2
    simp [detect_level_ordinal, h1, h2]
  · intro stem h1 h2 h3
    simp [detect_level_ordinal, h1, h2, h3]
  · intro stem h1 h2 h3 h4
    simp [detect_level_ordinal, h1, h2, h3, h4]
  · intro stem n h1 h2 h3 h4 h5
    simp [detect_level_ordinal, h1, h2, h3, h4, h5]
  · intro stem h1 h2 h3 h4 h5
    simp [detect_level_ordinal, h1, h2, h3, h4, h5]

/-- Witness for C7: the basement clause applied at the concrete stem
`Station_B1_Space`. -/
theorem C7_witness :
    searchMarkerNum 'B' none (pyUpper "Station_B1_Space").data = some 1 ∧
    detect_level_ordinal "Station_B1_Space" = some (-1) :=
  ⟨by decide, C7_detect_level_ordinal_precedence.1 "Station_B1_Space" 1 (by decide)⟩

/-- Claim C4, counterexample: the generator's pattern-derived default short
name at ordinal 0 is `GH`, not `GF`; a concretely generated level feature
whose ordinal-0 group supplies no short name carries short-name text `GH`. -/
theorem C4_counterexample :
    shortNameTextOfLevel c4Collection ≠ some "GF" ∧
    shortNameTextOfLevel c4Collection = some "GH" ∧
    Generator.default_short_name 0 ≠ "GF" := by
  refine ⟨by decide, by decide, by decide⟩

/-- Claim C4 as amended: the generator's pattern-derived default short-name
text is `GH` for ordinal 0 (the wizard seeding path uses `GF`), `<n>F` for
every ordinal above 0, and `B<n>` for every ordinal below 0. -/
theorem C4_default_short_name :
    Generator.default_short_name 0 = "GH" ∧
    (∀ n : Int, 0 < n → Generator.default_short_name n = toString n ++ "F") ∧
    (∀ n : Int, n < 0 → Generator.default_short_name n = "B" ++ toString (-n)) := by
  refine ⟨rfl, ?_, ?_⟩
  · intro n hn
    unfold Generator.default_short_name
    rw [if_neg (by omega), if_pos hn]
  · intro n hn
    have h1 : (-n) = (n.natAbs : Int) := by omega
    have h2 : toString ((n.natAbs : Int)) = toString n.natAbs := rfl
    rw [h1, h2]
    unfold Generator.default_short_name
    rw [if_neg (by omega), if_neg (by omega)]

/-- Witness for the amended C4 at ordinals 2 and -3. -/
theorem C4_default_short_name_witness :
    ((0 : Int) < 2 ∧ Generator.default_short_name 2 = toString (2 : Int) ++ "F") ∧
    ((-3 : Int) < 0 ∧ Generator.default_short_name (-3) = "B" ++ toString (-(-3 : Int))) :=
  ⟨⟨by decide, C4_default_short_name.2.1 2 (by decide)⟩,
   ⟨by decide, C4_default_short_name.2.2 (-3) (by decide)⟩⟩

/-- Claim C6: a validation call returns the input collection unchanged (the
embedded source only reads it), and a second call on that same collection
returns identical error lists, warning lists, passed-check lists and
summaries — validation is a pure function with no hidden state. -/
theorem C6_validate_pure : ∀ (G : Type) (S : Shapely G) (fc : JO),
    (validateCall S fc).2 = fc ∧
    ((validateCall S ((validateCall S fc).2)).1.errors = (validateCall S fc).1.errors ∧
     (validateCall S ((validateCall S fc).2)).1.warnings = (validateCall S fc).1.warnings ∧
     (validateCall S ((validateCall S fc).2)).1.passed = (validateCall S fc).1.passed ∧
     (validateCall S ((validateCall S fc).2)).1.summary = (validateCall S fc).1.summary) :=
  fun _ _ _ => ⟨rfl, rfl, rfl, rfl, rfl⟩

/-- The error list of a validation response is the severity-error filter of
the emitted issues. -/
theorem validate_errors_def (S : Shapely G) (fc : JO) :
    (validate_feature_collection S fc).errors =
      (allValidationIssues S fc).filter (fun i => i.severity = "error") := rfl

/-- The summary error count is the length of the error list. -/
theorem validate_error_count_def (S : Shapely G) (fc : JO) :
    (validate_feature_collection S fc).summary.error_count =
      ((allValidationIssues S fc).filter (fun i => i.severity = "error")).length := rfl

/-- Claim C1: the export endpoint validates first and raises the blocking
error, producing no archive, exactly when the summary error count is
positive; with zero errors the archive is built from the annotated
collection and returned; the error count is the number of validation
errors; and a collection with no venue feature always yields a
`missing_venue` error, hence a positive error count. -/
theorem C1_export_blocked_iff_errors :
    ∀ (G α : Type) (S : Shapely G) (build : JO → α × String) (fc : JO),
    (0 < (validate_feature_collection S fc).summary.error_count →
      (export_imdf S build fc).1 =
        Except.error "Export blocked: unresolved validation errors remain.") ∧
    ((validate_feature_collection S fc).summary.error_count = 0 →
      (export_imdf S build fc).1 =
        Except.ok (build (annotate_feature_collection_with_validation fc
          (validate_feature_collection S fc)))) ∧
    (validate_feature_collection S fc).summary.error_count =
      (validate_feature_collection S fc).errors.length ∧
    (counterGet (byTypeCounter (pyRows fc)) "venue" = 0 →
      (∃ i ∈ (validate_feature_collection S fc).errors, i.check = "missing_venue") ∧
      1 ≤ (validate_feature_collection S fc).summary.error_count) := by
  intro G α S build fc
  refine ⟨?_, ?_, rfl, ?_⟩
  · intro h
    simp only [export_imdf, if_pos h]
  · intro h
    simp only [export_imdf, h]
    simp
  · intro h
    have hmem : errI "missing_venue" "Missing required \x27venue\x27 feature." none ∈
        requiredIssues (pyRows fc) := by
      simp [requiredIssues, h]
    have h2 : errI "missing_venue" "Missing required \x27venue\x27 feature." none ∈
        allValidationIssues S fc := by
      simp only [allValidationIssues, List.mem_append]
      exact Or.inl (Or.inl (Or.inl (Or.inl (Or.inl (Or.inl (Or.inl (Or.inl hmem)))))))
    have h3 : errI "missing_venue" "Missing required \x27venue\x27 feature." none ∈
        (validate_feature_collection S fc).errors := by
      rw [validate_errors_def]
      exact List.mem_filter.mpr ⟨h2, rfl⟩
    refine ⟨⟨_, h3, rfl⟩, ?_⟩
    rw [validate_error_count_def]
    rw [validate_errors_def] at h3
    exact List.length_pos.mpr (List.ne_nil_of_mem h3)

/-- Witness for C1: an empty collection (no venue) is blocked, and the
minimal valid collection exports. -/
theorem C1_witness :
    (0 < (validate_feature_collection unitShapely fcEmptyFeatures).summary.error_count ∧
      (export_imdf unitShapely (fun _ => ("zip", "f.zip")) fcEmptyFeatures).1 =
        Except.error "Export blocked: unresolved validation errors remain.") ∧
    (counterGet (byTypeCounter (pyRows fcEmptyFeatures)) "venue" = 0 ∧
      (∃ i ∈ (validate_feature_collection unitShapely fcEmptyFeatures).errors,
        i.check = "missing_venue")) ∧
    ((validate_feature_collection unitShapely fcValidMinimal).summary.error_count = 0 ∧
      (export_imdf unitShapely (fun _ => ("zip", "f.zip")) fcValidMinimal).1 =
        Except.ok (("zip", "f.zip"))) :=
  ⟨⟨by decide,
    (C1_export_blocked_iff_errors Unit String unitShapely _ fcEmptyFeatures).1 (by decide)⟩,
   ⟨by decide,
    ((C1_export_blocked_iff_errors Unit String unitShapely (fun _ => ("zip", "f.zip"))
      fcEmptyFeatures).2.2.2 (by decide)).1⟩,
   ⟨by decide,
    (C1_export_blocked_iff_errors Unit String unitShapely _ fcValidMinimal).2.1 (by decide)⟩⟩
theorem alistGet?_set_self [DecidableEq κ] (l : List (κ × α)) (k : κ) (v : α) :
    alistGet? (alistSet l k v) k = some v := by
  induction l with
  | nil => simp [alistSet, alistGet?]
  | cons p tl ih =>
    by_cases h : p.1 = k
    · simp [alistSet, alistGet?, h]
    · simp only [alistSet, if_neg h]
      simpa [alistGet?, List.find?_cons, h] using ih

theorem alistGet?_set_ne [DecidableEq κ] (l : List (κ × α)) (k k' : κ) (v : α)
    (h : k ≠ k') : alistGet? (alistSet l k' v) k = alistGet? l k := by
  induction l with
  | nil => simp [alistSet, alistGet?, List.find?, Ne.symm h]
  | cons p tl ih =>
    by_cases hp : p.1 = k'
    · have hpk : ¬ p.1 = k := by rw [hp]; exact Ne.symm h
      simp [alistSet, if_pos hp, alistGet?, List.find?_cons, hpk]
    · simp only [alistSet, if_neg hp]
      by_cases hk : p.1 = k
      · simp [alistGet?, List.find?_cons, hk]
      · simpa [alistGet?, List.find?_cons, hk] using ih
theorem dupEmit_fid_source (S : Shapely G) (geoms : List (String × G)) :
    ∀ (rows : List JV) (hashes : List ((String × Option String × String) × String))
      (issue : ValidationIssue), issue ∈ dupEmit S geoms hashes rows →
      ∃ r ∈ rows, ∃ k f, dupKeyOf S geoms r = some (k, f) ∧ issue.feature_id = some f := by
  intro rows
  induction rows with
  | nil => intro hashes issue h; simp [dupEmit] at h
  | cons row rest ih =>
    intro hashes issue h
    rcases hk : dupKeyOf S geoms row with _ | ⟨k, f⟩
    · simp only [dupEmit, hk] at h
      obtain ⟨r, hr, hrest⟩ := ih hashes issue h
      exact ⟨r, List.mem_cons_of_mem _ hr, hrest⟩
    · rcases hg : alistGet? hashes k with _ | e
      · simp only [dupEmit, hk, hg] at h
        obtain ⟨r, hr, hrest⟩ := ih _ issue h
        exact ⟨r, List.mem_cons_of_mem _ hr, hrest⟩
      · simp only [dupEmit, hk, hg] at h
        rcases List.mem_cons.mp h with heq | hmem
        · exact ⟨row, List.mem_cons_self _ _, k, f, hk, by rw [heq]; rfl⟩
        · obtain ⟨r, hr, hrest⟩ := ih hashes issue hmem
          exact ⟨r, List.mem_cons_of_mem _ hr, hrest⟩

theorem dupEmit_found (S : Shapely G) (geoms : List (String × G))
    (k : String × Option String × String) (f2 e : String) :
    ∀ (l2 : List JV) (hashes : List ((String × Option String × String) × String))
      (r2 : JV) (l3 : List JV),
      alistGet? hashes k = some e →
      dupKeyOf S geoms r2 = some (k, f2) →
      (∀ r ∈ l2, ∀ f, dupKeyOf S geoms r ≠ some (k, f)) →
      dupIssue f2 e ∈ dupEmit S geoms hashes (l2 ++ r2 :: l3) := by
  intro l2
  induction l2 with
  | nil =>
    intro hashes r2 l3 hg hk _
    simp only [List.nil_append, dupEmit, hk, hg]
    exact List.mem_cons_self _ _
  | cons row l2' ih =>
    intro hashes r2 l3 hg hk hno
    rw [List.cons_append]
    rcases hrk : dupKeyOf S geoms row with _ | ⟨k', f⟩
    · simp only [dupEmit, hrk]
      exact ih hashes r2 l3 hg hk (fun r hr => hno r (List.mem_cons_of_mem _ hr))
    · have hkne : k' ≠ k := by
        intro hcontra
        exact hno row (List.mem_cons_self _ _) f (by rw [hrk, hcontra])
      rcases hg2 : alistGet? hashes k' with _ | e'
      · simp only [dupEmit, hrk, hg2]
        exact ih _ r2 l3 (by rwa [alistGet?_set_ne hashes k k' f (Ne.symm hkne)]) hk
          (fun r hr => hno r (List.mem_cons_of_mem _ hr))
      · simp only [dupEmit, hrk, hg2]
        exact List.mem_cons_of_mem _
          (ih hashes r2 l3 hg hk (fun r hr => hno r (List.mem_cons_of_mem _ hr)))

theorem dupEmit_pair (S : Shapely G) (geoms : List (String × G))
    (k : String × Option String × String) (f1 f2 : String) :
    ∀ (l1 : List JV) (hashes : List ((String × Option String × String) × String))
      (r1 : JV) (l2 : List JV) (r2 : JV) (l3 : List JV),
      alistGet? hashes k = none →
      dupKeyOf S geoms r1 = some (k, f1) →
      dupKeyOf S geoms r2 = some (k, f2) →
      (∀ r ∈ l1, ∀ f, dupKeyOf S geoms r ≠ some (k, f)) →
      (∀ r ∈ l2, ∀ f, dupKeyOf S geoms r ≠ some (k, f)) →
      dupIssue f2 f1 ∈ dupEmit S geoms hashes (l1 ++ r1 :: l2 ++ r2 :: l3) := by
  intro l1
  induction l1 with
  | nil =>
    intro hashes r1 l2 r2 l3 hg hk1 hk2 _ hno2
    simp only [List.nil_append, dupEmit, hk1, hg]
    have := dupEmit_found S geoms k f2 f1 l2 (alistSet hashes k f1) r2 l3
      (alistGet?_set_self hashes k f1) hk2 hno2
    simpa using this
  | cons row l1' ih =>
    intro hashes r1 l2 r2 l3 hg hk1 hk2 hno1 hno2
    rw [List.cons_append]
    rcases hrk : dupKeyOf S geoms row with _ | ⟨k', f⟩
    · simp only [dupEmit, hrk]
      exact ih hashes r1 l2 r2 l3 hg hk1 hk2
        (fun r hr => hno1 r (List.mem_cons_of_mem _ hr)) hno2
    · have hkne : k' ≠ k := by
        intro hcontra
        exact hno1 row (List.mem_cons_self _ _) f (by rw [hrk, hcontra])
      rcases hg2 : alistGet? hashes k' with _ | e'
      · simp only [dupEmit, hrk, hg2]
        exact ih _ r1 l2 r2 l3 (by rwa [alistGet?_set_ne hashes k k' f (Ne.symm hkne)])
          hk1 hk2 (fun r hr => hno1 r (List.mem_cons_of_mem _ hr)) hno2
      · simp only [dupEmit, hrk, hg2]
        exact List.mem_cons_of_mem _
          (ih hashes r1 l2 r2 l3 hg hk1 hk2
            (fun r hr => hno1 r (List.mem_cons_of_mem _ hr)) hno2)

theorem dupEmit_no_first_holder (S : Shapely G) (geoms : List (String × G))
    (k : String × Option String × String) (f1 : String) :
    ∀ (l1 : List JV) (hashes : List ((String × Option String × String) × String))
      (r1 : JV) (rest : List JV),
      alistGet? hashes k = none →
      dupKeyOf S geoms r1 = some (k, f1) →
      (∀ r ∈ l1, ∀ f, dupKeyOf S geoms r ≠ some (k, f)) →
      (∀ r ∈ l1, ∀ k', dupKeyOf S geoms r ≠ some (k', f1)) →
      (∀ r ∈ rest, ∀ k', dupKeyOf S geoms r ≠ some (k', f1)) →
      ∀ issue ∈ dupEmit S geoms hashes (l1 ++ r1 :: rest), issue.feature_id ≠ some f1 := by
  intro l1
  induction l1 with
  | nil =>
    intro hashes r1 rest hg hk1 _ _ hrest issue hmem
    simp only [List.nil_append, dupEmit, hk1, hg] at hmem
    obtain ⟨r, hr, k', f, hkey, hfid⟩ := dupEmit_fid_source S geoms rest _ issue hmem
    intro hcontra
    rw [hcontra] at hfid
    exact hrest r hr k' (by rw [hkey, Option.some_inj.mp hfid.symm])
  | cons row l1' ih =>
    intro hashes r1 rest hg hk1 hno1 hnof1 hrest issue hmem
    rw [List.cons_append] at hmem
    rcases hrk : dupKeyOf S geoms row with _ | ⟨k', f⟩
    · simp only [dupEmit, hrk] at hmem
      exact ih hashes r1 rest hg hk1
        (fun r hr => hno1 r (List.mem_cons_of_mem _ hr))
        (fun r hr => hnof1 r (List.mem_cons_of_mem _ hr)) hrest issue hmem
    · have hkne : k' ≠ k := by
        intro hcontra
        exact hno1 row (List.mem_cons_self _ _) f (by rw [hrk, hcontra])
      have hfne : f ≠ f1 := by
        intro hcontra
        exact hnof1 row (List.mem_cons_self _ _) k' (by rw [hrk, hcontra])
      rcases hg2 : alistGet? hashes k' with _ | e'
      · simp only [dupEmit, hrk, hg2] at hmem
        exact ih _ r1 rest (by rwa [alistGet?_set_ne hashes k k' f (Ne.symm hkne)]) hk1
          (fun r hr => hno1 r (List.mem_cons_of_mem _ hr))
          (fun r hr => hnof1 r (List.mem_cons_of_mem _ hr)) hrest issue hmem
      · simp only [dupEmit, hrk, hg2] at hmem
        rcases List.mem_cons.mp hmem with heq | hmem2
        · rw [heq]
          simpa [dupIssue, mkIssue] using hfne
        · exact ih hashes r1 rest hg hk1
            (fun r hr => hno1 r (List.mem_cons_of_mem _ hr))
            (fun r hr => hnof1 r (List.mem_cons_of_mem _ hr)) hrest issue hmem2
/-- The warning list of a validation response is the non-error filter of
the emitted issues. -/
theorem validate_warnings_def (S : Shapely G) (fc : JO) :
    (validate_feature_collection S fc).warnings =
      (allValidationIssues S fc).filter (fun i => i.severity ≠ "error") := rfl

/-- Claim C2 as amended: for every collection containing two features in
the same duplicate-geometry bucket (same feature kind, level id and
geometry hash, with no other feature in that bucket and no id reuse),
validation emits the `duplicate_geometry_warning` once, on the
later-encountered feature, referencing the earlier one; no duplicate
warning carries the earlier feature's id. -/
theorem C2_amended_duplicate_flagged_oneway :
    ∀ (G : Type) (S : Shapely G) (fc : JO) (l1 : List JV) (r1 : JV) (l2 : List JV)
      (r2 : JV) (l3 : List JV) (k : String × Option String × String) (f1 f2 : String),
    pyRows fc = l1 ++ r1 :: l2 ++ r2 :: l3 →
    dupKeyOf S (geomsById S (pyRows fc)) r1 = some (k, f1) →
    dupKeyOf S (geomsById S (pyRows fc)) r2 = some (k, f2) →
    (∀ r, (r ∈ l1 ∨ r ∈ l2 ∨ r ∈ l3) →
      ∀ f, dupKeyOf S (geomsById S (pyRows fc)) r ≠ some (k, f)) →
    (∀ r, (r ∈ l1 ∨ r ∈ l2 ∨ r ∈ l3) →
      ∀ k', dupKeyOf S (geomsById S (pyRows fc)) r ≠ some (k', f1)) →
    f2 ≠ f1 →
    dupIssue f2 f1 ∈ (validate_feature_collection S fc).warnings ∧
    (∀ issue ∈ dupGeometryIssues S (pyRows fc) (geomsById S (pyRows fc)),
      issue.feature_id ≠ some f1) := by
  intro G S fc l1 r1 l2 r2 l3 k f1 f2 hrows hk1 hk2 hnoK hnoF1 hf21
  set geoms := geomsById S (pyRows fc) with hgdef
  have hpair : dupIssue f2 f1 ∈ dupEmit S geoms [] (l1 ++ r1 :: l2 ++ r2 :: l3) :=
    dupEmit_pair S geoms k f1 f2 l1 [] r1 l2 r2 l3 rfl hk1 hk2
      (fun r hr => hnoK r (Or.inl hr)) (fun r hr => hnoK r (Or.inr (Or.inl hr)))
  have hdup : dupIssue f2 f1 ∈ dupGeometryIssues S (pyRows fc) geoms := by
    rw [dupGeometryIssues, hrows]
    exact hpair
  constructor
  · rw [hgdef] at hdup
    have hall : dupIssue f2 f1 ∈ allValidationIssues S fc := by
      simp only [allValidationIssues, List.mem_append]
      exact Or.inl (Or.inl (Or.inl (Or.inr hdup)))
    rw [validate_warnings_def]
    exact List.mem_filter.mpr ⟨hall, rfl⟩
  · intro issue hissue
    have hassoc : l1 ++ r1 :: l2 ++ r2 :: l3 = l1 ++ r1 :: (l2 ++ r2 :: l3) := by
      simp [List.cons_append, List.append_assoc]
    rw [dupGeometryIssues, hrows, hassoc] at hissue
    refine dupEmit_no_first_holder S geoms k f1 l1 [] r1
      (l2 ++ r2 :: l3) rfl hk1
      (fun r hr => hnoK r (Or.inl hr))
      (fun r hr => hnoF1 r (Or.inl hr)) ?_ issue hissue
    intro r hr k'
    rcases List.mem_append.mp hr with h2 | h23
    · exact hnoF1 r (Or.inr (Or.inl h2)) k'
    · rcases List.mem_cons.mp h23 with heq | h3
      · rw [heq, hk2]
        intro hcontra
        exact hf21 (congrArg Prod.snd (Option.some.inj hcontra))
      · exact hnoF1 r (Or.inr (Or.inr h3)) k'

/-- Claim C2, counterexample: on a collection with two units on the same
level with identical geometry, validation emits exactly one
`duplicate_geometry_warning` — on the later feature `bbb` referencing the
earlier `aaa` — and none on `aaa`, so the flagging is not symmetric. -/
theorem C2_counterexample :
    ((validate_feature_collection unitShapely fcTwoDupUnits).warnings.filter
      (fun i => i.check = "duplicate_geometry_warning")).map
      (fun i => (i.feature_id, i.related_feature_id)) = [(some "bbb", some "aaa")] ∧
    ¬ ∃ i ∈ (validate_feature_collection unitShapely fcTwoDupUnits).warnings,
        i.check = "duplicate_geometry_warning" ∧ i.feature_id = some "aaa" := by
  constructor
  · decide
  · decide

/-- Claim C2 as amended: for two features sharing a duplicate-geometry
bucket (same kind, level and geometry hash), validation emits the
`duplicate_geometry_warning` once, on the later-encountered feature,
referencing the earlier one; the earlier feature receives no duplicate
warning.  Proved above as `C2_amended_duplicate_flagged_oneway`. -/
theorem C2_witness :
    dupIssue "bbb" "aaa" ∈ (validate_feature_collection unitShapely fcTwoDupUnits).warnings ∧
    (∀ issue ∈ dupGeometryIssues unitShapely (pyRows fcTwoDupUnits)
        (geomsById unitShapely (pyRows fcTwoDupUnits)), issue.feature_id ≠ some "aaa") :=
  C2_amended_duplicate_flagged_oneway Unit unitShapely fcTwoDupUnits
    [] (unitRow "aaa") [] (unitRow "bbb") [] ("unit", some "L", "W") "aaa" "bbb"
    rfl rfl rfl (fun r hr => by rcases hr with h | h | h <;> simp at h)
    (fun r hr => by rcases hr with h | h | h <;> simp at h) (by decide)

theorem close_ring_fst (c : List (Int × Int)) (s : CleanupSummary) :
    (close_ring c s).1 = close_ring_pure c := by
  cases c with
  | nil => rfl
  | cons a t =>
    simp only [close_ring, close_ring_pure]
    split <;> simp_all

theorem close_ring_exploded (c : List (Int × Int)) (s : CleanupSummary) :
    (close_ring c s).2.multipolygons_exploded = s.multipolygons_exploded := by
  cases c with
  | nil => rfl
  | cons a t =>
    simp only [close_ring]
    split <;> rfl

theorem foldPairs_fst {α β : Type} (f : α → CleanupSummary → β × CleanupSummary)
    (fp : α → β) (hf : ∀ a s, (f a s).1 = fp a) :
    ∀ (l : List α) (acc : List β) (s : CleanupSummary),
      (l.foldl (fun st a => (st.1 ++ [(f a st.2).1], (f a st.2).2)) (acc, s)).1 =
        acc ++ l.map fp := by
  intro l
  induction l with
  | nil => intro acc s; simp
  | cons a t ih =>
    intro acc s
    simp only [List.foldl_cons, List.map_cons]
    rw [ih (acc ++ [(f a s).1]) (f a s).2, hf]
    simp

theorem foldPairs_exploded {α β : Type} (f : α → CleanupSummary → β × CleanupSummary)
    (hf : ∀ a s, (f a s).2.multipolygons_exploded = s.multipolygons_exploded) :
    ∀ (l : List α) (acc : List β) (s : CleanupSummary),
      (l.foldl (fun st a => (st.1 ++ [(f a st.2).1], (f a st.2).2)) (acc, s)).2.multipolygons_exploded =
        s.multipolygons_exploded := by
  intro l
  induction l with
  | nil => intro acc s; simp
  | cons a t ih =>
    intro acc s
    simp only [List.foldl_cons]
    rw [ih (acc ++ [(f a s).1]) (f a s).2, hf]

theorem normalize_polygon_fst (p : PolyG) (s : CleanupSummary) :
    (normalize_polygon p s).1 = normalize_polygon_pure p := by
  have he := close_ring_fst p.exterior s
  have hfold := foldPairs_fst close_ring close_ring_pure close_ring_fst p.interiors []
    (close_ring p.exterior s).2
  simp only [List.nil_append] at hfold
  unfold normalize_polygon normalize_polygon_pure
  dsimp only
  rw [he, hfold]
  split <;> rfl

theorem normalize_polygon_exploded (p : PolyG) (s : CleanupSummary) :
    (normalize_polygon p s).2.multipolygons_exploded = s.multipolygons_exploded := by
  have he := close_ring_exploded p.exterior s
  have hfold := foldPairs_exploded close_ring close_ring_exploded p.interiors []
    (close_ring p.exterior s).2
  unfold normalize_polygon
  dsimp only
  split
  · exact hfold.trans he
  · exact hfold.trans he

theorem roundRing_fst_aux :
    ∀ (r : List (Int × Int)) (acc : List (Int × Int)) (s : CleanupSummary),
      (r.foldl roundCoordPair (acc, s)).1 = acc ++ roundRing_pure r := by
  intro r
  induction r with
  | nil => intro acc s; simp [roundRing_pure]
  | cons a t ih =>
    intro acc s
    simp only [List.foldl_cons]
    rw [show roundCoordPair (acc, s) a =
      (acc ++ [(roundHalfEvenScaled a.1, roundHalfEvenScaled a.2)],
        (roundCoordPair (acc, s) a).2) from rfl]
    rw [ih]
    simp [roundRing_pure]

theorem roundRing_exploded_aux :
    ∀ (r : List (Int × Int)) (acc : List (Int × Int)) (s : CleanupSummary),
      (r.foldl roundCoordPair (acc, s)).2.multipolygons_exploded =
        s.multipolygons_exploded := by
  intro r
  induction r with
  | nil => intro acc s; rfl
  | cons a t ih =>
    intro acc s
    simp only [List.foldl_cons]
    rw [show roundCoordPair (acc, s) a =
      ((roundCoordPair (acc, s) a).1, (roundCoordPair (acc, s) a).2) from rfl]
    rw [ih]
    rfl

theorem roundRing_fst (r : List (Int × Int)) (s : CleanupSummary) :
    (roundRing r s).1 = roundRing_pure r := by
  unfold roundRing
  rw [roundRing_fst_aux]
  simp

theorem roundRing_exploded (r : List (Int × Int)) (s : CleanupSummary) :
    (roundRing r s).2.multipolygons_exploded = s.multipolygons_exploded := by
  unfold roundRing
  rw [roundRing_exploded_aux]

theorem roundPolyS_fst (p : PolyG) (s : CleanupSummary) :
    (roundPolyS p s).1 = round_poly_pure p := by
  have he := roundRing_fst p.exterior s
  have hfold := foldPairs_fst roundRing roundRing_pure roundRing_fst p.interiors []
    (roundRing p.exterior s).2
  simp only [List.nil_append] at hfold
  unfold roundPolyS round_poly_pure
  dsimp only
  rw [he, hfold]

theorem roundPolyS_exploded (p : PolyG) (s : CleanupSummary) :
    (roundPolyS p s).2.multipolygons_exploded = s.multipolygons_exploded := by
  have he := roundRing_exploded p.exterior s
  have hfold := foldPairs_exploded roundRing roundRing_exploded p.interiors []
    (roundRing p.exterior s).2
  unfold roundPolyS
  dsimp only
  exact hfold.trans he

theorem round_geometry_fst (g : IGeom) (s : CleanupSummary) :
    (round_geometry g s).1 = roundIGeomPure g := by
  cases g with
  | poly p =>
    simp only [round_geometry, roundIGeomPure]
    rw [roundPolyS_fst]
  | multi ps =>
    simp only [round_geometry, roundIGeomPure]
    try dsimp only
    rw [foldPairs_fst roundPolyS round_poly_pure roundPolyS_fst ps [] s]
    simp
  | line coords =>
    simp only [round_geometry, roundIGeomPure]
    rw [roundRing_fst]

theorem round_geometry_exploded (g : IGeom) (s : CleanupSummary) :
    (round_geometry g s).2.multipolygons_exploded = s.multipolygons_exploded := by
  cases g with
  | poly p =>
    simp only [round_geometry]
    rw [roundPolyS_exploded]
  | multi ps =>
    simp only [round_geometry]
    try dsimp only
    rw [foldPairs_exploded roundPolyS roundPolyS_exploded ps [] s]
  | line coords =>
    simp only [round_geometry]
    rw [roundRing_exploded]

theorem normalize_geometry_multi_fst (ps : List PolyG) (s : CleanupSummary) :
    (normalize_geometry (.multi ps) s).1 = .multi (ps.map normalize_polygon_pure) := by
  unfold normalize_geometry
  dsimp only
  rw [foldPairs_fst normalize_polygon normalize_polygon_pure normalize_polygon_fst ps [] s]
  simp

theorem normalize_geometry_multi_exploded (ps : List PolyG) (s : CleanupSummary) :
    (normalize_geometry (.multi ps) s).2.multipolygons_exploded =
      s.multipolygons_exploded := by
  unfold normalize_geometry
  dsimp only
  rw [foldPairs_exploded normalize_polygon normalize_polygon_exploded ps [] s]

theorem cleanFold_fst :
    ∀ (l : List IGeom) (acc : List IGeom) (s : CleanupSummary),
      (l.foldl
        (fun (st : List IGeom × CleanupSummary) candidate =>
          if igeomIsEmpty candidate then
            (st.1, { st.2 with empty_features_dropped := st.2.empty_features_dropped + 1 })
          else
            let q := round_geometry candidate st.2
            if igeomIsEmpty q.1 then
              (st.1, { q.2 with empty_features_dropped := q.2.empty_features_dropped + 1 })
            else (st.1 ++ [q.1], q.2)) (acc, s)).1 = acc ++ cleanKeptPure l := by
  intro l
  induction l with
  | nil => intro acc s; simp [cleanKeptPure]
  | cons c t ih =>
    intro acc s
    simp only [List.foldl_cons, cleanKeptPure]
    by_cases h1 : igeomIsEmpty c = true
    · rw [if_pos h1, if_pos h1, ih]
    · rw [if_neg h1, if_neg h1]
      try dsimp only
      rw [round_geometry_fst c s]
      by_cases h2 : igeomIsEmpty (roundIGeomPure c) = true
      · rw [if_pos h2, if_pos h2, ih]
      · rw [if_neg h2, if_neg h2, ih]
        simp

theorem cleanFold_exploded :
    ∀ (l : List IGeom) (acc : List IGeom) (s : CleanupSummary),
      (l.foldl
        (fun (st : List IGeom × CleanupSummary) candidate =>
          if igeomIsEmpty candidate then
            (st.1, { st.2 with empty_features_dropped := st.2.empty_features_dropped + 1 })
          else
            let q := round_geometry candidate st.2
            if igeomIsEmpty q.1 then
              (st.1, { q.2 with empty_features_dropped := q.2.empty_features_dropped + 1 })
            else (st.1 ++ [q.1], q.2)) (acc, s)).2.multipolygons_exploded =
        s.multipolygons_exploded := by
  intro l
  induction l with
  | nil => intro acc s; rfl
  | cons c t ih =>
    intro acc s
    simp only [List.foldl_cons]
    by_cases h1 : igeomIsEmpty c = true
    · rw [if_pos h1, ih]
    · rw [if_neg h1]
      try dsimp only
      by_cases h2 : igeomIsEmpty (round_geometry c s).1 = true
      · rw [if_pos h2, ih]
        exact round_geometry_exploded c s
      · rw [if_neg h2, ih]
        exact round_geometry_exploded c s

theorem cleanKeptPure_length (l : List IGeom) :
    (cleanKeptPure l).length + droppedCount l = l.length := by
  induction l with
  | nil => rfl
  | cons c t ih =>
    simp only [cleanKeptPure, droppedCount, List.filter] at ih ⊢
    cases h1 : igeomIsEmpty c <;> cases h2 : igeomIsEmpty (roundIGeomPure c) <;>
      simp [h1, h2] <;> omega

theorem cleanKeptPure_mem (l : List IGeom) :
    ∀ x ∈ cleanKeptPure l, ∃ c, c ∈ l ∧ x = roundIGeomPure c := by
  induction l with
  | nil => intro x hx; simp [cleanKeptPure] at hx
  | cons c t ih =>
    intro x hx
    simp only [cleanKeptPure] at hx
    split at hx
    · obtain ⟨c0, hc0, hx0⟩ := ih x hx
      exact ⟨c0, List.mem_cons_of_mem _ hc0, hx0⟩
    · split at hx
      · obtain ⟨c0, hc0, hx0⟩ := ih x hx
        exact ⟨c0, List.mem_cons_of_mem _ hc0, hx0⟩
      · rcases List.mem_cons.mp hx with h | h
        · exact ⟨c, List.mem_cons_self c t, h⟩
        · obtain ⟨c0, hc0, hx0⟩ := ih x h
          exact ⟨c0, List.mem_cons_of_mem _ hc0, hx0⟩

/-- Claim C8: when repair yields a multi-part polygon of N parts,
`_clean_geometry` explodes it into one candidate per part; the returned
geometries are exactly the normalized-then-rounded single polygons of the
parts, in order, minus any part that is empty after normalization or after
rounding; their count plus the dropped-part count is N; every returned
geometry is a single polygon derived from one of the parts; and the
`multipolygons_exploded` tally grows by exactly N - 1. -/
theorem C8_clean_geometry_explodes_multipolygons
    (makeValid : IGeom → IGeom) (g : IGeom) (ps : List PolyG) (s : CleanupSummary)
    (h : makeValid g = IGeom.multi ps) :
    (clean_geometry makeValid (some g) s).1 = cleanKeptPure (explodeCandidates ps) ∧
    (clean_geometry makeValid (some g) s).1.length +
      droppedCount (explodeCandidates ps) = ps.length ∧
    (∀ c ∈ (clean_geometry makeValid (some g) s).1, ∃ p, p ∈ ps ∧
      c = IGeom.poly (round_poly_pure (normalize_polygon_pure p))) ∧
    (clean_geometry makeValid (some g) s).2.multipolygons_exploded =
      s.multipolygons_exploded + (ps.length - 1) := by
  have hn1 : (normalize_geometry (makeValid g) s).1 =
      .multi (ps.map normalize_polygon_pure) := by
    rw [h]; exact normalize_geometry_multi_fst ps s
  have hn2 : (normalize_geometry (makeValid g) s).2.multipolygons_exploded =
      s.multipolygons_exploded := by
    rw [h]; exact normalize_geometry_multi_exploded ps s
  have hres : clean_geometry makeValid (some g) s =
      (((ps.map normalize_polygon_pure).map IGeom.poly).foldl
        (fun (st : List IGeom × CleanupSummary) candidate =>
          if igeomIsEmpty candidate then
            (st.1, { st.2 with empty_features_dropped := st.2.empty_features_dropped + 1 })
          else
            let q := round_geometry candidate st.2
            if igeomIsEmpty q.1 then
              (st.1, { q.2 with empty_features_dropped := q.2.empty_features_dropped + 1 })
            else (st.1 ++ [q.1], q.2))
        ([], { (normalize_geometry (makeValid g) s).2 with
            multipolygons_exploded :=
              (normalize_geometry (makeValid g) s).2.multipolygons_exploded +
                ((ps.map normalize_polygon_pure).length - 1) })) := by
    unfold clean_geometry
    try dsimp only
    rw [hn1]
  have hfst := cleanFold_fst ((ps.map normalize_polygon_pure).map IGeom.poly) []
    { (normalize_geometry (makeValid g) s).2 with
        multipolygons_exploded :=
          (normalize_geometry (makeValid g) s).2.multipolygons_exploded +
            ((ps.map normalize_polygon_pure).length - 1) }
  have hexp := cleanFold_exploded ((ps.map normalize_polygon_pure).map IGeom.poly) []
    { (normalize_geometry (makeValid g) s).2 with
        multipolygons_exploded :=
          (normalize_geometry (makeValid g) s).2.multipolygons_exploded +
            ((ps.map normalize_polygon_pure).length - 1) }
  have hcand : (ps.map normalize_polygon_pure).map IGeom.poly = explodeCandidates ps := by
    simp [explodeCandidates, List.map_map, Function.comp]
  have h1 : (clean_geometry makeValid (some g) s).1 =
      cleanKeptPure (explodeCandidates ps) := by
    rw [hres, hfst, hcand]
    simp
  refine ⟨h1, ?_, ?_, ?_⟩
  · rw [h1]
    have hlen := cleanKeptPure_length (explodeCandidates ps)
    have hEc : (explodeCandidates ps).length = ps.length := by
      simp [explodeCandidates]
    omega
  · intro c hc
    rw [h1] at hc
    obtain ⟨c0, hc0, hx⟩ := cleanKeptPure_mem (explodeCandidates ps) c hc
    simp only [explodeCandidates, List.mem_map] at hc0
    obtain ⟨p, hp, hpc⟩ := hc0
    refine ⟨p, hp, ?_⟩
    rw [hx, ← hpc]
    rfl
  · rw [hres, hexp]
    show (normalize_geometry (makeValid g) s).2.multipolygons_exploded +
        ((ps.map normalize_polygon_pure).length - 1) = _
    rw [hn2]
    simp

theorem C8_witness :
    ((fun (x : IGeom) => x) c8Geom = IGeom.multi c8Parts) ∧
    ((clean_geometry (fun x => x) (some c8Geom) cleanupZero).1 =
        cleanKeptPure (explodeCandidates c8Parts) ∧
      (clean_geometry (fun x => x) (some c8Geom) cleanupZero).1.length +
        droppedCount (explodeCandidates c8Parts) = c8Parts.length ∧
      (∀ c ∈ (clean_geometry (fun x => x) (some c8Geom) cleanupZero).1, ∃ p, p ∈ c8Parts ∧
        c = IGeom.poly (round_poly_pure (normalize_polygon_pure p))) ∧
      (clean_geometry (fun x => x) (some c8Geom) cleanupZero).2.multipolygons_exploded =
        cleanupZero.multipolygons_exploded + (c8Parts.length - 1)) :=
  ⟨rfl, C8_clean_geometry_explodes_multipolygons (fun x => x) c8Geom c8Parts cleanupZero rfl⟩

theorem c8_concrete_probe :
    (clean_geometry (fun x => x) (some c8Geom) cleanupZero).1.length = 1 ∧
    (clean_geometry (fun x => x) (some c8Geom) cleanupZero).2.multipolygons_exploded = 1 ∧
    (clean_geometry (fun x => x) (some c8Geom) cleanupZero).2.empty_features_dropped = 1 := by
  decide

theorem lexLeChars_total (a b : List Char) :
    lexLeChars a b = true ∨ lexLeChars b a = true := by
  induction a generalizing b with
  | nil => left; rfl
  | cons x xs ih =>
    cases b with
    | nil => right; rfl
    | cons y ys =>
      simp only [lexLeChars]
      by_cases hxy : x.val.toNat < y.val.toNat
      · left; simp [hxy]
      · by_cases hyx : y.val.toNat < x.val.toNat
        · right; simp [hyx]
        · rcases ih ys with h | h
          · left; simp [hxy, hyx, h]
          · right; simp [hxy, hyx, h]

theorem lexLeChars_trans (a b c : List Char) (h1 : lexLeChars a b = true)
    (h2 : lexLeChars b c = true) : lexLeChars a c = true := by
  induction a generalizing b c with
  | nil => rfl
  | cons x xs ih =>
    cases b with
    | nil => simp [lexLeChars] at h1
    | cons y ys =>
      cases c with
      | nil => simp [lexLeChars] at h2
      | cons z zs =>
        simp only [lexLeChars] at h1 h2 ⊢
        by_cases hxy : x.val.toNat < y.val.toNat
        · by_cases hyz : y.val.toNat < z.val.toNat
          · have hxz : x.val.toNat < z.val.toNat := Nat.lt_trans hxy hyz
            simp [hxz]
          · by_cases hzy : z.val.toNat < y.val.toNat
            · rw [if_neg hyz, if_pos hzy] at h2
              exact absurd h2 (by simp)
            · have hxz : x.val.toNat < z.val.toNat := by omega
              simp [hxz]
        · by_cases hyx : y.val.toNat < x.val.toNat
          · rw [if_neg hxy, if_pos hyx] at h1
            exact absurd h1 (by simp)
          · rw [if_neg hxy, if_neg hyx] at h1
            by_cases hyz : y.val.toNat < z.val.toNat
            · have hxz : x.val.toNat < z.val.toNat := by omega
              simp [hxz]
            · by_cases hzy : z.val.toNat < y.val.toNat
              · rw [if_neg hyz, if_pos hzy] at h2
                exact absurd h2 (by simp)
              · rw [if_neg hyz, if_neg hzy] at h2
                have hxz : ¬ x.val.toNat < z.val.toNat := by omega
                have hzx : ¬ z.val.toNat < x.val.toNat := by omega
                rw [if_neg hxz, if_neg hzx]
                exact ih ys zs h1 h2

theorem candKeyLe_iff (x y : String × List String) :
    candKeyLe x y = true ↔
      (y.2.length < x.2.length ∨
        (x.2.length = y.2.length ∧ (x.1.length < y.1.length ∨
          (x.1.length = y.1.length ∧ pyStrLe x.1 y.1 = true)))) := by
  unfold candKeyLe
  split_ifs with h1 h2
  · simp only [decide_eq_true_eq]
    constructor
    · intro h
      exact Or.inl h
    · rintro (h | ⟨he, _⟩)
      · exact h
      · exact absurd he h1
  · simp only [decide_eq_true_eq]
    constructor
    · intro h
      right
      exact ⟨by omega, Or.inl h⟩
    · rintro (h | ⟨he, h | ⟨he2, _⟩⟩)
      · omega
      · exact h
      · exact absurd he2 h2
  · constructor
    · intro h
      right
      exact ⟨by omega, Or.inr ⟨by omega, h⟩⟩
    · rintro (h | ⟨he, h | ⟨he2, h⟩⟩)
      · omega
      · omega
      · exact h

theorem candKeyLe_total (x y : String × List String) :
    candKeyLe x y = true ∨ candKeyLe y x = true := by
  rw [candKeyLe_iff, candKeyLe_iff]
  by_cases h1 : x.2.length = y.2.length
  · by_cases h2 : x.1.length = y.1.length
    · rcases lexLeChars_total x.1.data y.1.data with h | h
      · left; right; exact ⟨h1, Or.inr ⟨h2, h⟩⟩
      · right; right; exact ⟨h1.symm, Or.inr ⟨h2.symm, h⟩⟩
    · by_cases h3 : x.1.length < y.1.length
      · left; right; exact ⟨h1, Or.inl h3⟩
      · right; right; exact ⟨h1.symm, Or.inl (by omega)⟩
  · by_cases h4 : y.2.length < x.2.length
    · left; left; exact h4
    · right; left; omega

theorem candKeyLe_trans (x y z : String × List String)
    (h1 : candKeyLe x y = true) (h2 : candKeyLe y z = true) :
    candKeyLe x z = true := by
  rw [candKeyLe_iff] at h1 h2 ⊢
  rcases h1 with h1 | ⟨e1, h1⟩
  · rcases h2 with h2 | ⟨e2, _⟩
    · exact Or.inl (by omega)
    · exact Or.inl (by omega)
  · rcases h2 with h2 | ⟨e2, h2⟩
    · exact Or.inl (by omega)
    · right
      refine ⟨by omega, ?_⟩
      rcases h1 with h1 | ⟨f1, g1⟩
      · rcases h2 with h2 | ⟨f2, _⟩
        · exact Or.inl (by omega)
        · exact Or.inl (by omega)
      · rcases h2 with h2 | ⟨f2, g2⟩
        · exact Or.inl (by omega)
        · exact Or.inr ⟨by omega, lexLeChars_trans x.1.data y.1.data z.1.data g1 g2⟩

theorem stableInsert_mem {α : Type _} (le : α → α → Bool) (x a : α) (l : List α) :
    a ∈ stableInsert le x l ↔ a = x ∨ a ∈ l := by
  induction l with
  | nil => simp [stableInsert]
  | cons y ys ih =>
    simp only [stableInsert]
    split
    · simp [List.mem_cons]
    · simp only [List.mem_cons, ih]
      tauto

theorem stableSort_mem {α : Type _} (le : α → α → Bool) (a : α) (l : List α) :
    a ∈ stableSort le l ↔ a ∈ l := by
  induction l with
  | nil => simp [stableSort]
  | cons x xs ih =>
    simp only [stableSort, stableInsert_mem, ih, List.mem_cons]

theorem stableSort_head_min {α : Type _} (le : α → α → Bool)
    (htot : ∀ x y, le x y = true ∨ le y x = true)
    (htrans : ∀ x y z, le x y = true → le y z = true → le x z = true) :
    ∀ (l : List α) (h : α) (t : List α), stableSort le l = h :: t →
      ∀ x ∈ l, le h x = true := by
  intro l
  induction l with
  | nil =>
    intro h t heq
    simp [stableSort] at heq
  | cons a as ih =>
    intro h t heq x hx
    rw [show stableSort le (a :: as) = stableInsert le a (stableSort le as) from rfl] at heq
    cases hs : stableSort le as with
    | nil =>
      rw [hs] at heq
      simp only [stableInsert] at heq
      obtain ⟨rfl, rfl⟩ := List.cons.inj heq
      rcases List.mem_cons.mp hx with rfl | hxas
      · rcases htot x x with hh | hh <;> exact hh
      · exfalso
        have hmm : x ∈ stableSort le as := (stableSort_mem le x as).mpr hxas
        rw [hs] at hmm
        exact absurd hmm (by simp)
    | cons b bs =>
      rw [hs] at heq
      simp only [stableInsert] at heq
      by_cases hab : le a b = true
      · rw [if_pos hab] at heq
        obtain ⟨rfl, rfl⟩ := List.cons.inj heq
        rcases List.mem_cons.mp hx with rfl | hxas
        · rcases htot x x with hh | hh <;> exact hh
        · exact htrans _ _ _ hab (ih b bs hs x hxas)
      · rw [if_neg hab] at heq
        obtain ⟨rfl, rfl⟩ := List.cons.inj heq
        rcases List.mem_cons.mp hx with rfl | hxas
        · rcases htot x b with hh | hh
          · exact absurd hh hab
          · exact hh
        · exact ih b bs hs x hxas

/-- Claim C9: when the changed stem names a file, `infer_learning_suggestion`
considers exactly the tokens of the changed stem that are not known keywords,
not stopwords, not purely numeric and at least 3 characters long, kept only
when they occur in at least one other file whose current detected type differs
from the new type; it returns none exactly when no token qualifies, and
otherwise returns a qualifying token together with its affected stems such
that no qualifying token affects more files, ties broken by shorter token and
then by lexicographically smaller token. -/
theorem C9_learning_suggestion_ranking (files : List ImportedFile)
    (changed_stem new_type : String) (keywords : List (String × List String))
    (htarget : (files.find? (fun f => f.stem = changed_stem)).isSome = true) :
    (infer_learning_suggestion files changed_stem new_type keywords = none ↔
      learningCandidates files changed_stem new_type keywords = []) ∧
    (∀ t a, (t, a) ∈ learningCandidates files changed_stem new_type keywords ↔
      (t ∈ stem_tokens changed_stem ∧
        (all_keywords keywords).contains t = false ∧
        STOPWORD_TOKENS.contains t = false ∧
        pyIsDigitStr t = false ∧
        3 ≤ t.length ∧
        a = files.filterMap (fun item =>
          if item.stem ≠ changed_stem && pyInStr t (pyLower item.stem) &&
              (item.detected_type.getD "") ≠ new_type then
            some item.stem
          else none) ∧
        a ≠ [])) ∧
    (∀ sugg, infer_learning_suggestion files changed_stem new_type keywords = some sugg →
      sugg.source_stem = changed_stem ∧
      sugg.feature_type = new_type ∧
      (sugg.keyword, sugg.affected_stems) ∈
        learningCandidates files changed_stem new_type keywords ∧
      (∀ t a, (t, a) ∈ learningCandidates files changed_stem new_type keywords →
        a.length ≤ sugg.affected_stems.length ∧
        (a.length = sugg.affected_stems.length →
          sugg.keyword.length ≤ t.length ∧
          (t.length = sugg.keyword.length → pyStrLe sugg.keyword t = true)))) := by
  obtain ⟨tgt, hfind⟩ : ∃ tgt, files.find? (fun f => f.stem = changed_stem) = some tgt := by
    cases hf : files.find? (fun f => f.stem = changed_stem) with
    | none => rw [hf] at htarget; simp at htarget
    | some tgt => exact ⟨tgt, rfl⟩
  refine ⟨?_, ?_, ?_⟩
  · constructor
    · intro hnone
      by_contra hne
      cases hc : learningCandidates files changed_stem new_type keywords with
      | nil => exact hne hc
      | cons c cs =>
        have hmem : c ∈ stableSort candKeyLe (c :: cs) :=
          (stableSort_mem candKeyLe c (c :: cs)).mpr (List.mem_cons_self c cs)
        cases hs : stableSort candKeyLe (c :: cs) with
        | nil =>
          rw [hs] at hmem
          exact absurd hmem (by simp)
        | cons d ds =>
          obtain ⟨dt, da⟩ := d
          rw [infer_learning_suggestion, hfind, hc, hs] at hnone
          exact absurd hnone (by simp)
    · intro hempty
      rw [infer_learning_suggestion, hfind, hempty]
      rfl
  · intro t a
    simp only [learningCandidates, List.mem_filterMap]
    constructor
    · rintro ⟨tok, htok, hf⟩
      by_cases c1 : (all_keywords keywords).contains tok = true
      · rw [if_pos c1] at hf
        exact absurd hf (by simp)
      · rw [if_neg c1] at hf
        by_cases c2 : STOPWORD_TOKENS.contains tok = true
        · rw [if_pos c2] at hf
          exact absurd hf (by simp)
        · rw [if_neg c2] at hf
          by_cases c3 : pyIsDigitStr tok = true
          · rw [if_pos c3] at hf
            exact absurd hf (by simp)
          · rw [if_neg c3] at hf
            by_cases c4 : tok.length < 3
            · rw [if_pos c4] at hf
              exact absurd hf (by simp)
            · rw [if_neg c4] at hf
              try dsimp only at hf
              by_cases c5 : (files.filterMap (fun item =>
                  if item.stem ≠ changed_stem && pyInStr tok (pyLower item.stem) &&
                      (item.detected_type.getD "") ≠ new_type then
                    some item.stem
                  else none)).isEmpty = true
              · rw [if_pos c5] at hf
                exact absurd hf (by simp)
              · rw [if_neg c5] at hf
                simp only [Option.some.injEq, Prod.mk.injEq] at hf
                obtain ⟨rfl, rfl⟩ := hf
                refine ⟨htok, Bool.eq_false_iff.mpr c1, Bool.eq_false_iff.mpr c2,
                  Bool.eq_false_iff.mpr c3, by omega, rfl, ?_⟩
                intro h
                apply c5
                rw [h]
                rfl
    · rintro ⟨ht, hc1, hc2, hc3, hc4, hfa, hane⟩
      have hne5 : ¬ ((files.filterMap (fun item =>
          if item.stem ≠ changed_stem && pyInStr t (pyLower item.stem) &&
              (item.detected_type.getD "") ≠ new_type then
            some item.stem
          else none)).isEmpty = true) := by
        rw [← hfa]
        cases a with
        | nil => exact absurd rfl hane
        | cons _ _ => simp
      refine ⟨t, ht, ?_⟩
      rw [if_neg (Bool.eq_false_iff.mp hc1), if_neg (Bool.eq_false_iff.mp hc2),
        if_neg (Bool.eq_false_iff.mp hc3), if_neg (by omega)]
      try dsimp only
      rw [if_neg hne5, ← hfa]
  · intro sugg hres
    rw [infer_learning_suggestion, hfind] at hres
    cases hs : stableSort candKeyLe (learningCandidates files changed_stem new_type keywords) with
    | nil =>
      rw [hs] at hres
      exact absurd hres (by simp)
    | cons hd tl =>
      rw [hs] at hres
      obtain ⟨tok, aff⟩ := hd
      simp only [Option.some.injEq] at hres
      have hk : sugg.keyword = tok := by rw [← hres]
      have ha : sugg.affected_stems = aff := by rw [← hres]
      have hs1 : sugg.source_stem = changed_stem := by rw [← hres]
      have hs2 : sugg.feature_type = new_type := by rw [← hres]
      refine ⟨hs1, hs2, ?_, ?_⟩
      · rw [hk, ha]
        apply (stableSort_mem candKeyLe (tok, aff) _).mp
        rw [hs]
        exact List.mem_cons_self _ _
      · intro t a hta
        have hle := stableSort_head_min candKeyLe candKeyLe_total candKeyLe_trans
          (learningCandidates files changed_stem new_type keywords) (tok, aff) tl hs
          (t, a) hta
        have hcase := (candKeyLe_iff (tok, aff) (t, a)).mp hle
        try dsimp only at hcase
        rw [hk, ha]
        refine ⟨?_, ?_⟩
        · rcases hcase with h | ⟨he, _⟩
          · exact Nat.le_of_lt h
          · omega
        · intro heq
          refine ⟨?_, ?_⟩
          · rcases hcase with h | ⟨he, h | ⟨hf2, _⟩⟩
            · exact absurd heq (by omega)
            · exact Nat.le_of_lt h
            · omega
          · intro heq2
            rcases hcase with h | ⟨he, h | ⟨hf2, hg⟩⟩
            · exact absurd heq (by omega)
            · exact absurd heq2 (by omega)
            · exact hg

theorem C9_witness :
    ((c9Files.find? (fun f => f.stem = "mall_entrance_north")).isSome = true) ∧
    ((infer_learning_suggestion c9Files "mall_entrance_north" "unit" c9Keywords = none ↔
        learningCandidates c9Files "mall_entrance_north" "unit" c9Keywords = []) ∧
      (∀ t a, (t, a) ∈ learningCandidates c9Files "mall_entrance_north" "unit" c9Keywords ↔
        (t ∈ stem_tokens "mall_entrance_north" ∧
          (all_keywords c9Keywords).contains t = false ∧
          STOPWORD_TOKENS.contains t = false ∧
          pyIsDigitStr t = false ∧
          3 ≤ t.length ∧
          a = c9Files.filterMap (fun item =>
            if item.stem ≠ "mall_entrance_north" && pyInStr t (pyLower item.stem) &&
                (item.detected_type.getD "") ≠ "unit" then
              some item.stem
            else none) ∧
          a ≠ [])) ∧
      (∀ sugg, infer_learning_suggestion c9Files "mall_entrance_north" "unit" c9Keywords =
            some sugg →
        sugg.source_stem = "mall_entrance_north" ∧
        sugg.feature_type = "unit" ∧
        (sugg.keyword, sugg.affected_stems) ∈
          learningCandidates c9Files "mall_entrance_north" "unit" c9Keywords ∧
        (∀ t a, (t, a) ∈ learningCandidates c9Files "mall_entrance_north" "unit" c9Keywords →
          a.length ≤ sugg.affected_stems.length ∧
          (a.length = sugg.affected_stems.length →
            sugg.keyword.length ≤ t.length ∧
            (t.length = sugg.keyword.length → pyStrLe sugg.keyword t = true))))) :=
  ⟨by decide,
    C9_learning_suggestion_ranking c9Files "mall_entrance_north" "unit" c9Keywords (by decide)⟩

theorem c9_concrete_probe :
    (infer_learning_suggestion c9Files "mall_entrance_north" "unit" c9Keywords).map
        (fun s => (s.keyword, s.affected_stems)) =
      some ("mall", ["mall_entrance_south"]) := by
  decide

theorem JO.get_setd_self : ∀ (o : JO) (k : String) (v : JV),
    (o.setd k v).get? k = some v
  | .nil, k, v => by simp [JO.setd, JO.get?]
  | .cons k1 v1 tl, k, v => by
    simp only [JO.setd]
    by_cases h : k1 = k
    · rw [if_pos h]
      simp [JO.get?, h]
    · rw [if_neg h]
      simp [JO.get?, h, JO.get_setd_self tl k v]

theorem JO.get_setd_ne : ∀ (o : JO) (k k2 : String) (v : JV), k2 ≠ k →
    (o.setd k v).get? k2 = o.get? k2
  | .nil, k, k2, v => by
    intro h
    have h2 : ¬ (k = k2) := fun hh => h hh.symm
    simp [JO.setd, JO.get?, h2]
  | .cons k1 v1 tl, k, k2, v => by
    intro h
    simp only [JO.setd]
    by_cases h1 : k1 = k
    · rw [if_pos h1]
      have h2 : ¬ (k1 = k2) := by rw [h1]; exact fun hh => h hh.symm
      simp [JO.get?, h2]
    · rw [if_neg h1]
      by_cases h2 : k1 = k2
      · simp [JO.get?, h2]
      · simp [JO.get?, h2, JO.get_setd_ne tl k k2 v h]

theorem JA.toList_ofList (l : List JV) : (JA.ofList l).toList = l := by
  induction l with
  | nil => rfl
  | cons x xs ih => simp [JA.ofList, JA.toList, ih]

theorem rowIdOf_some (row : JV) (fid : String) (h : rowIdOf row = some fid) :
    ∃ o, row = JV.obj o ∧ o.get? "id" = some (JV.str fid) := by
  cases row with
  | obj o =>
    refine ⟨o, rfl, ?_⟩
    simp only [rowIdOf] at h
    cases hid : o.get? "id" with
    | none => rw [hid] at h; simp at h
    | some v =>
      rw [hid] at h
      cases v with
      | str s => simp at h; rw [h]
      | null => simp at h
      | bool b => simp at h
      | int n => simp at h
      | float z => simp at h
      | arr a => simp at h
      | obj oo => simp at h
  | null => simp [rowIdOf] at h
  | bool b => simp [rowIdOf] at h
  | int n => simp [rowIdOf] at h
  | float z => simp [rowIdOf] at h
  | str s => simp [rowIdOf] at h
  | arr a => simp [rowIdOf] at h

theorem rowIdOf_setd_geometry (o : JO) (v : JV) :
    rowIdOf (JV.obj (o.setd "geometry" v)) = rowIdOf (JV.obj o) := by
  simp only [rowIdOf]
  rw [JO.get_setd_ne o "geometry" "id" v (by decide)]

theorem filterMap_mapIdx_pres {β : Type _} (p : JV → Option β) :
    ∀ (rows : List JV) (f : Nat → JV → JV), (∀ i row, p (f i row) = p row) →
      (rows.mapIdx f).filterMap p = rows.filterMap p := by
  intro rows
  induction rows with
  | nil => intro f hf; simp
  | cons x xs ih =>
    intro f hf
    rw [List.mapIdx_cons, List.filterMap_cons, List.filterMap_cons, hf 0 x,
      ih (fun i a => f (i + 1) a) (fun i row => hf (i + 1) row)]

theorem updateLastById_ids (rows : List JV) (fid : String) (f : JO → JO)
    (hf : ∀ o, (f o).get? "id" = o.get? "id") :
    (updateLastById rows fid f).filterMap rowIdOf = rows.filterMap rowIdOf := by
  unfold updateLastById
  try dsimp only
  split
  · rfl
  · apply filterMap_mapIdx_pres
    intro i row
    split
    · cases row with
      | obj o =>
        simp only [rowIdOf]
        rw [hf o]
      | null => rfl
      | bool b => rfl
      | int n => rfl
      | float z => rfl
      | str s => rfl
      | arr a => rfl
    · rfl

theorem updateLastById_length (rows : List JV) (fid : String) (f : JO → JO) :
    (updateLastById rows fid f).length = rows.length := by
  unfold updateLastById
  try dsimp only
  split
  · rfl
  · simp

theorem safeFixStep_ids {G : Type} (S : Shapely G) (st : List JV × List AutofixApplied)
    (issue : ValidationIssue) :
    (safeFixStep S st issue).1.filterMap rowIdOf = st.1.filterMap rowIdOf := by
  unfold safeFixStep
  repeat' first
    | rfl
    | (apply updateLastById_ids
       intro o2
       exact JO.get_setd_ne o2 "geometry" "id" _ (by decide))
    | dsimp only
    | split

theorem safeFixStep_length {G : Type} (S : Shapely G) (st : List JV × List AutofixApplied)
    (issue : ValidationIssue) :
    (safeFixStep S st issue).1.length = st.1.length := by
  unfold safeFixStep
  repeat' first
    | rfl
    | (apply updateLastById_length)
    | dsimp only
    | split

theorem safeFold_ids {G : Type} (S : Shapely G) :
    ∀ (issues : List ValidationIssue) (st : List JV × List AutofixApplied),
      ((issues.foldl (safeFixStep S) st).1.filterMap rowIdOf = st.1.filterMap rowIdOf) ∧
      ((issues.foldl (safeFixStep S) st).1.length = st.1.length) := by
  intro issues
  induction issues with
  | nil => intro st; exact ⟨rfl, rfl⟩
  | cons i rest ih =>
    intro st
    rw [List.foldl_cons]
    refine ⟨?_, ?_⟩
    · rw [(ih (safeFixStep S st i)).1, safeFixStep_ids]
    · rw [(ih (safeFixStep S st i)).2, safeFixStep_length]

theorem drawFresh_spec :
    ∀ (fresh seen : List String) (nid : String) (fresh1 : List String),
      drawFresh seen fresh = some (nid, fresh1) →
      nid ∈ fresh ∧ nid ∉ seen ∧ ∀ x ∈ fresh1, x ∈ fresh := by
  intro fresh
  induction fresh with
  | nil => intro seen nid fresh1 h; simp [drawFresh] at h
  | cons x xs ih =>
    intro seen nid fresh1 h
    simp only [drawFresh] at h
    by_cases hc : seen.contains x = true
    · rw [if_pos hc] at h
      obtain ⟨h1, h2, h3⟩ := ih seen nid fresh1 h
      exact ⟨List.mem_cons_of_mem _ h1, h2, fun y hy => List.mem_cons_of_mem _ (h3 y hy)⟩
    · rw [if_neg hc] at h
      simp only [Option.some.injEq, Prod.mk.injEq] at h
      obtain ⟨rfl, rfl⟩ := h
      refine ⟨List.mem_cons_self _ _, ?_, fun y hy => List.mem_cons_of_mem _ hy⟩
      intro hmem
      exact hc (by simpa using hmem)

theorem uuidPass_cons_nonid (row : JV) (fresh seen : List String) (rest : List JV)
    (hrow : rowIdOf row = none) :
    uuidPass fresh seen (row :: rest) =
      match uuidPass fresh seen rest with
      | some (rows, fixes, seen2, fresh2) => some (row :: rows, fixes, seen2, fresh2)
      | none => none := by
  cases row with
  | obj o =>
    simp only [rowIdOf] at hrow
    simp only [uuidPass]
    cases hid : o.get? "id" with
    | none => rfl
    | some v =>
      rw [hid] at hrow
      cases v with
      | str s => simp at hrow
      | null => rfl
      | bool b => rfl
      | int n => rfl
      | float z => rfl
      | arr a => rfl
      | obj oo => rfl
  | null => rfl
  | bool b => rfl
  | int n => rfl
  | float z => rfl
  | str s => rfl
  | arr a => rfl

theorem uuidPass_inv :
    ∀ (rows : List JV) (fresh seen : List String) (rows1 : List JV)
      (fixes : List AutofixApplied) (seen2 fresh2 : List String),
      (∀ x ∈ fresh, looksLikeUuid x = true) →
      uuidPass fresh seen rows = some (rows1, fixes, seen2, fresh2) →
      rows1.length = rows.length ∧
      (∀ s ∈ rows1.filterMap rowIdOf, looksLikeUuid s = true ∧ s ∉ seen ∧
        (s ∈ rows.filterMap rowIdOf ∨ s ∈ fresh)) ∧
      (rows1.filterMap rowIdOf).Nodup := by
  intro rows
  induction rows with
  | nil =>
    intro fresh seen rows1 fixes seen2 fresh2 hF h
    simp only [uuidPass, Option.some.injEq, Prod.mk.injEq] at h
    obtain ⟨rfl, rfl, rfl, rfl⟩ := h
    refine ⟨rfl, ?_, by simp⟩
    intro s hs
    simp at hs
  | cons row rest ih =>
    intro fresh seen rows1 fixes seen2 fresh2 hF h
    cases hrid : rowIdOf row with
    | none =>
      rw [uuidPass_cons_nonid row fresh seen rest hrid] at h
      cases hrec : uuidPass fresh seen rest with
      | none => rw [hrec] at h; exact absurd h (by simp)
      | some q =>
        obtain ⟨rows9, fixes9, s9, f9⟩ := q
        rw [hrec] at h
        simp only [Option.some.injEq, Prod.mk.injEq] at h
        obtain ⟨rfl, rfl, rfl, rfl⟩ := h
        obtain ⟨hlen, hmem, hnd⟩ := ih fresh seen rows9 fixes9 _ _ hF hrec
        refine ⟨by simp [hlen], ?_, ?_⟩
        · intro s hs
          rw [List.filterMap_cons_none hrid] at hs
          obtain ⟨hu, hns, hor⟩ := hmem s hs
          refine ⟨hu, hns, ?_⟩
          rcases hor with h1 | h1
          · left
            rw [List.filterMap_cons_none hrid]
            exact h1
          · right; exact h1
        · rw [List.filterMap_cons_none hrid]
          exact hnd
    | some fid =>
      obtain ⟨o, rfl, hid⟩ := rowIdOf_some row fid hrid
      simp only [uuidPass, hid] at h
      by_cases hkeep : (looksLikeUuid fid && !seen.contains fid) = true
      · rw [if_pos hkeep] at h
        obtain ⟨hk1, hk2⟩ := Bool.and_eq_true_iff.mp hkeep
        have hk2' : fid ∉ seen := by simpa using hk2
        cases hrec : uuidPass fresh (fid :: seen) rest with
        | none => rw [hrec] at h; exact absurd h (by simp)
        | some q =>
          obtain ⟨rows9, fixes9, s9, f9⟩ := q
          rw [hrec] at h
          simp only [Option.some.injEq, Prod.mk.injEq] at h
          obtain ⟨rfl, rfl, rfl, rfl⟩ := h
          obtain ⟨hlen, hmem, hnd⟩ := ih fresh (fid :: seen) rows9 fixes9 _ _ hF hrec
          refine ⟨by simp [hlen], ?_, ?_⟩
          · intro s hs
            rw [List.filterMap_cons_some hrid] at hs
            rcases List.mem_cons.mp hs with rfl | hs9
            · refine ⟨hk1, hk2', Or.inl ?_⟩
              rw [List.filterMap_cons_some hrid]
              exact List.mem_cons_self _ _
            · obtain ⟨hu, hns, hor⟩ := hmem s hs9
              refine ⟨hu, fun hc => hns (List.mem_cons_of_mem _ hc), ?_⟩
              rcases hor with h1 | h1
              · left
                rw [List.filterMap_cons_some hrid]
                exact List.mem_cons_of_mem _ h1
              · right; exact h1
          · rw [List.filterMap_cons_some hrid]
            refine List.nodup_cons.mpr ⟨?_, hnd⟩
            intro hcontra
            obtain ⟨_, hns, _⟩ := hmem fid hcontra
            exact hns (List.mem_cons_self _ _)
      · rw [if_neg hkeep] at h
        cases hdraw : drawFresh seen fresh with
        | none => rw [hdraw] at h; exact absurd h (by simp)
        | some p =>
          obtain ⟨nid, fresh1⟩ := p
          rw [hdraw] at h
          try simp only [] at h
          try dsimp only at h
          obtain ⟨hd1, hd2, hd3⟩ := drawFresh_spec fresh seen nid fresh1 hdraw
          cases hrec : uuidPass fresh1 (nid :: seen) rest with
          | none => rw [hrec] at h; exact absurd h (by simp)
          | some q =>
            obtain ⟨rows9, fixes9, s9, f9⟩ := q
            rw [hrec] at h
            simp only [Option.some.injEq, Prod.mk.injEq] at h
            obtain ⟨rfl, rfl, rfl, rfl⟩ := h
            have hF1 : ∀ x ∈ fresh1, looksLikeUuid x = true :=
              fun x hx => hF x (hd3 x hx)
            obtain ⟨hlen, hmem, hnd⟩ :=
              ih fresh1 (nid :: seen) rows9 fixes9 _ _ hF1 hrec
            have hheadid : rowIdOf (JV.obj (o.setd "id" (JV.str nid))) = some nid := by
              simp only [rowIdOf]
              rw [JO.get_setd_self]
            refine ⟨by simp [hlen], ?_, ?_⟩
            · intro s hs
              rw [List.filterMap_cons_some hheadid] at hs
              rcases List.mem_cons.mp hs with rfl | hs9
              · exact ⟨hF s hd1, hd2, Or.inr hd1⟩
              · obtain ⟨hu, hns, hor⟩ := hmem s hs9
                refine ⟨hu, fun hc => hns (List.mem_cons_of_mem _ hc), ?_⟩
                rcases hor with h1 | h1
                · left
                  rw [List.filterMap_cons_some hrid]
                  exact List.mem_cons_of_mem _ h1
                · right; exact hd3 s h1
            · rw [List.filterMap_cons_some hheadid]
              refine List.nodup_cons.mpr ⟨?_, hnd⟩
              intro hcontra
              obtain ⟨_, hns, _⟩ := hmem nid hcontra
              exact hns (List.mem_cons_self _ _)

theorem uuidPass_id :
    ∀ (rows : List JV) (fresh seen : List String),
      (∀ s ∈ rows.filterMap rowIdOf, looksLikeUuid s = true ∧ s ∉ seen) →
      (rows.filterMap rowIdOf).Nodup →
      ∃ seen2, uuidPass fresh seen rows = some (rows, [], seen2, fresh) := by
  intro rows
  induction rows with
  | nil =>
    intro fresh seen _ _
    exact ⟨seen, rfl⟩
  | cons row rest ih =>
    intro fresh seen hmem hnd
    cases hrid : rowIdOf row with
    | none =>
      rw [uuidPass_cons_nonid row fresh seen rest hrid]
      have hmem' : ∀ s ∈ rest.filterMap rowIdOf, looksLikeUuid s = true ∧ s ∉ seen := by
        intro s hs
        apply hmem
        rw [List.filterMap_cons_none hrid]
        exact hs
      have hnd' : (rest.filterMap rowIdOf).Nodup := by
        rw [List.filterMap_cons_none hrid] at hnd
        exact hnd
      obtain ⟨seen2, hrec⟩ := ih fresh seen hmem' hnd'
      rw [hrec]
      exact ⟨seen2, rfl⟩
    | some fid =>
      obtain ⟨o, rfl, hid⟩ := rowIdOf_some row fid hrid
      have hfid := hmem fid (by
        rw [List.filterMap_cons_some hrid]
        exact List.mem_cons_self _ _)
      have hkeep : (looksLikeUuid fid && !seen.contains fid) = true := by
        rw [Bool.and_eq_true_iff]
        exact ⟨hfid.1, by simpa using hfid.2⟩
      rw [List.filterMap_cons_some hrid] at hnd
      have hnd' := (List.nodup_cons.mp hnd).2
      have hfidnot := (List.nodup_cons.mp hnd).1
      have hmem' : ∀ s ∈ rest.filterMap rowIdOf, looksLikeUuid s = true ∧
          s ∉ fid :: seen := by
        intro s hs
        have h0 := hmem s (by
          rw [List.filterMap_cons_some hrid]
          exact List.mem_cons_of_mem _ hs)
        refine ⟨h0.1, ?_⟩
        intro hc
        rcases List.mem_cons.mp hc with rfl | hc2
        · exact hfidnot hs
        · exact h0.2 hc2
      obtain ⟨seen2, hrec⟩ := ih fresh (fid :: seen) hmem' hnd'
      simp only [uuidPass, hid]
      rw [if_pos hkeep, hrec]
      exact ⟨seen2, rfl⟩

theorem promptKeep_ids (td : List String) :
    ∀ rows : List JV,
      (promptKeep td rows).filterMap rowIdOf =
        (rows.filterMap rowIdOf).filter (fun s => !td.contains s) := by
  intro rows
  induction rows with
  | nil => rfl
  | cons row rest ih =>
    cases hrid : rowIdOf row with
    | none =>
      rw [List.filterMap_cons_none hrid]
      cases row with
      | obj o =>
        simp only [rowIdOf] at hrid
        simp only [promptKeep]
        cases hid : o.get? "id" with
        | none =>
          rw [List.filterMap_cons_none (by simp [rowIdOf, hid])]
          exact ih
        | some v =>
          rw [hid] at hrid
          cases v with
          | str s => simp at hrid
          | null =>
            rw [List.filterMap_cons_none (by simp [rowIdOf, hid])]
            exact ih
          | bool b =>
            rw [List.filterMap_cons_none (by simp [rowIdOf, hid])]
            exact ih
          | int n =>
            rw [List.filterMap_cons_none (by simp [rowIdOf, hid])]
            exact ih
          | float z =>
            rw [List.filterMap_cons_none (by simp [rowIdOf, hid])]
            exact ih
          | arr a =>
            rw [List.filterMap_cons_none (by simp [rowIdOf, hid])]
            exact ih
          | obj oo =>
            rw [List.filterMap_cons_none (by simp [rowIdOf, hid])]
            exact ih
      | null => exact ih
      | bool b => exact ih
      | int n => exact ih
      | float z => exact ih
      | str s => exact ih
      | arr a => exact ih
    | some fid =>
      obtain ⟨o, rfl, hid⟩ := rowIdOf_some row fid hrid
      simp only [promptKeep, hid]
      rw [List.filterMap_cons_some hrid, List.filter_cons]
      by_cases hc : td.contains fid = true
      · rw [if_pos hc, if_neg (by rw [hc]; simp)]
        exact ih
      · rw [if_neg hc, if_pos (by rw [Bool.eq_false_iff.mpr hc]; rfl)]
        rw [List.filterMap_cons_some hrid, ih]

theorem promptKeep_subset (td : List String) :
    ∀ (rows : List JV) (x : JV), x ∈ promptKeep td rows → x ∈ rows := by
  intro rows
  induction rows with
  | nil => intro x hx; simp [promptKeep] at hx
  | cons row rest ih =>
    intro x hx
    cases row with
    | obj o =>
      cases hid : o.get? "id" with
      | none =>
        simp only [promptKeep, hid] at hx
        rcases List.mem_cons.mp hx with rfl | hx2
        · exact List.mem_cons_self _ _
        · exact List.mem_cons_of_mem _ (ih x hx2)
      | some v =>
        cases v with
        | str s =>
          simp only [promptKeep, hid] at hx
          by_cases hc : td.contains s = true
          · rw [if_pos hc] at hx
            exact List.mem_cons_of_mem _ (ih x hx)
          · rw [if_neg hc] at hx
            rcases List.mem_cons.mp hx with rfl | hx2
            · exact List.mem_cons_self _ _
            · exact List.mem_cons_of_mem _ (ih x hx2)
        | null =>
          simp only [promptKeep, hid] at hx
          rcases List.mem_cons.mp hx with rfl | hx2
          · exact List.mem_cons_self _ _
          · exact List.mem_cons_of_mem _ (ih x hx2)
        | bool b =>
          simp only [promptKeep, hid] at hx
          rcases List.mem_cons.mp hx with rfl | hx2
          · exact List.mem_cons_self _ _
          · exact List.mem_cons_of_mem _ (ih x hx2)
        | int n =>
          simp only [promptKeep, hid] at hx
          rcases List.mem_cons.mp hx with rfl | hx2
          · exact List.mem_cons_self _ _
          · exact List.mem_cons_of_mem _ (ih x hx2)
        | float z =>
          simp only [promptKeep, hid] at hx
          rcases List.mem_cons.mp hx with rfl | hx2
          · exact List.mem_cons_self _ _
          · exact List.mem_cons_of_mem _ (ih x hx2)
        | arr a =>
          simp only [promptKeep, hid] at hx
          rcases List.mem_cons.mp hx with rfl | hx2
          · exact List.mem_cons_self _ _
          · exact List.mem_cons_of_mem _ (ih x hx2)
        | obj oo =>
          simp only [promptKeep, hid] at hx
          rcases List.mem_cons.mp hx with rfl | hx2
          · exact List.mem_cons_self _ _
          · exact List.mem_cons_of_mem _ (ih x hx2)
    | null => exact List.mem_cons_of_mem _ (ih x hx)
    | bool b => exact List.mem_cons_of_mem _ (ih x hx)
    | int n => exact List.mem_cons_of_mem _ (ih x hx)
    | float z => exact List.mem_cons_of_mem _ (ih x hx)
    | str s => exact List.mem_cons_of_mem _ (ih x hx)
    | arr a => exact List.mem_cons_of_mem _ (ih x hx)

theorem promptFold_keep (td : List String) :
    ∀ (rows : List JV) (acc : List JV) (fx : List AutofixApplied),
      (rows.foldl (promptDeleteStep td) (acc, fx)).1 = acc ++ promptKeep td rows := by
  intro rows
  induction rows with
  | nil => intro acc fx; simp [promptKeep]
  | cons row rest ih =>
    intro acc fx
    rw [List.foldl_cons]
    cases row with
    | obj o =>
      cases hid : o.get? "id" with
      | none =>
        rw [show promptDeleteStep td (acc, fx) (JV.obj o) = (acc ++ [JV.obj o], fx) from by
          simp [promptDeleteStep, hid]]
        rw [ih]
        simp only [promptKeep, hid]
        simp
      | some v =>
        cases v with
        | str s =>
          by_cases hc : td.contains s = true
          · rw [show promptDeleteStep td (acc, fx) (JV.obj o) =
                (acc, fx ++ [{ feature_id := s, check := "prompted_delete",
                               action := "delete_feature",
                               description := "Deleted feature after user confirmation." }]) from by
              simp only [promptDeleteStep, hid]
              rw [if_pos hc]]
            rw [ih]
            simp only [promptKeep, hid]
            rw [if_pos hc]
          · rw [show promptDeleteStep td (acc, fx) (JV.obj o) = (acc ++ [JV.obj o], fx) from by
              simp only [promptDeleteStep, hid]
              rw [if_neg hc]]
            rw [ih]
            simp only [promptKeep, hid]
            rw [if_neg hc]
            simp
        | null =>
          rw [show promptDeleteStep td (acc, fx) (JV.obj o) = (acc ++ [JV.obj o], fx) from by
            simp [promptDeleteStep, hid]]
          rw [ih]
          simp only [promptKeep, hid]
          simp
        | bool b =>
          rw [show promptDeleteStep td (acc, fx) (JV.obj o) = (acc ++ [JV.obj o], fx) from by
            simp [promptDeleteStep, hid]]
          rw [ih]
          simp only [promptKeep, hid]
          simp
        | int n =>
          rw [show promptDeleteStep td (acc, fx) (JV.obj o) = (acc ++ [JV.obj o], fx) from by
            simp [promptDeleteStep, hid]]
          rw [ih]
          simp only [promptKeep, hid]
          simp
        | float z =>
          rw [show promptDeleteStep td (acc, fx) (JV.obj o) = (acc ++ [JV.obj o], fx) from by
            simp [promptDeleteStep, hid]]
          rw [ih]
          simp only [promptKeep, hid]
          simp
        | arr a =>
          rw [show promptDeleteStep td (acc, fx) (JV.obj o) = (acc ++ [JV.obj o], fx) from by
            simp [promptDeleteStep, hid]]
          rw [ih]
          simp only [promptKeep, hid]
          simp
        | obj oo =>
          rw [show promptDeleteStep td (acc, fx) (JV.obj o) = (acc ++ [JV.obj o], fx) from by
            simp [promptDeleteStep, hid]]
          rw [ih]
          simp only [promptKeep, hid]
          simp
    | null =>
      rw [show promptDeleteStep td (acc, fx) JV.null = (acc, fx) from rfl, ih]
      rfl
    | bool b =>
      rw [show promptDeleteStep td (acc, fx) (JV.bool b) = (acc, fx) from rfl, ih]
      rfl
    | int n =>
      rw [show promptDeleteStep td (acc, fx) (JV.int n) = (acc, fx) from rfl, ih]
      rfl
    | float z =>
      rw [show promptDeleteStep td (acc, fx) (JV.float z) = (acc, fx) from rfl, ih]
      rfl
    | str s =>
      rw [show promptDeleteStep td (acc, fx) (JV.str s) = (acc, fx) from rfl, ih]
      rfl
    | arr a =>
      rw [show promptDeleteStep td (acc, fx) (JV.arr a) = (acc, fx) from rfl, ih]
      rfl

theorem promptKeep_len_full (td : List String) :
    ∀ rows : List JV, (rows.filterMap rowIdOf).length = rows.length →
      (promptKeep td rows).length =
        ((rows.filterMap rowIdOf).filter (fun s => !td.contains s)).length := by
  intro rows
  induction rows with
  | nil => intro _; rfl
  | cons row rest ih =>
    intro hfull
    cases hrid : rowIdOf row with
    | none =>
      exfalso
      rw [List.filterMap_cons_none hrid] at hfull
      have hle := List.length_filterMap_le rowIdOf rest
      simp only [List.length_cons] at hfull
      omega
    | some fid =>
      obtain ⟨o, rfl, hid⟩ := rowIdOf_some row fid hrid
      rw [List.filterMap_cons_some hrid] at hfull ⊢
      simp only [List.length_cons] at hfull
      have hfull2 : (rest.filterMap rowIdOf).length = rest.length := by omega
      simp only [promptKeep, hid]
      rw [List.filter_cons]
      by_cases hc : td.contains fid = true
      · rw [if_pos hc, if_neg (by rw [hc]; simp)]
        exact ih hfull2
      · rw [if_neg hc, if_pos (by rw [Bool.eq_false_iff.mpr hc]; rfl)]
        simp only [List.length_cons]
        rw [ih hfull2]

theorem filter_not_single_length (a : String) :
    ∀ l : List String, l.Nodup → a ∈ l →
      (l.filter (fun s => !([a].contains s))).length + 1 = l.length := by
  intro l
  induction l with
  | nil => intro _ h; simp at h
  | cons x xs ih =>
    intro hnd hmem
    rw [List.filter_cons]
    by_cases hx : x = a
    · subst hx
      rw [if_neg (by simp)]
      have hrest : xs.filter (fun s => !([x].contains s)) = xs := by
        apply List.filter_eq_self.mpr
        intro b hb
        have hbx : ¬ (b = x) := fun hh => (List.nodup_cons.mp hnd).1 (hh ▸ hb)
        simp [hbx]
      rw [hrest]
      simp
    · have hmem2 : a ∈ xs := by
        rcases List.mem_cons.mp hmem with rfl | hmm
        · exact absurd rfl hx
        · exact hmm
      rw [if_pos (by simp [hx])]
      have := ih (List.nodup_cons.mp hnd).2 hmem2
      simp only [List.length_cons]
      omega

theorem featureIdsOf_setd (fc : JO) (rows : List JV) :
    featureIdsOf (fc.setd "features" (.arr (JA.ofList rows))) = rows.filterMap rowIdOf := by
  unfold featureIdsOf
  rw [JO.get_setd_self]
  show (JA.ofList rows).toList.filterMap rowIdOf = rows.filterMap rowIdOf
  rw [JA.toList_ofList]

theorem featureIdsOf_arr (fc : JO) (xs : JA) (hfeat : fc.get? "features" = some (.arr xs)) :
    featureIdsOf fc = xs.toList.filterMap rowIdOf := by
  unfold featureIdsOf
  rw [hfeat]

theorem apply_autofix_ids_arr {G : Type} (S : Shapely G) (fresh : List String) (fc : JO)
    (xs : JA) (validation : ValidationResponse) (ap : Bool)
    (hfeat : fc.get? "features" = some (JV.arr xs))
    (rows1 : List JV) (uuidFixes : List AutofixApplied) (s2 f2 : List String)
    (hpass : uuidPass fresh [] xs.toList = some (rows1, uuidFixes, s2, f2))
    (td : List String)
    (htd : td = (dupPairsOf (validation.errors ++ validation.warnings)).map
        (fun p => pyStrMax p.1 p.2) ++ emptyIdsOf (validation.errors ++ validation.warnings))
    (fc' : JO) (fixes : List AutofixApplied) (prompts : List AutofixPrompt)
    (h : apply_autofix S fresh fc validation ap = some (fc', fixes, prompts)) :
    featureIdsOf fc' =
      if (ap && !td.isEmpty) = true
      then (rows1.filterMap rowIdOf).filter (fun s => !td.contains s)
      else rows1.filterMap rowIdOf := by
  subst htd
  unfold apply_autofix at h
  rw [hfeat] at h
  try simp only [] at h
  try dsimp only at h
  rw [hpass] at h
  try simp only [] at h
  try dsimp only at h
  by_cases hbr : (ap && !(((dupPairsOf (validation.errors ++ validation.warnings)).map
      (fun p => pyStrMax p.1 p.2) ++
        emptyIdsOf (validation.errors ++ validation.warnings)).isEmpty)) = true
  · rw [if_pos hbr] at h
    rw [if_pos hbr]
    simp only [Option.some.injEq, Prod.mk.injEq] at h
    obtain ⟨h1, _, _⟩ := h
    rw [← h1, featureIdsOf_setd, promptFold_keep, List.nil_append, promptKeep_ids,
      (safeFold_ids S (validation.errors ++ validation.warnings) (rows1, uuidFixes)).1]
  · rw [if_neg hbr] at h
    rw [if_neg hbr]
    simp only [Option.some.injEq, Prod.mk.injEq] at h
    obtain ⟨h1, _, _⟩ := h
    rw [← h1, featureIdsOf_setd,
      (safeFold_ids S (validation.errors ++ validation.warnings) (rows1, uuidFixes)).1]

/-- Claim C10: after `apply_autofix`\x27s identifier pass, provided the modelled
`uuid4()` stream only yields well-formed UUID strings, every string id in the
returned collection parses as a UUID, no two features share an id, and every
id is either an original feature id that was kept or one drawn from the fresh
stream. -/
theorem C10_autofix_id_invariant {G : Type} (S : Shapely G) (fresh : List String) (fc : JO)
    (validation : ValidationResponse) (ap : Bool)
    (hF : ∀ x ∈ fresh, looksLikeUuid x = true)
    (fc' : JO) (fixes : List AutofixApplied) (prompts : List AutofixPrompt)
    (h : apply_autofix S fresh fc validation ap = some (fc', fixes, prompts)) :
    (∀ s ∈ featureIdsOf fc', looksLikeUuid s = true) ∧
    (featureIdsOf fc').Nodup ∧
    (∀ s ∈ featureIdsOf fc', s ∈ featureIdsOf fc ∨ s ∈ fresh) := by
  cases hfeat : fc.get? "features" with
  | none =>
    unfold apply_autofix at h
    rw [hfeat] at h
    try simp only [] at h
    try dsimp only at h
    simp only [uuidPass] at h
    try dsimp only at h
    by_cases hbr : (ap && !(((dupPairsOf (validation.errors ++ validation.warnings)).map
        (fun p => pyStrMax p.1 p.2) ++
          emptyIdsOf (validation.errors ++ validation.warnings)).isEmpty)) = true
    · rw [if_pos hbr] at h
      simp only [Option.some.injEq, Prod.mk.injEq] at h
      obtain ⟨h1, _, _⟩ := h
      have hemp : featureIdsOf fc' = [] := by
        rw [← h1, featureIdsOf_setd, promptFold_keep, List.nil_append, promptKeep_ids,
          (safeFold_ids S (validation.errors ++ validation.warnings) ([], [])).1]
        rfl
      refine ⟨?_, ?_, ?_⟩
      · intro s hs; rw [hemp] at hs; simp at hs
      · rw [hemp]; simp
      · intro s hs; rw [hemp] at hs; simp at hs
    · rw [if_neg hbr] at h
      simp only [Option.some.injEq, Prod.mk.injEq] at h
      obtain ⟨h1, _, _⟩ := h
      have hemp : featureIdsOf fc' = [] := by
        rw [← h1]
        unfold featureIdsOf
        rw [hfeat]
      refine ⟨?_, ?_, ?_⟩
      · intro s hs; rw [hemp] at hs; simp at hs
      · rw [hemp]; simp
      · intro s hs; rw [hemp] at hs; simp at hs
  | some v =>
    cases v with
    | arr xs =>
      cases hpass : uuidPass fresh [] xs.toList with
      | none =>
        exfalso
        unfold apply_autofix at h
        rw [hfeat] at h
        try simp only [] at h
        try dsimp only at h
        rw [hpass] at h
        exact absurd h (by simp)
      | some q =>
        obtain ⟨rows1, uuidFixes, s2, f2⟩ := q
        have hids := apply_autofix_ids_arr S fresh fc xs validation ap hfeat rows1 uuidFixes
          s2 f2 hpass _ rfl fc' fixes prompts h
        obtain ⟨hlen, hmem, hnd⟩ := uuidPass_inv xs.toList fresh [] rows1 uuidFixes s2 f2 hF hpass
        have horig : featureIdsOf fc = xs.toList.filterMap rowIdOf := featureIdsOf_arr fc xs hfeat
        by_cases hbr : (ap && !(((dupPairsOf (validation.errors ++ validation.warnings)).map
            (fun p => pyStrMax p.1 p.2) ++
              emptyIdsOf (validation.errors ++ validation.warnings)).isEmpty)) = true
        · rw [if_pos hbr] at hids
          refine ⟨?_, ?_, ?_⟩
          · intro s hs
            rw [hids] at hs
            exact (hmem s (List.mem_of_mem_filter hs)).1
          · rw [hids]
            exact hnd.filter _
          · intro s hs
            rw [hids] at hs
            rw [horig]
            exact (hmem s (List.mem_of_mem_filter hs)).2.2
        · rw [if_neg hbr] at hids
          refine ⟨?_, ?_, ?_⟩
          · intro s hs
            rw [hids] at hs
            exact (hmem s hs).1
          · rw [hids]
            exact hnd
          · intro s hs
            rw [hids] at hs
            rw [horig]
            exact (hmem s hs).2.2
    | null =>
      unfold apply_autofix at h
      rw [hfeat] at h
      try simp only [] at h
      try dsimp only at h
      simp only [Option.some.injEq, Prod.mk.injEq] at h
      obtain ⟨h1, _, _⟩ := h
      have hemp : featureIdsOf fc' = [] := by
        rw [← h1]
        unfold featureIdsOf
        rw [hfeat]
      refine ⟨?_, ?_, ?_⟩
      · intro s hs; rw [hemp] at hs; simp at hs
      · rw [hemp]; simp
      · intro s hs; rw [hemp] at hs; simp at hs
    | bool b =>
      unfold apply_autofix at h
      rw [hfeat] at h
      try simp only [] at h
      try dsimp only at h
      simp only [Option.some.injEq, Prod.mk.injEq] at h
      obtain ⟨h1, _, _⟩ := h
      have hemp : featureIdsOf fc' = [] := by
        rw [← h1]
        unfold featureIdsOf
        rw [hfeat]
      refine ⟨?_, ?_, ?_⟩
      · intro s hs; rw [hemp] at hs; simp at hs
      · rw [hemp]; simp
      · intro s hs; rw [hemp] at hs; simp at hs
    | int n =>
      unfold apply_autofix at h
      rw [hfeat] at h
      try simp only [] at h
      try dsimp only at h
      simp only [Option.some.injEq, Prod.mk.injEq] at h
      obtain ⟨h1, _, _⟩ := h
      have hemp : featureIdsOf fc' = [] := by
        rw [← h1]
        unfold featureIdsOf
        rw [hfeat]
      refine ⟨?_, ?_, ?_⟩
      · intro s hs; rw [hemp] at hs; simp at hs
      · rw [hemp]; simp
      · intro s hs; rw [hemp] at hs; simp at hs
    | float z =>
      unfold apply_autofix at h
      rw [hfeat] at h
      try simp only [] at h
      try dsimp only at h
      simp only [Option.some.injEq, Prod.mk.injEq] at h
      obtain ⟨h1, _, _⟩ := h
      have hemp : featureIdsOf fc' = [] := by
        rw [← h1]
        unfold featureIdsOf
        rw [hfeat]
      refine ⟨?_, ?_, ?_⟩
      · intro s hs; rw [hemp] at hs; simp at hs
      · rw [hemp]; simp
      · intro s hs; rw [hemp] at hs; simp at hs
    | str s0 =>
      unfold apply_autofix at h
      rw [hfeat] at h
      try simp only [] at h
      try dsimp only at h
      simp only [Option.some.injEq, Prod.mk.injEq] at h
      obtain ⟨h1, _, _⟩ := h
      have hemp : featureIdsOf fc' = [] := by
        rw [← h1]
        unfold featureIdsOf
        rw [hfeat]
      refine ⟨?_, ?_, ?_⟩
      · intro s hs; rw [hemp] at hs; simp at hs
      · rw [hemp]; simp
      · intro s hs; rw [hemp] at hs; simp at hs
    | obj oo =>
      unfold apply_autofix at h
      rw [hfeat] at h
      try simp only [] at h
      try dsimp only at h
      simp only [Option.some.injEq, Prod.mk.injEq] at h
      obtain ⟨h1, _, _⟩ := h
      have hemp : featureIdsOf fc' = [] := by
        rw [← h1]
        unfold featureIdsOf
        rw [hfeat]
      refine ⟨?_, ?_, ?_⟩
      · intro s hs; rw [hemp] at hs; simp at hs
      · rw [hemp]; simp
      · intro s hs; rw [hemp] at hs; simp at hs

theorem C10_witness :
    (∀ x ∈ c10Fresh, looksLikeUuid x = true) ∧
    ((∀ s ∈ featureIdsOf c10Out, looksLikeUuid s = true) ∧
      (featureIdsOf c10Out).Nodup ∧
      (∀ s ∈ featureIdsOf c10Out, s ∈ featureIdsOf c10Fc ∨ s ∈ c10Fresh)) :=
  ⟨by decide,
    C10_autofix_id_invariant unitShapely c10Fresh c10Fc c10Val false
      (by decide) c10Out c10Fixes [] rfl⟩

/-- Claim C3: with `apply_prompted` true, a features array whose string ids
are well-formed distinct UUIDs, and a nonempty deletion set, autofix removes
exactly the features whose id is flagged for deletion: for every duplicate
pair the lexicographically larger id is deleted and the smaller id is kept
(when it is present and not itself flagged), every empty-geometry id is
deleted, and with a single duplicate pair and no empty-geometry issues the
surviving collection has exactly one feature less. -/
theorem C3_prompted_deletions {G : Type} (S : Shapely G) (fresh : List String) (fc : JO)
    (xs : JA) (validation : ValidationResponse)
    (hfeat : fc.get? "features" = some (JV.arr xs))
    (hU : ∀ s ∈ featureIdsOf fc, looksLikeUuid s = true)
    (hND : (featureIdsOf fc).Nodup)
    (htd : toDeleteOf (validation.errors ++ validation.warnings) ≠ [])
    (fc' : JO) (fixes : List AutofixApplied) (prompts : List AutofixPrompt)
    (h : apply_autofix S fresh fc validation true = some (fc', fixes, prompts)) :
    featureIdsOf fc' = (featureIdsOf fc).filter
      (fun s => !(toDeleteOf (validation.errors ++ validation.warnings)).contains s) ∧
    (∀ l r, (l, r) ∈ dupPairsOf (validation.errors ++ validation.warnings) →
      pyStrMax l r ∉ featureIdsOf fc' ∧
      (pyStrMin l r ∈ featureIdsOf fc →
        pyStrMin l r ∉ toDeleteOf (validation.errors ++ validation.warnings) →
        pyStrMin l r ∈ featureIdsOf fc')) ∧
    (∀ e ∈ emptyIdsOf (validation.errors ++ validation.warnings), e ∉ featureIdsOf fc') ∧
    (∀ l r, dupPairsOf (validation.errors ++ validation.warnings) = [(l, r)] →
      emptyIdsOf (validation.errors ++ validation.warnings) = [] →
      pyStrMax l r ∈ featureIdsOf fc →
      (featureIdsOf fc').length + 1 = (featureIdsOf fc).length) := by
  have horig : featureIdsOf fc = xs.toList.filterMap rowIdOf := featureIdsOf_arr fc xs hfeat
  have hmem0 : ∀ s ∈ xs.toList.filterMap rowIdOf,
      looksLikeUuid s = true ∧ s ∉ ([] : List String) := by
    intro s hs
    exact ⟨hU s (by rw [horig]; exact hs), by simp⟩
  have hnd0 : (xs.toList.filterMap rowIdOf).Nodup := by rw [horig] at hND; exact hND
  obtain ⟨s2, hpass⟩ := uuidPass_id xs.toList fresh [] hmem0 hnd0
  have hids := apply_autofix_ids_arr S fresh fc xs validation true hfeat xs.toList [] s2 fresh
    hpass _ rfl fc' fixes prompts h
  have hne : ((dupPairsOf (validation.errors ++ validation.warnings)).map
      (fun p => pyStrMax p.1 p.2) ++
        emptyIdsOf (validation.errors ++ validation.warnings)) ≠ [] := htd
  have hbr : (true && !(((dupPairsOf (validation.errors ++ validation.warnings)).map
      (fun p => pyStrMax p.1 p.2) ++
        emptyIdsOf (validation.errors ++ validation.warnings)).isEmpty)) = true := by
    rw [Bool.true_and]
    cases hq : ((dupPairsOf (validation.errors ++ validation.warnings)).map
        (fun p => pyStrMax p.1 p.2) ++
          emptyIdsOf (validation.errors ++ validation.warnings)) with
    | nil => exact absurd hq hne
    | cons a l => simp
  rw [if_pos hbr] at hids
  have ha : featureIdsOf fc' = (featureIdsOf fc).filter
      (fun s => !(toDeleteOf (validation.errors ++ validation.warnings)).contains s) := by
    rw [hids, horig]
    rfl
  refine ⟨ha, ?_, ?_, ?_⟩
  · intro l r hlr
    constructor
    · intro hmemf
      rw [ha] at hmemf
      have hp := (List.mem_filter.mp hmemf).2
      have hmemtd : pyStrMax l r ∈ toDeleteOf (validation.errors ++ validation.warnings) := by
        unfold toDeleteOf
        apply List.mem_append_left
        exact List.mem_map.mpr ⟨(l, r), hlr, rfl⟩
      have hcont : (toDeleteOf (validation.errors ++ validation.warnings)).contains
          (pyStrMax l r) = true := by simpa using hmemtd
      rw [hcont] at hp
      simp at hp
    · intro hminfc hmintd
      rw [ha]
      refine List.mem_filter.mpr ⟨hminfc, ?_⟩
      simpa using hmintd
  · intro e hemem
    intro hmemf
    rw [ha] at hmemf
    have hp := (List.mem_filter.mp hmemf).2
    have hmemtd : e ∈ toDeleteOf (validation.errors ++ validation.warnings) := by
      unfold toDeleteOf
      exact List.mem_append_right _ hemem
    have hcont : (toDeleteOf (validation.errors ++ validation.warnings)).contains e = true := by
      simpa using hmemtd
    rw [hcont] at hp
    simp at hp
  · intro l r hdup hemp hmax
    have htd1 : toDeleteOf (validation.errors ++ validation.warnings) = [pyStrMax l r] := by
      unfold toDeleteOf
      rw [hdup, hemp]
      simp
    rw [ha, htd1]
    exact filter_not_single_length (pyStrMax l r) (featureIdsOf fc) hND hmax

theorem C3_witness :
    c3Fc.get? "features" = some (JV.arr (JA.ofList [.obj c3Row1, .obj c3Row2])) ∧
    (∀ s ∈ featureIdsOf c3Fc, looksLikeUuid s = true) ∧
    (featureIdsOf c3Fc).Nodup ∧
    toDeleteOf (c3Val.errors ++ c3Val.warnings) ≠ [] ∧
    (featureIdsOf c3Out = (featureIdsOf c3Fc).filter
        (fun s => !(toDeleteOf (c3Val.errors ++ c3Val.warnings)).contains s) ∧
      (∀ l r, (l, r) ∈ dupPairsOf (c3Val.errors ++ c3Val.warnings) →
        pyStrMax l r ∉ featureIdsOf c3Out ∧
        (pyStrMin l r ∈ featureIdsOf c3Fc →
          pyStrMin l r ∉ toDeleteOf (c3Val.errors ++ c3Val.warnings) →
          pyStrMin l r ∈ featureIdsOf c3Out)) ∧
      (∀ e ∈ emptyIdsOf (c3Val.errors ++ c3Val.warnings), e ∉ featureIdsOf c3Out) ∧
      (∀ l r, dupPairsOf (c3Val.errors ++ c3Val.warnings) = [(l, r)] →
        emptyIdsOf (c3Val.errors ++ c3Val.warnings) = [] →
        pyStrMax l r ∈ featureIdsOf c3Fc →
        (featureIdsOf c3Out).length + 1 = (featureIdsOf c3Fc).length)) :=
  ⟨rfl, by decide, by decide, by decide,
    C3_prompted_deletions unitShapely [] c3Fc (JA.ofList [.obj c3Row1, .obj c3Row2]) c3Val
      rfl (by decide) (by decide) (by decide) c3Out c3Fixes c3Prompts rfl⟩

theorem c3_concrete_probe :
    apply_autofix unitShapely [] c3Fc c3Val true = some (c3Out, c3Fixes, c3Prompts) ∧
    featureIdsOf c3Out = [c3U1] ∧
    apply_autofix unitShapely c10Fresh c10Fc c10Val false = some (c10Out, c10Fixes, []) := by
  refine ⟨rfl, by decide, rfl⟩

theorem foldl_inv {α : Type _} {β : Type _} (P : α → Prop) (f : α → β → α)
    (hf : ∀ a b, P a → P (f a b)) :
    ∀ (l : List β) (a : α), P a → P (l.foldl f a) := by
  intro l
  induction l with
  | nil => intro a h; exact h
  | cons b t ih =>
    intro a h
    rw [List.foldl_cons]
    exact ih (f a b) (hf a b h)

theorem pyRows_mkFc (final : List JV) :
    pyRows (JO.ofList [("type", .str "FeatureCollection"),
      ("features", .arr (JA.ofList final))]) =
      final.filter (fun r => match r with | .obj _ => true | _ => false) := by
  unfold pyRows
  show (JA.ofList final).toList.filter _ = _
  rw [JA.toList_ofList]

set_option maxHeartbeats 2000000 in
theorem mappedStep_inv {G : Type} (S : Shapely G) (stableId : String → String → String)
    (session_id : String) (uuidStream : Nat → String)
    (file_map : List (String × ImportedFile)) (levelBuilds : List (Generator.LevelBuild G))
    (cm : List (String × String)) (vcats : List String) (dcat : String)
    (mc : WizardMappingsState) (language : String)
    (st : List JV × Nat) (row : JV)
    (hP : ∀ x ∈ st.1, ∃ lb, lb ∈ levelBuilds ∧
      (propsOf x).get? "level_id" =
        some (JV.str (Generator.levelIdOf stableId session_id lb))) :
    ∀ x ∈ (Generator.mappedStep S stableId session_id uuidStream file_map levelBuilds cm
        vcats dcat mc language st row).1, ∃ lb, lb ∈ levelBuilds ∧
      (propsOf x).get? "level_id" =
        some (JV.str (Generator.levelIdOf stableId session_id lb)) := by
  unfold Generator.mappedStep
  try dsimp only
  rcases hsf : (propsOf row).get? "source_file" with _ | v
  · exact hP
  · rcases v with _ | b | n | z | stem | a | o2
    · exact hP
    · exact hP
    · exact hP
    · exact hP
    · try dsimp only
      by_cases hstem : stem = ""
      · rw [if_pos hstem]
        exact hP
      · rw [if_neg hstem]
        rcases hfm : alistGet? file_map stem with _ | file_info
        · exact hP
        · try dsimp only
          by_cases hft : (!(["unit", "opening", "fixture", "detail"].contains
              (pyLower ((file_info.detected_type).getD "")))) = true
          · rw [if_pos hft]
            exact hP
          · rw [if_neg hft]
            rcases hg : rowGet? row "geometry" with _ | gv
            · exact hP
            · rcases gv with _ | b2 | n2 | z2 | s2 | a2 | gpl
              · exact hP
              · exact hP
              · exact hP
              · exact hP
              · exact hP
              · exact hP
              · try dsimp only
                rcases hsh : S.shape gpl with _ | geom
                · exact hP
                · try dsimp only
                  by_cases hemp : S.isEmpty geom = true
                  · rw [if_pos hemp]
                    exact hP
                  · rw [if_neg hemp]
                    rcases hdl : file_info.detected_level with _ | ordinal
                    · exact hP
                    · try dsimp only
                      intro x hx
                      split at hx
                      · exact hP x hx
                      · rename_i level_id hlid
                        rcases List.mem_append.mp hx with hold | hnew
                        · exact hP x hold
                        · obtain ⟨lb, hfind, hlb⟩ := Option.map_eq_some'.mp hlid
                          have hxeq := List.mem_singleton.mp hnew
                          subst hxeq
                          refine ⟨lb, List.mem_of_find?_eq_some hfind, ?_⟩
                          rw [hlb]
                          repeat' split
                          all_goals rfl
    · exact hP
    · exact hP

theorem buildMapped_inv {G : Type} (S : Shapely G) (stableId : String → String → String)
    (session_id : String) (uuidStream : Nat → String) (ctr : Nat)
    (source_rows : List JV) (file_map : List (String × ImportedFile))
    (levelBuilds : List (Generator.LevelBuild G))
    (cm : List (String × String)) (vcats : List String) (dcat : String)
    (mc : WizardMappingsState) (language : String) :
    ∀ x ∈ (Generator.buildMapped S stableId session_id uuidStream ctr source_rows file_map
        levelBuilds cm vcats dcat mc language).1, ∃ lb, lb ∈ levelBuilds ∧
      (propsOf x).get? "level_id" =
        some (JV.str (Generator.levelIdOf stableId session_id lb)) := by
  unfold Generator.buildMapped
  apply foldl_inv (fun (st : List JV × Nat) => ∀ x ∈ st.1, ∃ lb, lb ∈ levelBuilds ∧
    (propsOf x).get? "level_id" =
      some (JV.str (Generator.levelIdOf stableId session_id lb)))
  · intro a b hPa
    exact mappedStep_inv S stableId session_id uuidStream file_map levelBuilds cm vcats dcat
      mc language a b hPa
  · intro x hx
    simp at hx

theorem buildFootprints_types {G : Type} (S : Shapely G)
    (stableId : String → String → String) (session_id : String)
    (building_rows : List BuildingWizardState)
    (file_map : List (String × ImportedFile)) (unit_geoms : List (String × List G))
    (levelBuilds : List (Generator.LevelBuild G)) :
    ∀ x ∈ (Generator.buildFootprints S stableId session_id building_rows file_map unit_geoms
        levelBuilds).1, featureType x = "footprint" := by
  unfold Generator.buildFootprints
  apply foldl_inv (fun (st : List JV × List (String × G) × List (String × G)) =>
    ∀ x ∈ st.1, featureType x = "footprint")
  · intro a b hPa
    try dsimp only
    apply foldl_inv (fun (st2 : List JV × List (String × G) × List (String × G)) =>
      ∀ x ∈ st2.1, featureType x = "footprint")
    · intro a2 b2 hPa2
      try dsimp only
      intro x hx
      repeat' split at hx
      all_goals
        first
        | exact hPa2 x hx
        | (rcases List.mem_append.mp hx with hold | hnew
           exacts [hPa2 x hold, by rw [List.mem_singleton.mp hnew]; rfl])
    · exact hPa
  · intro x hx
    simp at hx

theorem buildBuildings_types {G : Type} (S : Shapely G)
    (stableId : String → String → String) (session_id language : String)
    (project : Option ProjectWizardState) (building_rows : List BuildingWizardState)
    (gm fm : List (String × G)) :
    ∀ x ∈ Generator.buildBuildings S stableId session_id language project building_rows
        gm fm, featureType x = "building" := by
  intro x hx
  unfold Generator.buildBuildings at hx
  obtain ⟨b, _, rfl⟩ := List.mem_map.mp hx
  rfl

theorem buildVenue_type {G : Type} (S : Shapely G) (stableId : String → String → String)
    (session : SessionRecord) (p : ProjectWizardState) (language : String)
    (fps : List JV) (levelBuilds : List (Generator.LevelBuild G))
    (unit_geoms : List (String × List G)) (vaid : Option String) (v : JV)
    (h : Generator.buildVenue S stableId session p language fps levelBuilds unit_geoms
      vaid = some v) : featureType v = "venue" := by
  unfold Generator.buildVenue at h
  try dsimp only at h
  repeat' split at h
  all_goals
    first
    | exact Option.noConfusion h
    | (injection h with h2
       rw [← h2]
       rfl)

theorem levelFeature_type {G : Type} (S : Shapely G) (stableId : String → String → String)
    (sid lang : String) (lb : Generator.LevelBuild G) :
    featureType (Generator.levelFeatureOf S stableId sid lang lb) = "level" := rfl

theorem levelFeature_id {G : Type} (S : Shapely G) (stableId : String → String → String)
    (sid lang : String) (lb : Generator.LevelBuild G) :
    rowIdOf (Generator.levelFeatureOf S stableId sid lang lb) =
      some (Generator.levelIdOf stableId sid lb) := rfl

/-- Claim C5: every unit/opening/fixture/detail feature of a generated
collection carries a `level_id` equal to the id of a level feature present in
the same collection, provided the wizard-supplied address features are not of
a level-linked type (the generator emits them unmodified); source rows whose
ordinal resolves to no generated level are skipped, so no dangling `level_id`
is ever emitted. -/
theorem C5_level_id_closure {G : Type} (S : Shapely G) (stableId : String → String → String)
    (uuidStream : Nat → String) (session : SessionRecord)
    (vcats : List String) (fallback : String)
    (haddr : ∀ x ∈ (Generator.collect_address_features (Wizard.seed_wizard_state session)
        uuidStream 0).1,
      (["unit", "opening", "fixture", "detail"].contains (featureType x)) = false) :
    ∀ row ∈ pyRows (Generator.generate_feature_collection S stableId uuidStream session
        vcats fallback),
      (["unit", "opening", "fixture", "detail"].contains (featureType row)) = true →
      ∃ lvl, lvl ∈ pyRows (Generator.generate_feature_collection S stableId uuidStream session
          vcats fallback) ∧
        featureType lvl = "level" ∧
        ∃ lid, (propsOf row).get? "level_id" = some (JV.str lid) ∧ rowIdOf lvl = some lid := by
  intro row hrow htype
  unfold Generator.generate_feature_collection at hrow ⊢
  try dsimp only at hrow ⊢
  rw [pyRows_mkFc] at hrow ⊢
  obtain ⟨hmemapp, hpobj⟩ := List.mem_filter.mp hrow
  rcases List.mem_append.mp hmemapp with h5 | hM
  · rcases List.mem_append.mp h5 with h4 | hL
    · rcases List.mem_append.mp h4 with h3 | hF
      · rcases List.mem_append.mp h3 with h2 | hB
        · rcases List.mem_append.mp h2 with hA | hV
          · have hfa := haddr row hA
            rw [hfa] at htype
            simp at htype
          · have hVo := Option.mem_toList.mp hV
            have hVeq := Option.mem_def.mp hVo
            rcases hproj : (Wizard.seed_wizard_state session).wizard.project with _ | p
            · rw [hproj] at hVeq
              exact absurd hVeq (by simp)
            · rw [hproj] at hVeq
              have hft := buildVenue_type _ _ _ _ _ _ _ _ _ _ hVeq
              rw [hft] at htype
              exact absurd htype (by decide)
        · have hfb := buildBuildings_types _ _ _ _ _ _ _ _ row hB
          rw [hfb] at htype
          exact absurd htype (by decide)
      · have hff := buildFootprints_types _ _ _ _ _ _ _ row hF
        rw [hff] at htype
        exact absurd htype (by decide)
    · obtain ⟨lb0, _, rfl⟩ := List.mem_map.mp hL
      rw [levelFeature_type] at htype
      exact absurd htype (by decide)
  · have hQ := buildMapped_inv S stableId (Wizard.seed_wizard_state session).session_id
      uuidStream _ _ _ _ _ _ _ _ _ row hM
    obtain ⟨lb, hlbmem, hlid⟩ := hQ
    refine ⟨Generator.levelFeatureOf S stableId (Wizard.seed_wizard_state session).session_id
      (match (Wizard.seed_wizard_state session).wizard.project with
       | some p0 => if pyStrip p0.language ≠ "" then pyStrip p0.language else "en"
       | none => "en") lb, ?_, ?_, ?_⟩
    · refine List.mem_filter.mpr ⟨?_, by rfl⟩
      apply List.mem_append_left
      apply List.mem_append_right
      exact List.mem_map_of_mem _ hlbmem
    · exact levelFeature_type _ _ _ _ _
    · exact ⟨Generator.levelIdOf stableId (Wizard.seed_wizard_state session).session_id lb,
        hlid, levelFeature_id _ _ _ _ _⟩

theorem C5_witness :
    (∀ x ∈ (Generator.collect_address_features (Wizard.seed_wizard_state c4Session)
        (fun n => "uuid4:" ++ toString n) 0).1,
      (["unit", "opening", "fixture", "detail"].contains (featureType x)) = false) ∧
    (∀ row ∈ pyRows c4Collection,
      (["unit", "opening", "fixture", "detail"].contains (featureType row)) = true →
      ∃ lvl, lvl ∈ pyRows c4Collection ∧
        featureType lvl = "level" ∧
        ∃ lid, (propsOf row).get? "level_id" = some (JV.str lid) ∧ rowIdOf lvl = some lid) :=
  ⟨by decide,
    C5_level_id_closure unitShapely (fun sid key => "uuid5:" ++ sid ++ ":" ++ key)
      (fun n => "uuid4:" ++ toString n) c4Session ["unspecified"] "unspecified" (by decide)⟩

theorem c5_concrete_probe :
    ((pyRows c4Collection).all (fun row =>
      !(["unit", "opening", "fixture", "detail"].contains (featureType row)) ||
      (pyRows c4Collection).any (fun lvl =>
        featureType lvl == "level" &&
        (match (propsOf row).get? "level_id", rowIdOf lvl with
         | some (.str lid), some lid2 => lid = lid2
         | _, _ => false)))) = true ∧
    ((pyRows c4Collection).any (fun row => featureType row == "unit")) = true := by
  refine ⟨by decide, by decide⟩
